import Mathlib

/-!
# CATS flight software: telemetry codec and flight recorder

A shallow embedding of the telemetry frame parser, the downlink payload
packing and the flash recorder of the CATS flight computer, with the
properties of the design specification stated and settled over it.

Bytes and machine words are natural numbers; where the C code relies on a
fixed width the reduction modulo `2 ^ w` is written out.
-/

namespace Cats

/-! ## Telemetry opcodes (`Telemetry_reg.h`, which spells 0x21 `CMD_DISBALE`; the flight computer
uses `CMD_DISABLE`) -/

def CMD_DIRECTION : Nat := 0x10
def CMD_PA_GAIN : Nat := 0x11
def CMD_POWER_LEVEL : Nat := 0x12
def CMD_MODE : Nat := 0x13
def CMD_MODE_INDEX : Nat := 0x14
def CMD_LINK_PHRASE : Nat := 0x15
def CMD_ENABLE : Nat := 0x20
def CMD_DISABLE : Nat := 0x21
def CMD_TX : Nat := 0x30
def CMD_RX : Nat := 0x31
def CMD_INFO : Nat := 0x32
def CMD_GNSS_LOC : Nat := 0x40
def CMD_GNSS_TIME : Nat := 0x41
def CMD_GNSS_INFO : Nat := 0x42
def CMD_TEMP_INFO : Nat := 0x50
def CMD_VERSION_INFO : Nat := 0x60
def CMD_BOOTLOADER : Nat := 0x80

/-- The seventeen opcodes listed in section 6 of the specification. -/
def known_opcodes : List Nat :=
  [CMD_DIRECTION, CMD_PA_GAIN, CMD_POWER_LEVEL, CMD_MODE, CMD_MODE_INDEX, CMD_LINK_PHRASE,
   CMD_ENABLE, CMD_DISABLE, CMD_TX, CMD_RX, CMD_INFO, CMD_GNSS_LOC, CMD_GNSS_TIME,
   CMD_GNSS_INFO, CMD_TEMP_INFO, CMD_VERSION_INFO, CMD_BOOTLOADER]

/-! ## CRC-8 -/

/-- Modelled from the spec: one bit step of the CRC-8 of `util/crc.hpp`, which is not part of
the sources at hand. Section 4.9 fixes polynomial 0x07 and no reflection: the register is
shifted left by one bit and the polynomial is xored in when the bit shifted out was set. -/
def crc8_bit (crc : Nat) : Nat :=
  if crc &&& 0x80 ≠ 0 then ((crc <<< 1) ^^^ 0x07) % 256 else (crc <<< 1) % 256

/-- Modelled from the spec: the CRC-8 register after one more message byte (xor the byte in,
then eight bit steps). -/
def crc8_byte (crc b : Nat) : Nat :=
  crc8_bit (crc8_bit (crc8_bit (crc8_bit (crc8_bit (crc8_bit (crc8_bit (crc8_bit (crc ^^^ b))))))))

/-- Modelled from the spec: `crc8(buf, n)` of `util/crc.hpp`, the CRC-8 with polynomial 0x07,
initial value 0x00, no reflection and no final xor, over the first `n` bytes of `buf`. -/
def crc8 (buf : List Nat) (n : Nat) : Nat :=
  (buf.take n).foldl crc8_byte 0

/-! ## Frame parser of the flight computer (`Telemetry::Run`) -/

inductive state_e where
  | STATE_OP
  | STATE_LEN
  | STATE_DATA
  | STATE_CRC
  deriving DecidableEq, Repr

open state_e

def INDEX_OP : Nat := 0
def INDEX_LEN : Nat := 1

/-- The function `Telemetry::CheckValidOpCode`. -/
def CheckValidOpCode (op_code : Nat) : Bool :=
  if op_code = CMD_GNSS_INFO ∨ op_code = CMD_GNSS_LOC ∨ op_code = CMD_RX ∨ op_code = CMD_INFO ∨
      op_code = CMD_GNSS_TIME ∨ op_code = CMD_TEMP_INFO then
    true
  else
    false

/-- One call `Parse(op_code, buffer, length, gnss)` made by the receive loop: the opcode, the
first `length` bytes found at `buffer`, and `length`. -/
structure ParseCall where
  op_code : Nat
  buffer : List Nat
  length : Nat
  deriving DecidableEq, Repr

/-- The locals of `Telemetry::Run` that the receive loop works on, together with the list of
calls of `Parse` made so far. -/
structure RunState where
  uart_buffer : List Nat
  uart_index : Nat
  state : state_e
  valid_op : Bool
  parsed : List ParseCall
  deriving DecidableEq, Repr

/-- The difference `uart_buffer[INDEX_LEN] - uart_index` as the C code computes it: the byte is
promoted and the subtraction is done in `uint32_t`. -/
def len_minus_index (len index : Nat) : Nat :=
  (len + 4294967296 - index % 4294967296) % 4294967296

/-- The body of the `switch (state)` of `Telemetry::Run` for one received byte `ch`. -/
def Run_byte (s : RunState) (ch : Nat) : RunState :=
  match s.state with
  | STATE_OP =>
    let valid_op := CheckValidOpCode ch
    if valid_op then
      { s with valid_op := valid_op, uart_buffer := s.uart_buffer.set INDEX_OP ch, state := STATE_LEN }
    else
      { s with valid_op := valid_op }
  | STATE_LEN =>
    if ch ≤ 16 then
      let s1 := { s with uart_buffer := s.uart_buffer.set INDEX_LEN ch }
      if ch > 0 then { s1 with state := STATE_DATA } else { s1 with state := STATE_CRC }
    else
      s
  | STATE_DATA =>
    let s1 :=
      if len_minus_index (s.uart_buffer.getD 1 0) s.uart_index > 0 then
        { s with uart_buffer := s.uart_buffer.set (s.uart_index + 2) ch,
                 uart_index := (s.uart_index + 1) % 4294967296 }
      else
        s
    if len_minus_index (s1.uart_buffer.getD INDEX_LEN 0) s1.uart_index = 0 then
      { s1 with state := STATE_CRC }
    else
      s1
  | STATE_CRC =>
    let crc := crc8 s.uart_buffer (s.uart_index + 2)
    let s1 :=
      if crc = ch then
        { s with parsed := s.parsed ++
            [{ op_code := s.uart_buffer.getD INDEX_OP 0,
               buffer := (s.uart_buffer.drop 2).take (s.uart_buffer.getD INDEX_LEN 0),
               length := s.uart_buffer.getD INDEX_LEN 0 }] }
      else
        s
    { s1 with uart_index := 0, state := STATE_OP }

/-- The receive loop of `Telemetry::Run` over the bytes read from the UART stream. -/
def Run_bytes (s : RunState) (bytes : List Nat) : RunState :=
  bytes.foldl Run_byte s

/-- The state of the receive loop when `Telemetry::Run` enters its main loop. -/
def Run_init (uart_buffer : List Nat) : RunState :=
  { uart_buffer := uart_buffer, uart_index := 0, state := STATE_OP, valid_op := false, parsed := [] }

/-! ## Frame parser of the ground station (`Parser::process`) -/

/-- One call `(this->*commandFunction[opCodeIndex])(&buffer[2], dataIndex)` made by
`Parser::parse`: the index of the handler, the first `length` bytes found at `args`, and
`length`. -/
structure CommandCall where
  opCodeIndex : Int
  args : List Nat
  length : Nat
  deriving DecidableEq, Repr

/-- The members of class `Parser` that `process` works on (their declarations in `parser.hpp`
are not part of the sources at hand; `dataIndex` is taken to be a `uint32_t` like the index of
the flight computer), together with the list of handler calls made so far. -/
structure Parser where
  buffer : List Nat
  dataIndex : Nat
  state : state_e
  opCodeIndex : Int
  commands : List CommandCall
  deriving DecidableEq, Repr

/-- The loop of `Parser::getOpCodeIndex` from index `i` on, over the rest of the table. -/
def getOpCodeIndex_from (opCode : Nat) : List Nat → Nat → Int
  | [], _ => -1
  | c :: rest, i => if opCode = c then (i : Int) else getOpCodeIndex_from opCode rest (i + 1)

/-- The function `Parser::getOpCodeIndex`; the table `cmdIndex` of `CMD_NUMBER` opcodes is declared in
`parser.hpp` and is a parameter here. -/
def getOpCodeIndex (cmdIndex : List Nat) (opCode : Nat) : Int :=
  getOpCodeIndex_from opCode cmdIndex 0

/-- Modelled from the spec: `Parser::reset` of `parser.hpp`, which is not part of the sources at
hand. Scenario S5 of the specification has the parser back at state OP after a frame; the data
index starts again at 0 for the next frame. -/
def Parser.reset (p : Parser) : Parser :=
  { p with dataIndex := 0, state := STATE_OP }

/-- The function `Parser::parse`. -/
def Parser.parse (p : Parser) : Parser :=
  Parser.reset
    { p with commands := p.commands ++
        [{ opCodeIndex := p.opCodeIndex, args := (p.buffer.drop 2).take p.dataIndex,
           length := p.dataIndex }] }

/-- The function `Parser::process`. -/
def Parser.process (cmdIndex : List Nat) (p : Parser) (ch : Nat) : Parser :=
  match p.state with
  | STATE_OP =>
    let p1 := { p with opCodeIndex := getOpCodeIndex cmdIndex ch }
    if p1.opCodeIndex ≥ 0 then
      { p1 with buffer := p1.buffer.set INDEX_OP ch, state := STATE_LEN }
    else
      p1
  | STATE_LEN =>
    if ch ≤ 16 then
      let p1 := { p with buffer := p.buffer.set INDEX_LEN ch }
      if ch > 0 then { p1 with state := STATE_DATA } else { p1 with state := STATE_CRC }
    else
      p
  | STATE_DATA =>
    let p1 :=
      if len_minus_index (p.buffer.getD INDEX_LEN 0) p.dataIndex > 0 then
        { p with buffer := p.buffer.set (p.dataIndex + 2) ch,
                 dataIndex := (p.dataIndex + 1) % 4294967296 }
      else
        p
    if len_minus_index (p1.buffer.getD INDEX_LEN 0) p1.dataIndex = 0 then
      { p1 with state := STATE_CRC }
    else
      p1
  | STATE_CRC =>
    let crc := crc8 p.buffer (p.dataIndex + 2)
    if crc = ch then Parser.parse p else Parser.reset p

/-- The bytes of a received stream handed to `Parser::process` one after the other. -/
def Parser.process_bytes (cmdIndex : List Nat) (p : Parser) (bytes : List Nat) : Parser :=
  bytes.foldl (Parser.process cmdIndex) p

/-! ## Frames on the wire -/

/-- The wire frame of section 4.9 of the specification: `op`, `len`, the data bytes, and the
CRC-8 of all the bytes before it. -/
def frame (op len : Nat) (data : List Nat) : List Nat :=
  op :: len :: data ++ [crc8 (op :: len :: data) (len + 2)]

/-- The byte sequence `bytes` with bit `k` of its byte number `i` flipped. -/
def flip_bit (bytes : List Nat) (i k : Nat) : List Nat :=
  bytes.set i (bytes.getD i 0 ^^^ 2 ^ k)

/-- The opcodes that `Telemetry::CheckValidOpCode` lets through: the messages the flight
computer handles in `Telemetry::Parse`. -/
def accepted_opcodes : List Nat :=
  [CMD_RX, CMD_INFO, CMD_GNSS_LOC, CMD_GNSS_TIME, CMD_GNSS_INFO, CMD_TEMP_INFO]

/-! ## Downlink payload (`packed_tx_msg_t`, `Telemetry::PackTxMessage`) -/

/-- The value an unsigned bit-field of width `w` holds after `v` is assigned to it. -/
def bf_unsigned (w v : Nat) : Nat := v % 2 ^ w

/-- The value a signed bit-field of width `w` holds after `v` is assigned to it (two's
complement wrap-around, as GCC defines the conversion). -/
def bf_signed (w : Nat) (v : Int) : Int := (v + 2 ^ (w - 1)) % 2 ^ w - 2 ^ (w - 1)

/-- The bit-fields of `struct packed_tx_msg_t`, in declaration order:
`state : 3`, `timestamp : 15`, `errors : 6`, `lat : 22`, `lon : 22`, `altitude : 17`,
`velocity : 10`, `voltage : 8`, `pyro_continuity : 2`, `testing_on : 1`, and the byte `d1`. -/
structure packed_tx_msg_t where
  state : Nat
  timestamp : Nat
  errors : Nat
  lat : Int
  lon : Int
  altitude : Int
  velocity : Int
  voltage : Nat
  pyro_continuity : Nat
  testing_on : Nat
  d1 : Nat
  deriving DecidableEq, Repr

/-- The value-initialised payload `packed_tx_msg_t tx_payload = {}` of `Telemetry::Run`. -/
def packed_tx_msg_zero : packed_tx_msg_t :=
  { state := 0, timestamp := 0, errors := 0, lat := 0, lon := 0, altitude := 0, velocity := 0,
    voltage := 0, pyro_continuity := 0, testing_on := 0, d1 := 0 }

/-- The error tags that `PackTxMessage` asks for (`util/error_handler.h` is not part of the
sources at hand). -/
inductive cats_error_e where
  | CATS_ERR_NON_USER_CFG
  | CATS_ERR_LOG_FULL
  | CATS_ERR_FILTER_ACC
  | CATS_ERR_FILTER_HEIGHT
  | CATS_ERR_TELEMETRY_HOT
  | CATS_ERR_NO_PYRO
  deriving DecidableEq, Repr

open cats_error_e

/-- Modelled from the spec: the enumerator `INVALID` of `flight_fsm_e` (declared in
`config/globals.h`, not part of the sources at hand); `Task::GetNewFsmEnum` has the valid phases
`MOVING .. TOUCHDOWN` above it. -/
def INVALID : Nat := 0

/-- What `PackTxMessage` reads besides its arguments `ts` and `tx_payload`: the member
`m_fsm_enum`, the error flags behind `get_error_by_tag`, the integers that the casts
`static_cast<int32_t>(gnss->position.lat * 10000)`, `static_cast<int32_t>(gnss->position.lon *
10000)`, `static_cast<int32_t>(estimation_data.height)` and
`static_cast<int16_t>(estimation_data.velocity)` produce, `battery_voltage_byte()`, and the two
ADC readings `adc_get(ADC_PYRO1)` and `adc_get(ADC_PYRO2)`. -/
structure PackTxInputs where
  m_fsm_enum : Nat
  get_error_by_tag : cats_error_e → Bool
  lat : Int
  lon : Int
  height : Int
  velocity : Int
  battery_voltage_byte : Nat
  adc_pyro1 : Nat
  adc_pyro2 : Nat

/-- The function `Telemetry::PackTxMessage`. A statement `if (c) { f = v; }` assigns to the field `f` the
value `v` when `c` holds and the value it already has otherwise. -/
def PackTxMessage (ts : Nat) (inp : PackTxInputs) (tx_payload : packed_tx_msg_t) :
    packed_tx_msg_t :=
  let p := tx_payload
  let p := { p with state :=
    if inp.m_fsm_enum > INVALID then bf_unsigned 3 inp.m_fsm_enum else p.state }
  let p := { p with timestamp := bf_unsigned 15 (ts / 100) }
  let p := { p with errors :=
    if inp.get_error_by_tag CATS_ERR_NON_USER_CFG then bf_unsigned 6 (p.errors ||| 0b000001)
    else p.errors }
  let p := { p with errors :=
    if inp.get_error_by_tag CATS_ERR_LOG_FULL then bf_unsigned 6 (p.errors ||| 0b000010)
    else p.errors }
  let p := { p with errors :=
    if inp.get_error_by_tag CATS_ERR_FILTER_ACC || inp.get_error_by_tag CATS_ERR_FILTER_HEIGHT
    then bf_unsigned 6 (p.errors ||| 0b000100)
    else p.errors }
  let p := { p with errors :=
    if inp.get_error_by_tag CATS_ERR_TELEMETRY_HOT then bf_unsigned 6 (p.errors ||| 0b001000)
    else p.errors }
  let p := { p with errors :=
    if inp.get_error_by_tag CATS_ERR_NO_PYRO then bf_unsigned 6 (p.errors ||| 0b010000)
    else p.errors }
  let p := { p with lat := bf_signed 22 inp.lat }
  let p := { p with lon := bf_signed 22 inp.lon }
  let p := { p with altitude := bf_signed 17 inp.height }
  let p := { p with velocity := bf_signed 10 inp.velocity }
  let p := { p with voltage := bf_unsigned 8 inp.battery_voltage_byte }
  let p := { p with pyro_continuity :=
    if inp.adc_pyro1 > 500 then bf_unsigned 2 (p.pyro_continuity ||| 0b01)
    else p.pyro_continuity }
  let p := { p with pyro_continuity :=
    if inp.adc_pyro2 > 500 then bf_unsigned 2 (p.pyro_continuity ||| 0b10)
    else p.pyro_continuity }
  p

/-! ## Transmitted frames (`Telemetry::Send...`) -/

/-- The copy `memcpy(&dst[off], src, n)` on byte lists. -/
def memcpy (dst : List Nat) (off : Nat) (src : List Nat) (n : Nat) : List Nat :=
  dst.take off ++ src.take n ++ dst.drop (off + n)

/-- The bytes of a `uint32_t` in memory, least significant byte first. -/
def bytes_of_u32 (v : Nat) : List Nat :=
  [v % 256, v / 256 % 256, v / 65536 % 256, v / 16777216 % 256]

/-- The function `Telemetry::SendLinkPhrase`: the bytes handed to `HAL_UART_Transmit`. -/
def SendLinkPhrase (phrase_crc length : Nat) : List Nat :=
  let out := List.replicate 7 0
  let out := out.set 0 CMD_LINK_PHRASE
  let out := out.set 1 (length % 256)
  let out := memcpy out 2 (bytes_of_u32 phrase_crc) length
  let out := out.set (length + 2) (crc8 out (length + 2))
  out.take (length + 3)

/-- The function `Telemetry::SendSettings`: the bytes handed to `HAL_UART_Transmit`. -/
def SendSettings (command value : Nat) : List Nat :=
  let out := List.replicate 4 0
  let out := out.set 0 command
  let out := out.set 1 1
  let out := out.set 2 value
  let out := out.set 3 (crc8 out 3)
  out.take 4

/-- The function `Telemetry::SendEnable`: the bytes handed to `HAL_UART_Transmit`. -/
def SendEnable : List Nat :=
  let out := List.replicate 3 0
  let out := out.set 0 CMD_ENABLE
  let out := out.set 1 0
  let out := out.set 2 (crc8 out 2)
  out.take 3

/-- The function `Telemetry::SendDisable`: the bytes handed to `HAL_UART_Transmit`. -/
def SendDisable : List Nat :=
  let out := List.replicate 3 0
  let out := out.set 0 CMD_DISABLE
  let out := out.set 1 0
  let out := out.set 2 (crc8 out 2)
  out.take 3

/-- The function `Telemetry::SendTxPayload`: the bytes handed to `HAL_UART_Transmit`. -/
def SendTxPayload (payload : List Nat) (length : Nat) : List Nat :=
  let out := List.replicate 18 0
  let out := out.set 0 CMD_TX
  let out := out.set 1 (length % 256)
  let out := memcpy out 2 payload length
  let out := out.set (length + 2) (crc8 out (length + 2))
  out.take (length + 3)

/-! ## Object representation of the downlink payload -/

/-- The bit pattern of a signed bit-field of width `w` holding `v` (two's complement). -/
def twos_complement (w : Nat) (v : Int) : Nat := (v % 2 ^ w).toNat

/-- The value of a signed bit-field of width `w` whose bit pattern is `raw`: the pattern,
sign-extended. -/
def sign_extend (w raw : Nat) : Int :=
  if raw ≥ 2 ^ (w - 1) then (raw : Int) - 2 ^ w else (raw : Int)

/-- The 120 bits of a `packed_tx_msg_t` in memory, read as one little-endian number. The struct
is `__attribute__((packed))` and GCC on the little-endian target allocates its bit-fields from
the least significant bit of the first byte upwards, in declaration order and without gaps:
`state` at bit 0, `timestamp` at bit 3, `errors` at 18, `lat` at 24, `lon` at 46, `altitude` at
68, `velocity` at 85, `voltage` at 95, `pyro_continuity` at 103, `testing_on` at 105; the
zero-width field `uint8_t : 0` closes the run at the next byte boundary and `d1` is byte 14
(`static_assert(sizeof(packed_tx_msg_t) == 15)`). -/
def packed_tx_msg_bits (m : packed_tx_msg_t) : Nat :=
  m.state % 2 ^ 3 + 2 ^ 3 * (m.timestamp % 2 ^ 15) + 2 ^ 18 * (m.errors % 2 ^ 6)
    + 2 ^ 24 * twos_complement 22 m.lat + 2 ^ 46 * twos_complement 22 m.lon
    + 2 ^ 68 * twos_complement 17 m.altitude + 2 ^ 85 * twos_complement 10 m.velocity
    + 2 ^ 95 * (m.voltage % 2 ^ 8) + 2 ^ 103 * (m.pyro_continuity % 2 ^ 2)
    + 2 ^ 105 * (m.testing_on % 2 ^ 1) + 2 ^ 112 * (m.d1 % 2 ^ 8)

/-- The `k` low-order bytes of `n`, least significant byte first. -/
def to_le_bytes : Nat → Nat → List Nat
  | 0, _ => []
  | k + 1, n => n % 256 :: to_le_bytes k (n / 256)

/-- The number whose little-endian bytes are given. -/
def of_le_bytes : List Nat → Nat
  | [] => 0
  | b :: bs => b + 256 * of_le_bytes bs

/-- Packing: the 15 bytes of a `packed_tx_msg_t` as `Telemetry::Run` hands them to
`SendTxPayload((uint8_t*)&tx_payload, sizeof(packed_tx_msg_t))`. -/
def packed_tx_msg_bytes (m : packed_tx_msg_t) : List Nat :=
  to_le_bytes 15 (packed_tx_msg_bits m)

/-- Unpacking: the fields that the receiver reads from the 15 bytes through the same struct
(`Recorder::recordTask` reads `data.timestamp`, `data.state`, `data.errors`, `data.lat`, ...),
signed fields sign-extended. -/
def packed_tx_msg_of_bytes (bytes : List Nat) : packed_tx_msg_t :=
  let n := of_le_bytes bytes
  { state := n % 2 ^ 3,
    timestamp := n / 2 ^ 3 % 2 ^ 15,
    errors := n / 2 ^ 18 % 2 ^ 6,
    lat := sign_extend 22 (n / 2 ^ 24 % 2 ^ 22),
    lon := sign_extend 22 (n / 2 ^ 46 % 2 ^ 22),
    altitude := sign_extend 17 (n / 2 ^ 68 % 2 ^ 17),
    velocity := sign_extend 10 (n / 2 ^ 85 % 2 ^ 10),
    voltage := n / 2 ^ 95 % 2 ^ 8,
    pyro_continuity := n / 2 ^ 103 % 2 ^ 2,
    testing_on := n / 2 ^ 105 % 2 ^ 1,
    d1 := n / 2 ^ 112 % 2 ^ 8 }

/-! ## Uplink packets (`packed_rx_msg_t`, `Telemetry::ParseRxMessage`) -/

/-- The `struct packed_rx_msg_t` of `task_telemetry.hpp`. -/
structure packed_rx_msg_t where
  header : Nat
  passcode : Nat
  event : Nat
  enable_testing_telemetry : Bool
  dummy1 : Nat
  dummy2 : Nat
  deriving DecidableEq, Repr

/-- The data members that `task_telemetry.hpp` declares for the testing mode. -/
structure TelemetryMembers where
  m_test_phrase_crc : Nat
  m_testing_enabled : Bool
  m_testing_armed : Bool
  m_event_reset : Bool
  m_testing_timeout : Nat
  deriving DecidableEq, Repr

def RX_PACKET_HEADER : Nat := 0x72

/-- The function `Telemetry::ParseRxMessage` as `task_telemetry.cpp` defines it: the body is the single
statement `log_info("Data Received.")`. The result is the members after the call and the list of
events posted to the event dispatcher by the call. -/
def ParseRxMessage (m : TelemetryMembers) (_rx_payload : packed_rx_msg_t) :
    TelemetryMembers × List Nat :=
  (m, [])

/-! ## Flight recorder (`task_recorder.c`) -/

def REC_BUFFER_LEN : Nat := 256

/-- Modelled from the spec: the enumerators of `recorder_status_e` (declared in a header that is
not part of the sources at hand), in the order of section 4.8: OFF, FILL_QUEUE,
WRITE_TO_FLASH. -/
def REC_OFF : Nat := 0

/-- Modelled from the spec: see `REC_OFF`. -/
def REC_FILL_QUEUE : Nat := 1

/-- Modelled from the spec: see `REC_OFF`. -/
def REC_WRITE_TO_FLASH : Nat := 2

/-! The tags of `rec_entry_type_e` (`recorder.h`). -/

def IMU0 : Nat := 0x01
def IMU1 : Nat := 0x02
def IMU2 : Nat := 0x04
def BARO0 : Nat := 0x08
def BARO1 : Nat := 0x10
def BARO2 : Nat := 0x20
def MAGNETO : Nat := 0x40
def FLIGHT_INFO : Nat := 0x80
def FILTERED_DATA_INFO : Nat := 0x100
def FLIGHT_STATE : Nat := 0x200
def COVARIANCE_INFO : Nat := 0x400
def SENSOR_INFO : Nat := 0x800
def EVENT_INFO : Nat := 0x1000
def ERROR_INFO : Nat := 0x2000
def HEHE : Nat := 0xFFFFFFFF

/-- A `rec_elem_t`: the tag `rec_type` and the bytes of the union `u`. -/
structure rec_elem_t where
  rec_type : Nat
  u : List Nat
  deriving DecidableEq, Repr

/-- The sizes that `sizeof` gives the members of the union `rec_elem_u` and the union itself.
They depend on `util/types.h`, which is not part of the sources at hand, and are parameters. -/
structure rec_sizes where
  imu : Nat
  baro : Nat
  magneto_info : Nat
  flight_info : Nat
  filtered_data_info : Nat
  flight_state : Nat
  covariance_info : Nat
  sensor_info : Nat
  event_info : Nat
  error_info : Nat
  rec_elem_u : Nat
  deriving DecidableEq, Repr

/-- The sizes are those of a union that holds each of its members, in an element that a
`uint_fast8_t` can measure: `sizeof(rec_elem_t)` is 4 bytes of tag plus the union. -/
def rec_sizes.ok (sz : rec_sizes) : Prop :=
  sz.imu ≤ sz.rec_elem_u ∧ sz.baro ≤ sz.rec_elem_u ∧ sz.magneto_info ≤ sz.rec_elem_u ∧
  sz.flight_info ≤ sz.rec_elem_u ∧ sz.filtered_data_info ≤ sz.rec_elem_u ∧
  sz.flight_state ≤ sz.rec_elem_u ∧ sz.covariance_info ≤ sz.rec_elem_u ∧
  sz.sensor_info ≤ sz.rec_elem_u ∧ sz.event_info ≤ sz.rec_elem_u ∧
  sz.error_info ≤ sz.rec_elem_u ∧ 4 + sz.rec_elem_u ≤ 255

instance (sz : rec_sizes) : Decidable sz.ok := by
  unfold rec_sizes.ok
  infer_instance

/-- The bytes of a `rec_elem_t` in memory: the 32-bit tag, least significant byte first, and
the union behind it. -/
def rec_elem_bytes (rec_elem : rec_elem_t) : List Nat :=
  bytes_of_u32 rec_elem.rec_type ++ rec_elem.u

/-- The function `get_rec_elem_size`. -/
def get_rec_elem_size (sz : rec_sizes) (rec_elem : rec_elem_t) : Nat :=
  let rec_elem_size := 4
  if rec_elem.rec_type = IMU0 ∨ rec_elem.rec_type = IMU1 ∨ rec_elem.rec_type = IMU2 then
    rec_elem_size + sz.imu
  else if rec_elem.rec_type = BARO0 ∨ rec_elem.rec_type = BARO1 ∨ rec_elem.rec_type = BARO2 then
    rec_elem_size + sz.baro
  else if rec_elem.rec_type = MAGNETO then rec_elem_size + sz.magneto_info
  else if rec_elem.rec_type = FLIGHT_INFO then rec_elem_size + sz.flight_info
  else if rec_elem.rec_type = FILTERED_DATA_INFO then rec_elem_size + sz.filtered_data_info
  else if rec_elem.rec_type = FLIGHT_STATE then rec_elem_size + sz.flight_state
  else if rec_elem.rec_type = COVARIANCE_INFO then rec_elem_size + sz.covariance_info
  else if rec_elem.rec_type = SENSOR_INFO then rec_elem_size + sz.sensor_info
  else if rec_elem.rec_type = EVENT_INFO then rec_elem_size + sz.event_info
  else if rec_elem.rec_type = ERROR_INFO then rec_elem_size + sz.error_info
  else rec_elem_size

/-- The locals of `task_recorder`, the record queue, and what the task has handed to the file
system: the buffers given to `lfs_file_write`, in order, and for every call of `lfs_file_sync`
the number of buffers written before it. -/
structure recorder_state where
  rec_buffer : List Nat
  rec_buffer_idx : Nat
  curr_log_elem_size : Nat
  bytes_remaining : Nat
  max_elem_count : Nat
  sync_counter : Nat
  curr_log_elem : rec_elem_t
  rec_queue : List rec_elem_t
  written : List (List Nat)
  synced : List Nat
  deriving DecidableEq, Repr

/-- The function `write_value`: the buffer, the index (a `uint16_t`) and the element size after the call. -/
def write_value (sz : rec_sizes) (rec_elem : rec_elem_t) (rec_buffer : List Nat)
    (rec_buffer_idx : Nat) : List Nat × Nat × Nat :=
  let rec_elem_size := get_rec_elem_size sz rec_elem
  let rec_buffer :=
    if rec_buffer_idx + rec_elem_size > REC_BUFFER_LEN then
      memcpy rec_buffer rec_buffer_idx (rec_elem_bytes rec_elem) (REC_BUFFER_LEN - rec_buffer_idx)
    else
      memcpy rec_buffer rec_buffer_idx (rec_elem_bytes rec_elem) rec_elem_size
  (rec_buffer, (rec_buffer_idx + rec_elem_size) % 65536, rec_elem_size)

/-- One pass through the body of the inner loop `while (rec_buffer_idx < REC_BUFFER_LEN)` of
`task_recorder`, with `status` the value read from `global_recorder_status`. A call of
`osMessageQueueGet` with `osWaitForever` on an empty queue waits for a producer: the pass then
leaves everything as it is. -/
def recorder_inner (sz : rec_sizes) (REC_QUEUE_PRE_THRUSTING_LIMIT status : Nat)
    (s : recorder_state) : recorder_state :=
  let curr_elem_count := s.rec_queue.length
  let s := { s with max_elem_count :=
    if s.max_elem_count < curr_elem_count then curr_elem_count else s.max_elem_count }
  if status ≥ REC_WRITE_TO_FLASH then
    match s.rec_queue with
    | [] => s
    | curr_log_elem :: rest =>
      let r := write_value sz curr_log_elem s.rec_buffer s.rec_buffer_idx
      { s with rec_queue := rest, curr_log_elem := curr_log_elem, rec_buffer := r.1,
               rec_buffer_idx := r.2.1, curr_log_elem_size := r.2.2 }
  else if curr_elem_count > REC_QUEUE_PRE_THRUSTING_LIMIT ∧ status = REC_FILL_QUEUE then
    match s.rec_queue with
    | [] => s
    | _ :: rest => { s with rec_queue := rest }
  else
    s

/-- The statements of `task_recorder` behind the inner loop: the buffer goes to
`lfs_file_write`, the index is reset, the bytes of the last element that did not fit are moved
to the start of the buffer, and every sixteenth time the file is synced. -/
def recorder_flush (s : recorder_state) : recorder_state :=
  let s := { s with written := s.written ++ [s.rec_buffer.take 256] }
  let s := { s with
    bytes_remaining :=
      if s.rec_buffer_idx > REC_BUFFER_LEN then (s.rec_buffer_idx - REC_BUFFER_LEN) % 65536
      else s.bytes_remaining,
    rec_buffer_idx :=
      if s.rec_buffer_idx > REC_BUFFER_LEN then (s.rec_buffer_idx - REC_BUFFER_LEN) % 65536
      else 0 }
  let s := { s with rec_buffer :=
    (if s.rec_buffer_idx > 0 then
      memcpy s.rec_buffer 0
        ((rec_elem_bytes s.curr_log_elem).drop (s.curr_log_elem_size - s.bytes_remaining))
        s.bytes_remaining
    else s.rec_buffer) }
  let s := { s with synced :=
    if s.sync_counter % 16 = 0 then s.synced ++ [s.written.length] else s.synced }
  { s with sync_counter := (s.sync_counter + 1) % 4294967296 }

/-- One evaluation of the loop condition `rec_buffer_idx < REC_BUFFER_LEN` of `task_recorder`
and what follows it: a pass through the inner loop, or the statements behind it. -/
def task_recorder_step (sz : rec_sizes) (REC_QUEUE_PRE_THRUSTING_LIMIT status : Nat)
    (s : recorder_state) : recorder_state :=
  if s.rec_buffer_idx < REC_BUFFER_LEN then
    recorder_inner sz REC_QUEUE_PRE_THRUSTING_LIMIT status s
  else
    recorder_flush s

/-- The task `task_recorder` for `n` evaluations of its loop condition (the task itself never
returns), while `global_recorder_status` has the value `status`. -/
def task_recorder (sz : rec_sizes) (REC_QUEUE_PRE_THRUSTING_LIMIT status : Nat) :
    Nat → recorder_state → recorder_state
  | 0, s => s
  | n + 1, s =>
    task_recorder sz REC_QUEUE_PRE_THRUSTING_LIMIT status n
      (task_recorder_step sz REC_QUEUE_PRE_THRUSTING_LIMIT status s)

/-- The state in which `task_recorder` enters its loop, with `rec_queue` holding the queued
records: the buffer from `calloc` is zeroed and the counters are 0. -/
def recorder_init (rec_queue : List rec_elem_t) : recorder_state :=
  { rec_buffer := List.replicate 256 0, rec_buffer_idx := 0, curr_log_elem_size := 0,
    bytes_remaining := 0, max_elem_count := 0, sync_counter := 0,
    curr_log_elem := { rec_type := 0, u := [] }, rec_queue := rec_queue, written := [],
    synced := [] }

/-- The serialisation of a record as section 4.8 describes it: the 4-byte tag followed by the
payload bytes whose number the tag determines, that is the first `get_rec_elem_size` bytes of
the element. -/
def serialize (sz : rec_sizes) (r : rec_elem_t) : List Nat :=
  (rec_elem_bytes r).take (get_rec_elem_size sz r)

/-- The record stream: the serialisations of the records, one after the other. -/
def record_stream (sz : rec_sizes) (recs : List rec_elem_t) : List Nat :=
  (recs.map (serialize sz)).flatten

/-- The bytes of the record stream that the task has taken from the queue so far: those in the
buffers already written, those pending in the buffer and, right after a record that crossed
the end of the buffer, the bytes of it that still wait in `curr_log_elem`. -/
def recorder_taken (s : recorder_state) : List Nat :=
  if s.rec_buffer_idx ≤ 256 then
    s.written.flatten ++ s.rec_buffer.take s.rec_buffer_idx
  else
    s.written.flatten ++ s.rec_buffer ++
      ((rec_elem_bytes s.curr_log_elem).take s.curr_log_elem_size).drop
        (s.curr_log_elem_size - (s.rec_buffer_idx - 256))

/-- The invariant of the loop of `task_recorder`: the buffer and the written buffers have 256
bytes, the index is less than 512, an index beyond 256 counts bytes of `curr_log_elem`, and the
queued elements have the size of the union. -/
def recorder_inv (sz : rec_sizes) (s : recorder_state) : Prop :=
  s.rec_buffer.length = 256 ∧ (∀ b ∈ s.written, b.length = 256) ∧ s.rec_buffer_idx < 512 ∧
  (256 < s.rec_buffer_idx →
    s.rec_buffer_idx - 256 ≤ s.curr_log_elem_size ∧
    s.curr_log_elem_size ≤ (rec_elem_bytes s.curr_log_elem).length) ∧
  (∀ r ∈ s.rec_queue, r.u.length = sz.rec_elem_u)

/-- The number of loop passes the task still needs at most to empty the queue. -/
def recorder_todo (s : recorder_state) : Nat :=
  2 * s.rec_queue.length + (if s.rec_buffer_idx < 256 then 0 else 1)

/-! ## Flight phases (`flight_fsm_e`) and the state estimation task (`task_state_est.cpp`) -/

/-- Modelled from the spec: the enumerators of `flight_fsm_e` (declared in `config/globals.h`,
not part of the sources at hand), numbered in the order of the phases: `INVALID` is 0, `MOVING`,
the first valid phase of the firmware, is 1, and `TOUCHDOWN`, the last one, is 7, which is the
range 0..7 of the 3-bit phase field of the downlink. The properties below use the order of the
enumerators only. -/
def MOVING : Nat := 1

/-- Modelled from the spec: the first valid phase of `flight_fsm_e` as the flight computer
(`task.hpp`) names it; see `MOVING`. -/
def CALIBRATING : Nat := 1

/-- Modelled from the spec: see `MOVING`. -/
def READY : Nat := 2

/-- Modelled from the spec: see `MOVING`. -/
def THRUSTING : Nat := 3

/-- Modelled from the spec: see `MOVING`. -/
def COASTING : Nat := 4

/-- Modelled from the spec: see `MOVING`. -/
def DROGUE : Nat := 5

/-- Modelled from the spec: see `MOVING`. -/
def MAIN : Nat := 6

/-- Modelled from the spec: see `MOVING`. -/
def TOUCHDOWN : Nat := 7

/-- The function `Task::GetNewFsmEnum` of the firmware (`task.h`): `new_enum` is the value read
from the event flags, already cast to `flight_fsm_e`, and `m_fsm_enum` the stored phase. The
result is the returned flag and the stored phase after the call. -/
def GetNewFsmEnum (new_enum m_fsm_enum : Nat) : Bool × Nat :=
  if new_enum > TOUCHDOWN ∨ new_enum < MOVING then (false, m_fsm_enum)
  else if new_enum = m_fsm_enum then (false, m_fsm_enum)
  else (true, new_enum)

/-- The function `Task::GetNewFsmEnum` of the flight computer (`task.hpp`), whose first valid
phase is `CALIBRATING`. -/
def GetNewFsmEnum_fc (new_enum m_fsm_enum : Nat) : Bool × Nat :=
  if new_enum > TOUCHDOWN ∨ new_enum < CALIBRATING then (false, m_fsm_enum)
  else if new_enum = m_fsm_enum then (false, m_fsm_enum)
  else (true, new_enum)

/-- The members of `kalman_filter_t` that `task_state_est` reads and writes, over a type `F` of
floats; `other` stands for the remaining members (matrices, sampling time), of a type `S`. -/
structure kalman_filter_t (F S : Type) where
  measured_acceleration : F
  measured_AGL : F
  x_bar_data : Nat → F
  other : S

/-- The float operations and the functions of the filter library that `task_state_est` calls
(`reset_kalman`, `soft_reset_kalman`, `kalman_step` are not part of the sources at hand): taken
as unknown functions. `zero` is the float 0 and `add` the float addition. -/
structure estimation_ops (F S : Type) where
  zero : F
  add : F → F → F
  reset_kalman : kalman_filter_t F S → kalman_filter_t F S
  soft_reset_kalman : kalman_filter_t F S → kalman_filter_t F S
  kalman_step : kalman_filter_t F S → Nat → kalman_filter_t F S

/-- The calls `task_state_est` makes in one pass of its loop that concern the Kalman filter and
the records: the resets, the Kalman step with the measurement inputs it is handed and the phase,
and the records `FILTERED_DATA_INFO` and `FLIGHT_INFO` with their members. -/
inductive est_call (F : Type) where
  | reset_kalman
  | soft_reset_kalman
  | reset_orientation_filter
  | kalman_step (measured_acceleration measured_AGL : F) (flight_state : Nat)
  | record_filtered_data_info (filtered_altitude_AGL filtered_acceleration : F)
  | record_flight_info (height velocity acceleration : F)
  deriving DecidableEq, Repr

/-- What one pass of the loop reads from the globals: `global_flight_state.flight_state` is read
three times (into `new_fsm_enum`, as the argument of `kalman_step`, and in the comparison before
the `FLIGHT_INFO` record), and `global_estimation_input` gives `acceleration_z` and
`height_AGL`. -/
structure est_input (F : Type) where
  flight_state_0 : Nat
  flight_state_1 : Nat
  flight_state_2 : Nat
  acceleration_z : F
  height_AGL : F

/-- The locals of `task_state_est` that live across passes, and the global it writes. -/
structure est_state (F S : Type) where
  filter : kalman_filter_t F S
  new_fsm_enum : Nat
  old_fsm_enum : Nat
  global_estimation_data : F × F × F

/-- The filter after the two reset statements at the head of the loop. -/
def est_resets {F S : Type} (ops : estimation_ops F S) (new_fsm_enum old_fsm_enum : Nat)
    (filter : kalman_filter_t F S) : kalman_filter_t F S × List (est_call F) :=
  let r1 : kalman_filter_t F S × List (est_call F) :=
    if new_fsm_enum ≠ old_fsm_enum ∧ new_fsm_enum = READY then
      (ops.reset_kalman filter, [est_call.reset_kalman, est_call.reset_orientation_filter])
    else (filter, [])
  if new_fsm_enum = THRUSTING ∧ new_fsm_enum ≠ old_fsm_enum then
    (ops.soft_reset_kalman r1.1,
      r1.2 ++ [est_call.soft_reset_kalman, est_call.reset_orientation_filter])
  else r1

/-- One pass of the `while (1)` loop of `task_state_est` (firmware): the state after the pass and
the calls made, in order. The orientation filter and the log output are left out. -/
def task_state_est_step {F S : Type} (ops : estimation_ops F S) (inp : est_input F)
    (s : est_state F S) : est_state F S × List (est_call F) :=
  let new_fsm_enum := inp.flight_state_0
  let r := est_resets ops new_fsm_enum s.old_fsm_enum s.filter
  let filter := { r.1 with
    measured_acceleration := if new_fsm_enum < DROGUE then inp.acceleration_z else ops.zero,
    measured_AGL := inp.height_AGL }
  let stepped := ops.kalman_step filter inp.flight_state_1
  let acceleration := ops.add stepped.measured_acceleration (stepped.x_bar_data 2)
  ({ filter := stepped,
     new_fsm_enum := new_fsm_enum,
     old_fsm_enum := new_fsm_enum,
     global_estimation_data := (stepped.x_bar_data 0, stepped.x_bar_data 1, acceleration) },
   r.2 ++
   [est_call.kalman_step filter.measured_acceleration filter.measured_AGL inp.flight_state_1,
    est_call.record_filtered_data_info stepped.measured_AGL stepped.measured_acceleration,
    est_call.record_flight_info (stepped.x_bar_data 0) (stepped.x_bar_data 1)
      (if inp.flight_state_2 ≥ DROGUE then stepped.x_bar_data 2 else acceleration)])

/-- The state of `task_state_est` when it enters its loop: both phase locals are `MOVING`. -/
def est_init {F S : Type} (ops : estimation_ops F S) (filter : kalman_filter_t F S) :
    est_state F S :=
  { filter := filter, new_fsm_enum := MOVING, old_fsm_enum := MOVING,
    global_estimation_data := (ops.zero, ops.zero, ops.zero) }

/-- The loop of `task_state_est` over the inputs of successive passes: the final state and the
calls of each pass. -/
def task_state_est {F S : Type} (ops : estimation_ops F S) :
    List (est_input F) → est_state F S → est_state F S × List (List (est_call F))
  | [], s => (s, [])
  | inp :: rest, s =>
    let r := task_state_est_step ops inp s
    let q := task_state_est ops rest r.1
    (q.1, r.2 :: q.2)

/-- Float operations and filter functions for evaluating the task on integers: the resets clear
the state vector, the Kalman step adds the two measurements into `x_bar_data[2]`. -/
def est_ops_example : estimation_ops Int Unit :=
  { zero := 0
    add := fun a b => a + b
    reset_kalman := fun f => { f with x_bar_data := fun _ => 0 }
    soft_reset_kalman := fun f => { f with x_bar_data := fun _ => 0 }
    kalman_step := fun f _ =>
      { f with x_bar_data := fun i =>
          if i = 2 then f.x_bar_data 2 + f.measured_acceleration + f.measured_AGL
          else f.x_bar_data i } }

/-- A filter for evaluating the task on integers. -/
def est_filter_example : kalman_filter_t Int Unit :=
  { measured_acceleration := 0, measured_AGL := 0, x_bar_data := fun _ => 1, other := () }

/-! ## Averaging over the sensor channels (`task_state_est.c`, rev1Pro) -/

/-- The members of `sensor_elimination_t` that `task_state_est` reads: the fault masks of the
three channels (0 is non-faulty) and the counters `num_faulty_imus`, `num_faulty_baros`. -/
structure sensor_elimination_t where
  faulty_imu : Nat → Nat
  faulty_baro : Nat → Nat
  num_faulty_imus : Nat
  num_faulty_baros : Nat

/-- The members of `state_estimation_data_t` that the averaging reads, over the rationals. -/
structure state_estimation_data_t where
  acceleration : Nat → ℚ
  calculated_AGL : Nat → ℚ

/-- The body of the loop `for (int i = 0; i < 3; i++)` that adds channel `i` to the two sums:
each non-faulty value is divided by the counter of the elimination data. -/
def average_channel (elimination : sensor_elimination_t) (state_data : state_estimation_data_t)
    (acc : ℚ × ℚ) (i : Nat) : ℚ × ℚ :=
  (if elimination.faulty_imu i = 0 then
      acc.1 + state_data.acceleration i / (elimination.num_faulty_imus : ℚ)
    else acc.1,
   if elimination.faulty_baro i = 0 then
      acc.2 + state_data.calculated_AGL i / (elimination.num_faulty_baros : ℚ)
    else acc.2)

/-- The values `raw_accel` and `raw_altitude_AGL` that `task_state_est` computes in each pass:
both start at 0 and the loop runs over the channels 0, 1, 2. -/
def raw_accel_and_AGL (elimination : sensor_elimination_t)
    (state_data : state_estimation_data_t) : ℚ × ℚ :=
  (List.range 3).foldl (average_channel elimination state_data) (0, 0)

/-- The values `filtered_acc` and `filtered_AGL`: the same loop, run after `median_filter` has
replaced each channel of `state_data` by the median of its last samples. The median is computed
by `median`, which is not part of the sources at hand, so what the filter leaves in `state_data`
is taken as an unknown function of it. -/
def filtered_acc_and_AGL (median_filter : state_estimation_data_t → state_estimation_data_t)
    (elimination : sensor_elimination_t) (state_data : state_estimation_data_t) : ℚ × ℚ :=
  (List.range 3).foldl (average_channel elimination (median_filter state_data)) (0, 0)

/-- The arithmetic mean of the values of the non-faulty channels, as the specification words it:
the sum over the channels `i` with `faulty i = 0`, divided by the number of those channels. -/
def spec_mean_non_faulty (faulty : Nat → Nat) (value : Nat → ℚ) : ℚ :=
  (((List.range 3).filter (fun i => faulty i = 0)).map value).sum
    / ((((List.range 3).filter (fun i => faulty i = 0)).length : Nat) : ℚ)

/-- Elimination data in which channel 0 is faulty, for the IMUs and for the barometers. -/
def elimination_one_faulty : sensor_elimination_t :=
  { faulty_imu := fun i => if i = 0 then 1 else 0
    faulty_baro := fun i => if i = 0 then 1 else 0
    num_faulty_imus := 1
    num_faulty_baros := 1 }

/-- Channel values 9, 2, 4 for the acceleration and 90, 20, 40 for the height. -/
def state_data_example : state_estimation_data_t :=
  { acceleration := fun i => if i = 0 then 9 else if i = 1 then 2 else 4
    calculated_AGL := fun i => if i = 0 then 90 else if i = 1 then 20 else 40 }

/-! ## Command line: settings (`cli.c`, rev1Pro) -/

/-- Modelled from the spec: the value types a registry entry can have (the macros `VAR_UINT8` ..
`VAR_UINT32` that `cli.c` selects with `VALUE_TYPE_MASK` are declared in a header that is not
part of the sources at hand). -/
inductive var_type where
  | VAR_UINT8
  | VAR_INT8
  | VAR_UINT16
  | VAR_INT16
  | VAR_UINT32
  deriving DecidableEq, Repr

open var_type

/-- The members of the union `config` of a registry entry that `cliSet` reads in direct mode:
`minmax` (signed bounds), `minmaxUnsigned` (unsigned bounds) and `u32Max`. The three views are
kept apart here; the code reads the one that belongs to the type of the entry. -/
structure cli_config where
  minmax_min : Int
  minmax_max : Int
  minmaxUnsigned_min : Nat
  minmaxUnsigned_max : Nat
  u32Max : Nat
  deriving DecidableEq, Repr

/-- A registry entry `clivalue_t` as `cliSet` and `cliGetSettingIndex` use it: the name (its
characters, without the terminating 0), the value type and the bounds. -/
structure clivalue_t where
  name : List Nat
  type : var_type
  config : cli_config
  deriving DecidableEq, Repr

/-- The bounds of an entry are values of the entry's type: an 8-bit entry has 8-bit bounds, and
the members `minmax` are `int16_t`. This is what a registry is taken to satisfy. -/
def clivalue_t.ok (val : clivalue_t) : Prop :=
  match val.type with
  | VAR_UINT8 => val.config.minmaxUnsigned_max ≤ 255
  | VAR_INT8 => -128 ≤ val.config.minmax_min ∧ val.config.minmax_max ≤ 127
  | VAR_UINT16 => val.config.minmaxUnsigned_max ≤ 65535
  | VAR_INT16 => -32768 ≤ val.config.minmax_min ∧ val.config.minmax_max ≤ 32767
  | VAR_UINT32 => True

instance (val : clivalue_t) : Decidable val.ok := by
  unfold clivalue_t.ok
  cases val.type <;> infer_instance

/-- The two replies of `cliSet` after the mode switch. -/
inductive cli_reply where
  | set_to
  | INVALID_VALUE
  deriving DecidableEq, Repr

/-- The C library's `tolower` in the C locale, on character codes. -/
def tolower (c : Nat) : Nat := if 65 ≤ c ∧ c ≤ 90 then c + 32 else c

/-- The C library's `strncasecmp(s1, s2, n)`. A string is the list of its characters; the
character read behind its end is the terminating 0. -/
def strncasecmp : List Nat → List Nat → Nat → Int
  | _, _, 0 => 0
  | s1, s2, n + 1 =>
    if tolower (s1.headD 0) ≠ tolower (s2.headD 0) then
      (tolower (s1.headD 0) : Int) - (tolower (s2.headD 0) : Int)
    else if s1.headD 0 = 0 then 0
    else strncasecmp s1.tail s2.tail n

/-- The loop of `cliGetSettingIndex` from index `i` on, over the rest of `valueTable`; the
result is returned as `uint16_t`. -/
def cliGetSettingIndex_from (valueTableEntryCount : Nat) (name : List Nat) (length : Nat) :
    List clivalue_t → Nat → Nat
  | [], _ => valueTableEntryCount % 65536
  | e :: rest, i =>
    if strncasecmp name e.name e.name.length = 0 ∧ length = e.name.length then i % 65536
    else cliGetSettingIndex_from valueTableEntryCount name length rest (i + 1)

/-- The function `cliGetSettingIndex`; the registry `valueTable` with its `valueTableEntryCount`
entries is declared elsewhere and is a parameter here. -/
def cliGetSettingIndex (valueTable : List clivalue_t) (name : List Nat) (length : Nat) : Nat :=
  cliGetSettingIndex_from valueTable.length name length valueTable 0

/-- A registry of three entries for evaluating the functions: `acc` (uint8, 0..100), `ACC_MAX`
(int16, -500..500) and `timer` (uint32, up to 100000). -/
def valueTable_example : List clivalue_t :=
  [ { name := [97, 99, 99], type := VAR_UINT8,
      config := { minmax_min := 0, minmax_max := 0, minmaxUnsigned_min := 0,
                  minmaxUnsigned_max := 100, u32Max := 0 } },
    { name := [65, 67, 67, 95, 77, 65, 88], type := VAR_INT16,
      config := { minmax_min := -500, minmax_max := 500, minmaxUnsigned_min := 0,
                  minmaxUnsigned_max := 0, u32Max := 0 } },
    { name := [116, 105, 109, 101, 114], type := VAR_UINT32,
      config := { minmax_min := 0, minmax_max := 0, minmaxUnsigned_min := 0,
                  minmaxUnsigned_max := 0, u32Max := 100000 } } ]

/-! ## Command line: flight log index (`cli_commands.cpp`, flight computer) -/

/-- The C library's `isspace` in the C locale. -/
def isspace (c : Nat) : Bool := c = 32 ∨ (9 ≤ c ∧ c ≤ 13)

/-- The C library's `isdigit`. -/
def isdigit (c : Nat) : Bool := 48 ≤ c ∧ c ≤ 57

/-- The C library's `strtoul(s, &endptr, 10)` for a 32-bit `unsigned long`: white space is
skipped, an optional sign is read, then the decimal digits; a value above `ULONG_MAX` gives
`ULONG_MAX`, and a minus sign negates the value in the unsigned type. The result is the value
and the number of characters read (`endptr - s`), which is 0 when there are no digits. -/
def strtoul (s : List Nat) : Nat × Nat :=
  let s1 := s.dropWhile isspace
  let neg : Bool := s1.head? = some 45
  let sign : Bool := s1.head? = some 45 ∨ s1.head? = some 43
  let s2 := if sign then s1.tail else s1
  let ds := s2.takeWhile isdigit
  let acc := ds.foldl (fun a d => a * 10 + (d - 48)) 0
  if ds = [] then (0, 0)
  else
    ((if acc > 4294967295 then 4294967295
      else if neg then (4294967296 - acc) % 4294967296 else acc),
     (s.takeWhile isspace).length + (if sign then 1 else 0) + ds.length)

/-- The function `get_flight_idx`: `none` is the null pointer; `flight_counter` is the global
number of recorded flights. The local `flight_idx` is a `uint32_t`, the result an `int32_t`. -/
def get_flight_idx (flight_counter : Nat) (log_idx_arg : Option (List Nat)) : Int :=
  match log_idx_arg with
  | none => -1
  | some arg =>
    let flight_idx := (strtoul arg).1 % 4294967296
    if (strtoul arg).2 = 0 then -1
    else
      let flight_idx :=
        if flight_idx < 0 then (flight_counter + 1 + flight_idx) % 4294967296 else flight_idx
      if flight_idx ≤ 0 then -1
      else if flight_idx > flight_counter then -1
      else sign_extend 32 flight_idx

/-! ## Bounds of the frame parsers -/

/-- The relation between the state, the stored length byte and the index of the receive loop of
the flight computer: the index is 0 in the states OP and LEN; in state DATA a length byte of at
most 16 has been stored and the index is below it; in state CRC the index equals it. -/
def Run_bounds (s : RunState) : Prop :=
  s.uart_buffer.length = 20 ∧
  match s.state with
  | STATE_OP => s.uart_index = 0
  | STATE_LEN => s.uart_index = 0
  | STATE_DATA => s.uart_buffer.getD INDEX_LEN 0 ≤ 16 ∧ s.uart_index < s.uart_buffer.getD INDEX_LEN 0
  | STATE_CRC => s.uart_buffer.getD INDEX_LEN 0 ≤ 16 ∧ s.uart_index = s.uart_buffer.getD INDEX_LEN 0

/-- The same relation for the parser of the ground station, whose buffer has `n` bytes. -/
def Parser.bounds (n : Nat) (p : Parser) : Prop :=
  p.buffer.length = n ∧
  match p.state with
  | STATE_OP => p.dataIndex = 0
  | STATE_LEN => p.dataIndex = 0
  | STATE_DATA => p.buffer.getD INDEX_LEN 0 ≤ 16 ∧ p.dataIndex < p.buffer.getD INDEX_LEN 0
  | STATE_CRC => p.buffer.getD INDEX_LEN 0 ≤ 16 ∧ p.dataIndex = p.buffer.getD INDEX_LEN 0

/-! ## The copies of `Telemetry::Parse` -/

/-- The size of `struct packed_tx_msg_t`: the bit-fields fill 106 bits, which the zero-width
field rounds up to 14 bytes, and the byte `d1` follows (see `packed_tx_msg_bytes`). -/
def sizeof_packed_tx_msg_t : Nat := 15

/-- One call of `memcpy` made by `Telemetry::Parse`: the size of the object written to and the
number of bytes copied. -/
structure memcpy_call where
  dest_size : Nat
  n : Nat
  deriving DecidableEq, Repr

/-- The calls of `memcpy` that `Telemetry::Parse(op_code, buffer, length, gnss)` makes: for
`CMD_RX` the `length` bytes are copied into the local `packed_tx_msg_t rx_payload`; the
locations and the temperature are floats of 4 bytes. -/
def Parse_memcpy (op_code length : Nat) : List memcpy_call :=
  if length < 1 then []
  else if op_code = CMD_RX then [{ dest_size := sizeof_packed_tx_msg_t, n := length }]
  else if op_code = CMD_INFO then []
  else if op_code = CMD_GNSS_LOC then [{ dest_size := 4, n := 4 }, { dest_size := 4, n := 4 }]
  else if op_code = CMD_GNSS_INFO then []
  else if op_code = CMD_GNSS_TIME then []
  else if op_code = CMD_TEMP_INFO then [{ dest_size := 4, n := 4 }]
  else []

/-! ## Logged covariance (`task_state_est.c`, rev1Pro) -/

/-- The record `covariance_info_t` of `recorder.h`, over a type `F` of floats. -/
structure covariance_info_t (F : Type) where
  ts : Nat
  height_cov : F
  velocity_cov : F

/-- The record `cov_info` that `task_state_est` builds in each pass from the data `pData` of the
matrix `filter.P_bar`. -/
def cov_info {F : Type} (ts : Nat) (P_bar_pData : Nat → F) : covariance_info_t F :=
  { ts := ts, height_cov := P_bar_pData 1, velocity_cov := P_bar_pData 5 }

/-- The entry in row `i` and column `j` of a 3x3 matrix stored row by row, as the specification
reads the covariance data. -/
def spec_P {F : Type} (pData : Nat → F) (i j : Nat) : F := pData (3 * i + j)

/-- Covariance data for evaluating the record: the matrix with rows 10 1 2, 1 20 3, 2 3 30. -/
def P_bar_example : Nat → Int := fun k => [10, 1, 2, 1, 20, 3, 2, 3, 30].getD k 0

/-! ## The IMU sample of the flight FSM (`task_flight_fsm.c`, rev1Pro) -/

/-- The loop `for (int i = 0; i < 3; i++)` of `task_flight_fsm` over the channels still to be
looked at: the first channel with `faulty_imu[i] == 0` ends the loop with `local_imu` read from
`global_imu[i + 1]`; the result is `none` when that read is outside the array `global_imu`.
Without such a channel `local_imu` keeps its value. -/
def select_imu_from {α : Type} (faulty_imu : Nat → Nat) (global_imu : List α) (local_imu : α) :
    List Nat → Option α
  | [] => some local_imu
  | i :: rest =>
    if faulty_imu i = 0 then global_imu[i + 1]?
    else select_imu_from faulty_imu global_imu local_imu rest

/-- The sample `local_imu` that `task_flight_fsm` passes to `check_flight_phase` in one pass. -/
def select_imu {α : Type} (faulty_imu : Nat → Nat) (global_imu : List α) (local_imu : α) :
    Option α :=
  select_imu_from faulty_imu global_imu local_imu [0, 1, 2]

/-! ## USB log names (`emfat_file.c`) -/

def EMFAT_MAX_LOG_ENTRY : Int := 100

/-- The arguments `number` of the calls of `emfat_add_log` that `add_logs_from_path` makes (flight
computer): the loop runs `i` from 0 below `log_count + 2` and calls `emfat_add_log` with
`i + start_idx - 1` when `i > 1`. -/
def add_logs_from_path (log_count start_idx : Int) : List Int :=
  ((List.range (log_count + 2).toNat).filter (fun i => 1 < i)).map
    (fun i => (i : Int) + start_idx - 1)

/-- The arguments `number` of the calls of `emfat_add_log` made by `emfat_find_logs` of the
flight computer; the two counts are the results of `lfs_cnt`, and the two flags say whether
`lfs_dir_open` succeeds on the two directories. -/
def emfat_find_logs (flight_log_count stats_log_count : Int) (flights_open stats_open : Bool) :
    List Int :=
  if (flight_log_count < 1 ∧ stats_log_count < 1) ∨
      flight_log_count + stats_log_count > EMFAT_MAX_LOG_ENTRY then []
  else if ¬ flights_open then []
  else if ¬ stats_open then add_logs_from_path flight_log_count 0
  else add_logs_from_path flight_log_count 0 ++ add_logs_from_path stats_log_count flight_log_count

/-- The arguments `number` of the calls of `emfat_add_log` made by `emfat_find_logs` of the
firmware, which has the flight logs only. -/
def emfat_find_logs_firmware (logCount : Int) (dir_open : Bool) : List Int :=
  if logCount < 1 ∨ logCount > EMFAT_MAX_LOG_ENTRY then []
  else if ¬ dir_open then []
  else ((List.range (logCount + 2).toNat).filter (fun i => 1 < i)).map (fun i => (i : Int) - 1)

/-! ## Recorder information (`cli_cmd_rec_info`) -/

/-- What `cli_cmd_rec_info` prints under `Space:`; the percentages are doubles, here
rationals. -/
structure rec_info_output where
  total_kb : Nat
  used_kb : Nat
  used_percentage : ℚ
  free_kb : Nat
  free_percentage : ℚ

/-- The function `cli_cmd_rec_info` for non-negative results of `lfs_fs_size` and `lfs_cnt`:
`curr_sz_blocks` is the file system size in blocks, `block_size` and `block_count` come from the
file system configuration. The sizes are `uint32_t`; the divisor of the percentage is the total
size as `int32_t`, times 100. -/
def cli_cmd_rec_info (curr_sz_blocks block_size block_count : Nat) : rec_info_output :=
  let block_size_kb := block_size / 1024
  let curr_sz_kb := (curr_sz_blocks * block_size_kb) % 4294967296
  let total_sz_kb := (block_size_kb * block_count) % 4294967296
  let percentage_used : ℚ := (curr_sz_kb : ℚ) / ((sign_extend 32 total_sz_kb * 100 : Int) : ℚ)
  { total_kb := total_sz_kb
    used_kb := curr_sz_kb
    used_percentage := percentage_used
    free_kb := (total_sz_kb + 4294967296 - curr_sz_kb) % 4294967296
    free_percentage := 100 - percentage_used }

/-! ## Simulator noise (`task_simulator.c`) -/

/-- The function `rand_bounds`; `rand` is the value that the C library's `rand()` returns, which
is not negative. The remainder is the one of C (truncated division). -/
def rand_bounds (rand : Nat) (lower_b upper_b : Int) : Int :=
  Int.tmod (rand : Int) (upper_b - lower_b) - lower_b

/-! ## Command line: string settings (`cli_cmd_set`, flight computer) -/

/-- The C library's `strlen` on memory: the number of characters before the first 0. -/
def strlen (s : List Nat) : Nat := (s.takeWhile (fun c => c ≠ 0)).length

/-- The C library's `strncmp(s1, s2, n)`; the character read behind the end of a list is the
terminating 0. -/
def strncmp : List Nat → List Nat → Nat → Int
  | _, _, 0 => 0
  | s1, s2, n + 1 =>
    if s1.headD 0 ≠ s2.headD 0 then (s1.headD 0 : Int) - (s2.headD 0 : Int)
    else if s1.headD 0 = 0 then 0
    else strncmp s1.tail s2.tail n

/-- The C library's `memset(dst, v, n)` on the bytes of an array. -/
def memset (dst : List Nat) (v n : Nat) : List Nat :=
  memcpy dst 0 (List.replicate n v) n

/-- The string `emptyName` of `cli_commands.cpp`: a single minus sign. -/
def emptyName : List Nat := [45]

/-- The member `config.string` of a registry entry in string mode; `writeonce` says whether the
bit `STRING_FLAGS_WRITEONCE` is set in `flags`. -/
structure cli_string_config where
  min_length : Nat
  max_length : Nat
  writeonce : Bool
  deriving DecidableEq, Repr

/-- The branch `case MODE_STRING` of `cli_cmd_set` with the reply that follows the switch.
`val_ptr` is the text behind the equals sign after `skip_space`, `var` the bytes of the
configuration member (a character array). The result is the array afterwards and the reply;
the reply `INVALID_VALUE` comes after the line `STRING MUST BE min..max CHARACTERS OR '-' FOR
EMPTY`. -/
def cli_cmd_set_string (config : cli_string_config) (val_ptr var : List Nat) :
    List Nat × cli_reply :=
  let len := strlen val_ptr
  let updatable : Bool :=
    config.writeonce = false ∨ strlen var = 0 ∨ strncmp val_ptr var len = 0
  if updatable = true ∧ len > 0 ∧ len ≤ config.max_length then
    (if len ≥ config.min_length ∧ strncmp val_ptr emptyName len ≠ 0 then
        memcpy (memset var 0 config.max_length) 0 val_ptr len
      else memset var 0 config.max_length,
     cli_reply.set_to)
  else (var, cli_reply.INVALID_VALUE)

/-! ## Command line: the input line (`processCharacter`, rev1Pro and rev1) -/

/-- The size of `cliBuffer` in `cli.c` of rev1Pro. -/
def CLI_IN_BUFFER_SIZE : Nat := 128

/-- The statics `cliBuffer` and `bufferIndex` that `processCharacter` works on, with the indices
of its writes of single characters into `cliBuffer` (`writes`, in order) and the lines it has
handed to the command table (`lines`). -/
structure cli_state where
  cliBuffer : List Nat
  bufferIndex : Nat
  writes : List Nat
  lines : List (List Nat)
  deriving DecidableEq, Repr

/-- The C library's `strchr(s, c)` as an offset: the search goes over the memory from offset
`i` on and ends at the first 0. -/
def strchr_from (c : Nat) : List Nat → Nat → Option Nat
  | [], _ => none
  | b :: rest, i =>
    if b = c then some i else if b = 0 then none else strchr_from c rest (i + 1)

/-- The loop `while (bufferIndex > 0 && cliBuffer[bufferIndex - 1] == ' ') bufferIndex--`. -/
def strip_trailing (mem : List Nat) : Nat → Nat
  | 0 => 0
  | n + 1 => if mem.getD n 0 = 32 then strip_trailing mem n else n + 1

/-- The function `processCharacter` for a buffer of `size` characters; `after` is the memory
that follows `cliBuffer`, which `strchr` and the loop over trailing blanks read when the buffer
holds no 0. A write of the terminating 0 at or behind the end of the buffer is recorded in
`writes` and leaves the buffer as it is. -/
def processCharacter (size : Nat) (after : List Nat) (s : cli_state) (c : Nat) : cli_state :=
  if s.bufferIndex ≠ 0 ∧ (c = 10 ∨ c = 13) then
    let stripped := strip_trailing (s.cliBuffer ++ after)
      (match strchr_from 35 (s.cliBuffer ++ after) 0 with
       | some q => q
       | none => s.bufferIndex)
    { cliBuffer := List.replicate size 0
      bufferIndex := 0
      writes := if stripped > 0 then s.writes ++ [stripped] else s.writes
      lines := if stripped > 0 then s.lines ++ [(s.cliBuffer ++ after).take stripped]
               else s.lines }
  else if s.bufferIndex < size ∧ c ≥ 32 ∧ c ≤ 126 then
    if s.bufferIndex = 0 ∧ c = 32 then s
    else
      { s with cliBuffer := s.cliBuffer.set s.bufferIndex c
               bufferIndex := (s.bufferIndex + 1) % 4294967296
               writes := s.writes ++ [s.bufferIndex] }
  else s

/-- The characters of an input handed to `processCharacter` one after the other. -/
def processCharacters (size : Nat) (after : List Nat) (s : cli_state) (input : List Nat) :
    cli_state :=
  input.foldl (processCharacter size after) s

/-- The statics before the first character: an empty, zeroed buffer. -/
def cli_init (size : Nat) : cli_state :=
  { cliBuffer := List.replicate size 0, bufferIndex := 0, writes := [], lines := [] }

/-! # Properties -/

/-! ## Arithmetic of the index comparison -/

theorem len_minus_index_pos_iff (len index : Nat) (h : index ≤ len) (hl : len < 4294967296) :
    len_minus_index len index > 0 ↔ index < len := by
  unfold len_minus_index
  omega

theorem len_minus_index_eq_zero_iff (len index : Nat) (h : index ≤ len) (hl : len < 4294967296) :
    len_minus_index len index = 0 ↔ index = len := by
  unfold len_minus_index
  omega

/-! ## The receive loop of the flight computer on a frame -/

theorem Run_bytes_nil (s : RunState) : Run_bytes s [] = s := rfl

theorem Run_bytes_cons (s : RunState) (ch : Nat) (rest : List Nat) :
    Run_bytes s (ch :: rest) = Run_bytes (Run_byte s ch) rest := rfl

theorem Run_bytes_append (s : RunState) (l1 l2 : List Nat) :
    Run_bytes s (l1 ++ l2) = Run_bytes (Run_bytes s l1) l2 := by
  simp [Run_bytes, List.foldl_append]

/-- In state DATA the bytes still expected are stored behind the ones already there, and the
loop moves on to state CRC with the last of them. -/
theorem Run_bytes_data (d : List Nat) :
    ∀ (pre mid post : List Nat) (s : RunState) (op len : Nat),
      s.state = STATE_DATA → s.uart_buffer = op :: len :: (pre ++ mid ++ post) →
      pre.length = s.uart_index → mid.length = d.length → s.uart_index + d.length = len →
      len < 4294967296 → d ≠ [] →
      Run_bytes s d = { s with state := STATE_CRC, uart_index := len,
                               uart_buffer := op :: len :: (pre ++ d ++ post) } := by
  induction d with
  | nil => intro _ _ _ _ _ _ _ _ _ _ _ _ h; exact absurd rfl h
  | cons ch rest ih =>
    intro pre mid post s op len hst hbuf hpre hmid hlen hl _
    cases mid with
    | nil => simp at hmid
    | cons m mid' =>
      simp only [List.length_cons] at hmid hlen
      have hpos : len_minus_index len s.uart_index > 0 :=
        (len_minus_index_pos_iff len s.uart_index (by omega) hl).2 (by omega)
      have hmod : (s.uart_index + 1) % 4294967296 = s.uart_index + 1 := by omega
      have hset : (op :: len :: (pre ++ (m :: mid') ++ post)).set (s.uart_index + 2) ch
          = op :: len :: ((pre ++ [ch]) ++ mid' ++ post) := by
        simp [List.set_append, hpre]
      rw [Run_bytes_cons]
      by_cases hrest : rest = []
      · subst hrest
        simp only [List.length_nil] at hmid hlen
        have hz : len_minus_index len (s.uart_index + 1) = 0 :=
          (len_minus_index_eq_zero_iff len (s.uart_index + 1) (by omega) hl).2 (by omega)
        have hm' : mid' = [] := List.length_eq_zero.mp (by omega)
        subst hm'
        simp only [Run_bytes_nil, Run_byte, hst, hbuf, INDEX_LEN, List.getD_cons_succ,
          List.getD_cons_zero, hpos, if_true, hmod, hset, hz]
        simp
        omega
      · have hnz : ¬ len_minus_index len (s.uart_index + 1) = 0 := by
          rw [len_minus_index_eq_zero_iff len (s.uart_index + 1) (by omega) hl]
          have : 0 < rest.length := List.length_pos.mpr hrest
          omega
        have hstep : Run_byte s ch = { s with uart_buffer := op :: len :: ((pre ++ [ch]) ++ mid' ++ post),
                                              uart_index := s.uart_index + 1 } := by
          simp only [Run_byte, hst, hbuf, INDEX_LEN, List.getD_cons_succ,
            List.getD_cons_zero, hpos, if_true, hmod, hset, hnz, if_false]
        rw [hstep]
        rw [ih (pre ++ [ch]) mid' post
          { s with uart_buffer := op :: len :: ((pre ++ [ch]) ++ mid' ++ post),
                   uart_index := s.uart_index + 1 } op len hst rfl (by simp [hpre]) (by omega)
          (by simp only []; omega) hl hrest]
        simp

theorem crc8_take_frame (op len : Nat) (data post : List Nat) (h : data.length = len) :
    crc8 (op :: len :: (data ++ post)) (len + 2) = crc8 (op :: len :: data) (len + 2) := by
  subst h
  simp [crc8, List.take_append_eq_append_take]

/-- From state LEN onwards: the length byte, the data bytes and the CRC byte of a frame. -/
theorem Run_bytes_after_op (s : RunState) (op len c : Nat) (data tl : List Nat)
    (hst : s.state = STATE_LEN) (hidx : s.uart_index = 0) (hbuf : s.uart_buffer = op :: tl)
    (hlen20 : s.uart_buffer.length = 20) (hlen : len ≤ 16) (hdata : data.length = len) :
    Run_bytes s (len :: data ++ [c]) =
      { uart_buffer := op :: len :: (data ++ s.uart_buffer.drop (len + 2)),
        uart_index := 0, state := STATE_OP, valid_op := s.valid_op,
        parsed := if crc8 (op :: len :: data) (len + 2) = c then
            s.parsed ++ [{ op_code := op, buffer := data, length := len }]
          else s.parsed } := by
  cases tl with
  | nil => simp [hbuf] at hlen20
  | cons b1 tl2 =>
    have htl : tl2.length = 18 := by simpa [hbuf] using hlen20
    have hsplit : tl2 = [] ++ tl2.take len ++ tl2.drop len := by simp
    rw [List.cons_append, Run_bytes_cons, Run_bytes_append]
    by_cases hz : len = 0
    · subst hz
      have hd : data = [] := List.length_eq_zero.mp hdata
      subst hd
      by_cases hc : crc8_byte (crc8_byte 0 op) 0 = c <;>
        simp [Run_bytes, Run_byte, hst, hbuf, hidx, INDEX_LEN, INDEX_OP, crc8, hc]
    · have hstep : Run_byte s len = { s with uart_buffer := op :: len :: tl2, state := STATE_DATA } := by
        simp [Run_byte, hst, hbuf, INDEX_LEN, hlen, Nat.pos_of_ne_zero hz]
      rw [hstep]
      have hne : data ≠ [] := by
        intro h; subst h; simp at hdata; omega
      rw [Run_bytes_data data [] (tl2.take len) (tl2.drop len)
        { s with uart_buffer := op :: len :: tl2, state := STATE_DATA } op len rfl
        (by simp) (by simp [hidx]) (by simp [hdata]; omega) (by simp [hidx, hdata]) (by omega) hne]
      simp only [Run_bytes_cons, Run_bytes_nil, Run_byte, List.nil_append, INDEX_OP, INDEX_LEN,
        List.getD_cons_zero, List.getD_cons_succ, List.drop_succ_cons, hbuf]
      rw [crc8_take_frame op len data _ hdata]
      have htk : List.take len (data ++ List.drop len tl2) = data := by
        rw [List.take_append_eq_append_take]; simp [hdata]
      by_cases hc : crc8 (op :: len :: data) (len + 2) = c
      · simp [hc, htk]
      · simp [hc]

/-- A whole frame `op, len, data, c` received in state OP: `Parse` is called with the frame when
`c` is the CRC-8 of the bytes before it, and not at all otherwise; either way the loop is back
in state OP with index 0. -/
theorem Run_bytes_frame (s : RunState) (op len c : Nat) (data : List Nat)
    (hst : s.state = STATE_OP) (hidx : s.uart_index = 0)
    (hlen20 : s.uart_buffer.length = 20) (hop : CheckValidOpCode op = true)
    (hlen : len ≤ 16) (hdata : data.length = len) :
    Run_bytes s (op :: len :: data ++ [c]) =
      { uart_buffer := op :: len :: (data ++ s.uart_buffer.drop (len + 2)),
        uart_index := 0, state := STATE_OP, valid_op := true,
        parsed := if crc8 (op :: len :: data) (len + 2) = c then
            s.parsed ++ [{ op_code := op, buffer := data, length := len }]
          else s.parsed } := by
  cases hb : s.uart_buffer with
  | nil => simp [hb] at hlen20
  | cons b0 tl =>
    have hstep : Run_byte s op = { s with valid_op := true, uart_buffer := op :: tl,
                                          state := STATE_LEN } := by
      simp [Run_byte, hst, hop, hb, INDEX_OP]
    rw [List.cons_append, Run_bytes_cons, hstep]
    rw [Run_bytes_after_op { s with valid_op := true, uart_buffer := op :: tl, state := STATE_LEN }
      op len c data tl rfl hidx rfl (by simpa [hb] using hlen20) hlen hdata]
    simp

/-! ## The CRC-8 detects a change confined to one byte -/

theorem crc8_bit_lt (c : Nat) : crc8_bit c < 256 := by
  unfold crc8_bit
  split <;> exact Nat.mod_lt _ (by decide)

set_option maxRecDepth 100000 in
theorem crc8_bit_left_inverse :
    ∀ c, c < 256 →
      (if crc8_bit c % 2 = 1 then (crc8_bit c ^^^ 7) / 2 + 128 else crc8_bit c / 2) = c := by
  decide

theorem crc8_bit_injective (a b : Nat) (ha : a < 256) (hb : b < 256)
    (h : crc8_bit a = crc8_bit b) : a = b := by
  have h1 := crc8_bit_left_inverse a ha
  have h2 := crc8_bit_left_inverse b hb
  rw [h] at h1
  exact h1.symm.trans h2

theorem crc8_byte_lt (c b : Nat) : crc8_byte c b < 256 := crc8_bit_lt _

theorem xor_byte_lt (a b : Nat) (ha : a < 256) (hb : b < 256) : a ^^^ b < 256 :=
  Nat.xor_lt_two_pow (n := 8) ha hb

theorem crc8_byte_injective_xor (x y : Nat) (hx : x < 256) (hy : y < 256)
    (h : crc8_bit (crc8_bit (crc8_bit (crc8_bit (crc8_bit (crc8_bit (crc8_bit (crc8_bit x)))))))
       = crc8_bit (crc8_bit (crc8_bit (crc8_bit (crc8_bit (crc8_bit (crc8_bit (crc8_bit y)))))))) :
    x = y := by
  have b := crc8_bit_lt
  exact crc8_bit_injective _ _ hx hy
    (crc8_bit_injective _ _ (b _) (b _)
    (crc8_bit_injective _ _ (b _) (b _)
    (crc8_bit_injective _ _ (b _) (b _)
    (crc8_bit_injective _ _ (b _) (b _)
    (crc8_bit_injective _ _ (b _) (b _)
    (crc8_bit_injective _ _ (b _) (b _)
    (crc8_bit_injective _ _ (b _) (b _) h)))))))

/-- Two different register values stay different after the same byte. -/
theorem crc8_byte_injective_crc (c1 c2 b : Nat) (h1 : c1 < 256) (h2 : c2 < 256) (hb : b < 256)
    (h : crc8_byte c1 b = crc8_byte c2 b) : c1 = c2 :=
  Nat.xor_left_injective
    (crc8_byte_injective_xor _ _ (xor_byte_lt _ _ h1 hb) (xor_byte_lt _ _ h2 hb) h)

/-- Two different bytes lead the same register value to different values. -/
theorem crc8_byte_injective_byte (c b1 b2 : Nat) (hc : c < 256) (h1 : b1 < 256) (h2 : b2 < 256)
    (h : crc8_byte c b1 = crc8_byte c b2) : b1 = b2 :=
  Nat.xor_right_injective
    (crc8_byte_injective_xor _ _ (xor_byte_lt _ _ hc h1) (xor_byte_lt _ _ hc h2) h)

theorem crc8_foldl_lt (l : List Nat) : ∀ c, c < 256 → l.foldl crc8_byte c < 256 := by
  induction l with
  | nil => intro c hc; simpa using hc
  | cons b l ih => intro c _; exact ih _ (crc8_byte_lt c b)

theorem crc8_foldl_injective (l : List Nat) (hl : ∀ b ∈ l, b < 256) :
    ∀ c1 c2, c1 < 256 → c2 < 256 → l.foldl crc8_byte c1 = l.foldl crc8_byte c2 → c1 = c2 := by
  induction l with
  | nil => intro c1 c2 _ _ h; simpa using h
  | cons b l ih =>
    intro c1 c2 h1 h2 h
    have hb : b < 256 := hl b (List.mem_cons_self _ _)
    have := ih (fun x hx => hl x (List.mem_cons_of_mem _ hx)) _ _
      (crc8_byte_lt c1 b) (crc8_byte_lt c2 b) h
    exact crc8_byte_injective_crc c1 c2 b h1 h2 hb this

/-- Messages that differ in exactly one byte have different CRC-8 values. -/
theorem crc8_single_byte_change (pre post : List Nat) (b1 b2 : Nat)
    (hpost : ∀ b ∈ post, b < 256) (h1 : b1 < 256) (h2 : b2 < 256) (hne : b1 ≠ b2) :
    crc8 (pre ++ b1 :: post) (pre ++ b1 :: post).length
      ≠ crc8 (pre ++ b2 :: post) (pre ++ b2 :: post).length := by
  intro h
  simp only [crc8, List.take_length, List.foldl_append, List.foldl_cons] at h
  have hc : pre.foldl crc8_byte 0 < 256 := crc8_foldl_lt pre 0 (by decide)
  have := crc8_foldl_injective post hpost _ _ (crc8_byte_lt _ b1) (crc8_byte_lt _ b2) h
  exact hne (crc8_byte_injective_byte _ b1 b2 hc h1 h2 this)

/-- Flipping one of the eight bits of a byte gives another byte. -/
theorem flip_bit_ne (b k : Nat) : b ^^^ 2 ^ k ≠ b := by
  intro h
  have h0 : b ^^^ 2 ^ k = b ^^^ 0 := by simpa using h
  have := Nat.xor_right_injective h0
  exact absurd this (by positivity)

theorem flip_bit_lt (b k : Nat) (hb : b < 256) (hk : k < 8) : b ^^^ 2 ^ k < 256 :=
  xor_byte_lt _ _ hb (by
    have : 2 ^ k < 2 ^ 8 := Nat.pow_lt_pow_right (by decide) hk
    simpa using this)

/-! ## The ground-station parser on a frame -/

theorem process_bytes_nil (cmdIndex : List Nat) (p : Parser) :
    Parser.process_bytes cmdIndex p [] = p := rfl

theorem process_bytes_cons (cmdIndex : List Nat) (p : Parser) (ch : Nat) (rest : List Nat) :
    Parser.process_bytes cmdIndex p (ch :: rest)
      = Parser.process_bytes cmdIndex (Parser.process cmdIndex p ch) rest := rfl

theorem process_bytes_append (cmdIndex : List Nat) (p : Parser) (l1 l2 : List Nat) :
    Parser.process_bytes cmdIndex p (l1 ++ l2)
      = Parser.process_bytes cmdIndex (Parser.process_bytes cmdIndex p l1) l2 := by
  simp [Parser.process_bytes, List.foldl_append]

/-- In state DATA the bytes still expected are stored behind the ones already there, and the
parser moves on to state CRC with the last of them. -/
theorem process_bytes_data (cmdIndex : List Nat) (d : List Nat) :
    ∀ (pre mid post : List Nat) (p : Parser) (op len : Nat),
      p.state = STATE_DATA → p.buffer = op :: len :: (pre ++ mid ++ post) →
      pre.length = p.dataIndex → mid.length = d.length → p.dataIndex + d.length = len →
      len < 4294967296 → d ≠ [] →
      Parser.process_bytes cmdIndex p d
        = { p with state := STATE_CRC, dataIndex := len,
                   buffer := op :: len :: (pre ++ d ++ post) } := by
  induction d with
  | nil => intro _ _ _ _ _ _ _ _ _ _ _ _ h; exact absurd rfl h
  | cons ch rest ih =>
    intro pre mid post p op len hst hbuf hpre hmid hlen hl _
    cases mid with
    | nil => simp at hmid
    | cons m mid' =>
      simp only [List.length_cons] at hmid hlen
      have hpos : len_minus_index len p.dataIndex > 0 :=
        (len_minus_index_pos_iff len p.dataIndex (by omega) hl).2 (by omega)
      have hmod : (p.dataIndex + 1) % 4294967296 = p.dataIndex + 1 := by omega
      have hset : (op :: len :: (pre ++ (m :: mid') ++ post)).set (p.dataIndex + 2) ch
          = op :: len :: ((pre ++ [ch]) ++ mid' ++ post) := by
        simp [List.set_append, hpre]
      rw [process_bytes_cons]
      by_cases hrest : rest = []
      · subst hrest
        simp only [List.length_nil] at hmid hlen
        have hz : len_minus_index len (p.dataIndex + 1) = 0 :=
          (len_minus_index_eq_zero_iff len (p.dataIndex + 1) (by omega) hl).2 (by omega)
        have hm' : mid' = [] := List.length_eq_zero.mp (by omega)
        subst hm'
        simp only [process_bytes_nil, Parser.process, hst, hbuf, INDEX_LEN, List.getD_cons_succ,
          List.getD_cons_zero, hpos, if_true, hmod, hset, hz]
        simp
        omega
      · have hnz : ¬ len_minus_index len (p.dataIndex + 1) = 0 := by
          rw [len_minus_index_eq_zero_iff len (p.dataIndex + 1) (by omega) hl]
          have : 0 < rest.length := List.length_pos.mpr hrest
          omega
        have hstep : Parser.process cmdIndex p ch
            = { p with buffer := op :: len :: ((pre ++ [ch]) ++ mid' ++ post),
                       dataIndex := p.dataIndex + 1 } := by
          simp only [Parser.process, hst, hbuf, INDEX_LEN, List.getD_cons_succ,
            List.getD_cons_zero, hpos, if_true, hmod, hset, hnz, if_false]
        rw [hstep]
        rw [ih (pre ++ [ch]) mid' post
          { p with buffer := op :: len :: ((pre ++ [ch]) ++ mid' ++ post),
                   dataIndex := p.dataIndex + 1 } op len hst rfl (by simp [hpre]) (by omega)
          (by simp only []; omega) hl hrest]
        simp

/-- From state LEN onwards: the length byte, the data bytes and the CRC byte of a frame. -/
theorem process_bytes_after_op (cmdIndex : List Nat) (p : Parser) (op len c : Nat)
    (data tl : List Nat)
    (hst : p.state = STATE_LEN) (hidx : p.dataIndex = 0) (hbuf : p.buffer = op :: tl)
    (hlen18 : 18 ≤ p.buffer.length) (hlen : len ≤ 16) (hdata : data.length = len) :
    Parser.process_bytes cmdIndex p (len :: data ++ [c]) =
      { buffer := op :: len :: (data ++ p.buffer.drop (len + 2)),
        dataIndex := 0, state := STATE_OP, opCodeIndex := p.opCodeIndex,
        commands := if crc8 (op :: len :: data) (len + 2) = c then
            p.commands ++ [{ opCodeIndex := p.opCodeIndex, args := data, length := len }]
          else p.commands } := by
  cases tl with
  | nil => simp [hbuf] at hlen18
  | cons b1 tl2 =>
    have htl : 16 ≤ tl2.length := by
      have : 18 ≤ tl2.length + 1 + 1 := by simpa [hbuf] using hlen18
      omega
    rw [List.cons_append, process_bytes_cons, process_bytes_append]
    by_cases hz : len = 0
    · subst hz
      have hd : data = [] := List.length_eq_zero.mp hdata
      subst hd
      by_cases hc : crc8_byte (crc8_byte 0 op) 0 = c <;>
        simp [Parser.process_bytes, Parser.process, Parser.parse, Parser.reset, hst, hbuf, hidx,
          INDEX_LEN, INDEX_OP, crc8, hc]
    · have hstep : Parser.process cmdIndex p len
          = { p with buffer := op :: len :: tl2, state := STATE_DATA } := by
        simp [Parser.process, hst, hbuf, INDEX_LEN, hlen, Nat.pos_of_ne_zero hz]
      rw [hstep]
      have hne : data ≠ [] := by
        intro h; subst h; simp at hdata; omega
      rw [process_bytes_data cmdIndex data [] (tl2.take len) (tl2.drop len)
        { p with buffer := op :: len :: tl2, state := STATE_DATA } op len rfl
        (by simp) (by simp [hidx]) (by simp [hdata]; omega) (by simp [hidx, hdata]) (by omega) hne]
      simp only [process_bytes_cons, process_bytes_nil, Parser.process, List.nil_append,
        List.drop_succ_cons, hbuf]
      rw [crc8_take_frame op len data _ hdata]
      have htk : List.take len (data ++ List.drop len tl2) = data := by
        rw [List.take_append_eq_append_take]; simp [hdata]
      by_cases hc : crc8 (op :: len :: data) (len + 2) = c
      · simp [hc, htk, Parser.parse, Parser.reset]
      · simp [hc, Parser.reset]

/-- A whole frame `op, len, data, c` received in state OP: the handler of `op` is called with
the data when `c` is the CRC-8 of the bytes before it, and not at all otherwise; either way the
parser is back in state OP with data index 0. -/
theorem process_bytes_frame (cmdIndex : List Nat) (p : Parser) (op len c : Nat)
    (data : List Nat)
    (hst : p.state = STATE_OP) (hidx : p.dataIndex = 0)
    (hlen18 : 18 ≤ p.buffer.length) (hop : 0 ≤ getOpCodeIndex cmdIndex op)
    (hlen : len ≤ 16) (hdata : data.length = len) :
    Parser.process_bytes cmdIndex p (op :: len :: data ++ [c]) =
      { buffer := op :: len :: (data ++ p.buffer.drop (len + 2)),
        dataIndex := 0, state := STATE_OP, opCodeIndex := getOpCodeIndex cmdIndex op,
        commands := if crc8 (op :: len :: data) (len + 2) = c then
            p.commands ++
              [{ opCodeIndex := getOpCodeIndex cmdIndex op, args := data, length := len }]
          else p.commands } := by
  cases hb : p.buffer with
  | nil => simp [hb] at hlen18
  | cons b0 tl =>
    have hstep : Parser.process cmdIndex p op
        = { p with opCodeIndex := getOpCodeIndex cmdIndex op, buffer := op :: tl,
                   state := STATE_LEN } := by
      simp [Parser.process, hst, hop, hb, INDEX_OP]
    rw [List.cons_append, process_bytes_cons, hstep]
    rw [process_bytes_after_op cmdIndex
      { p with opCodeIndex := getOpCodeIndex cmdIndex op, buffer := op :: tl, state := STATE_LEN }
      op len c data tl rfl hidx rfl (by simpa [hb] using hlen18) hlen hdata]
    simp

/-! ## CRC rejection -/

/-- A frame with one bit of a data byte or of its CRC byte flipped is a frame whose last byte
is not the CRC-8 of the bytes before it. -/
theorem flip_bit_frame (op len : Nat) (data : List Nat) (i k : Nat)
    (hlen : len ≤ 16) (hdata : data.length = len) (hbytes : ∀ b ∈ data, b < 256)
    (hi : 2 ≤ i ∧ i < len + 3) (hk : k < 8) :
    ∃ data' c', flip_bit (frame op len data) i k = op :: len :: data' ++ [c'] ∧
      data'.length = len ∧ crc8 (op :: len :: data') (len + 2) ≠ c' := by
  obtain ⟨hi2, hi3⟩ := hi
  obtain ⟨j, rfl⟩ : ∃ j, i = j + 2 := ⟨i - 2, by omega⟩
  by_cases hj : j = len
  · subst hj
    refine ⟨data, crc8 (op :: j :: data) (j + 2) ^^^ 2 ^ k, ?_, hdata, ?_⟩
    · simp [flip_bit, frame, List.set_append, List.getD_eq_getElem?_getD,
        List.getElem?_append_right, hdata]
    · exact fun h => flip_bit_ne _ _ h.symm
  · have hjl : j < data.length := by omega
    obtain ⟨pre, b, post, hsplit, hprelen⟩ :
        ∃ pre b post, data = pre ++ b :: post ∧ pre.length = j :=
      ⟨data.take j, data[j], data.drop (j + 1), by simp, by simp; omega⟩
    subst hsplit
    have hb : b < 256 := hbytes b (by simp)
    have hb' : b ^^^ 2 ^ k < 256 := flip_bit_lt _ _ hb hk
    refine ⟨pre ++ (b ^^^ 2 ^ k) :: post,
      crc8 (op :: len :: (pre ++ b :: post)) (len + 2), ?_, ?_, ?_⟩
    · have hget : (frame op len (pre ++ b :: post)).getD (j + 2) 0 = b := by
        subst hprelen
        simp [frame, List.getD_eq_getElem?_getD, List.getElem_append_right]
      rw [flip_bit, hget]
      simp [frame, List.set_append, hprelen]
    · simpa using hdata
    · have hpost : ∀ x ∈ post, x < 256 := fun x hx => hbytes x (by simp [hx])
      have key := crc8_single_byte_change (op :: len :: pre) post
        (b ^^^ 2 ^ k) b hpost hb' hb (flip_bit_ne _ _)
      have hl1 : (op :: len :: pre ++ (b ^^^ 2 ^ k) :: post).length = len + 2 := by
        simp at hdata ⊢; omega
      have hl2 : (op :: len :: pre ++ b :: post).length = len + 2 := by
        simp at hdata ⊢; omega
      rw [hl1, hl2] at key
      simpa using key

/-- C2 as stated fails for a frame whose opcode the parser does not accept, such as TX (0x30):
the parser skips the opcode byte and looks for an opcode among the bytes that follow. The
well-formed frame `0x30, 5, [0x42, 1, 5, c, 0], crc8` with `c` the CRC-8 of `0x42, 1, 5` and
bit 0 of its CRC byte flipped has the command `0x42, [5]` dispatched out of its data bytes; the
well-formed frame `0x30, 1, [0x30], crc8` with bit 0 of its data byte flipped leaves the parser
in state LEN. This holds for the receive loop of the flight computer and for the parser of the
ground station with the table `0x31, 0x32, 0x40, 0x41, 0x42`. -/
theorem crc_rejection_counterexample :
    CheckValidOpCode CMD_TX = false ∧
    getOpCodeIndex [0x31, 0x32, 0x40, 0x41, 0x42] CMD_TX = -1 ∧
    (Run_bytes (Run_init (List.replicate 20 0))
      (flip_bit (frame CMD_TX 5 [0x42, 1, 5, crc8 [0x42, 1, 5] 3, 0]) 7 0)).parsed
      = [{ op_code := 0x42, buffer := [5], length := 1 }] ∧
    (Run_bytes (Run_init (List.replicate 20 0))
      (flip_bit (frame CMD_TX 1 [0x30]) 2 0)).state = STATE_LEN ∧
    (Parser.process_bytes [0x31, 0x32, 0x40, 0x41, 0x42]
      { buffer := List.replicate 20 0, dataIndex := 0, state := STATE_OP, opCodeIndex := -1,
        commands := [] }
      (flip_bit (frame CMD_TX 5 [0x42, 1, 5, crc8 [0x42, 1, 5] 3, 0]) 7 0)).commands
      = [{ opCodeIndex := 4, args := [5], length := 1 }] ∧
    (Parser.process_bytes [0x31, 0x32, 0x40, 0x41, 0x42]
      { buffer := List.replicate 20 0, dataIndex := 0, state := STATE_OP, opCodeIndex := -1,
        commands := [] }
      (flip_bit (frame CMD_TX 1 [0x30]) 2 0)).state = STATE_LEN := by
  refine ⟨by decide, by decide, ?_, ?_, ?_, ?_⟩
  · set_option maxRecDepth 100000 in decide
  · decide
  · set_option maxRecDepth 100000 in decide
  · decide

/-- C2, amended (CRC rejection). Take a frame `op, len, data, crc8` with `len ≤ 16`, `len` data
bytes and an opcode the parser accepts, flip any one bit of any data byte or of the CRC byte (byte
number `i` with `2 ≤ i < len + 3`, bit `k < 8`), and feed the result byte by byte to a parser in
state OP with index 0. Then no command is dispatched for it and the parser ends in state OP
with its index back at 0. This holds for the receive loop of the flight computer
(`Telemetry::Run`) and for the parser of the ground station (`Parser::process`), with the CRC-8
of the specification. -/
theorem crc_rejection (cmdIndex : List Nat) (s : RunState) (p : Parser) (op len : Nat)
    (data : List Nat) (i k : Nat)
    (hlen : len ≤ 16) (hdata : data.length = len) (hbytes : ∀ b ∈ data, b < 256)
    (hi : 2 ≤ i ∧ i < len + 3) (hk : k < 8) :
    (CheckValidOpCode op = true → s.state = STATE_OP → s.uart_index = 0 →
        s.uart_buffer.length = 20 →
      (Run_bytes s (flip_bit (frame op len data) i k)).parsed = s.parsed ∧
      (Run_bytes s (flip_bit (frame op len data) i k)).state = STATE_OP ∧
      (Run_bytes s (flip_bit (frame op len data) i k)).uart_index = 0) ∧
    (0 ≤ getOpCodeIndex cmdIndex op → p.state = STATE_OP → p.dataIndex = 0 →
        18 ≤ p.buffer.length →
      (Parser.process_bytes cmdIndex p (flip_bit (frame op len data) i k)).commands = p.commands ∧
      (Parser.process_bytes cmdIndex p (flip_bit (frame op len data) i k)).state = STATE_OP ∧
      (Parser.process_bytes cmdIndex p (flip_bit (frame op len data) i k)).dataIndex = 0) := by
  obtain ⟨data', c', hflip, hdata', hcrc⟩ := flip_bit_frame op len data i k hlen hdata hbytes hi hk
  rw [hflip]
  constructor
  · intro hop hst hidx hlen20
    rw [Run_bytes_frame s op len c' data' hst hidx hlen20 hop hlen hdata']
    simp [hcrc]
  · intro hop hst hidx hlen18
    rw [process_bytes_frame cmdIndex p op len c' data' hst hidx hlen18 hop hlen hdata']
    simp [hcrc]

/-- C2, at a concrete input: the frame `0x31, 2, [7, 9], crc8` with bit 3 of its second data byte
flipped, received by both parsers in their initial state. -/
theorem crc_rejection_witness :
    ((Run_bytes (Run_init (List.replicate 20 0)) (flip_bit (frame 0x31 2 [7, 9]) 3 3)).parsed = [] ∧
      (Run_bytes (Run_init (List.replicate 20 0)) (flip_bit (frame 0x31 2 [7, 9]) 3 3)).state
        = STATE_OP ∧
      (Run_bytes (Run_init (List.replicate 20 0)) (flip_bit (frame 0x31 2 [7, 9]) 3 3)).uart_index
        = 0) ∧
    ((Parser.process_bytes [0x31, 0x32]
        { buffer := List.replicate 20 0, dataIndex := 0, state := STATE_OP, opCodeIndex := -1,
          commands := [] } (flip_bit (frame 0x31 2 [7, 9]) 3 3)).commands = [] ∧
      (Parser.process_bytes [0x31, 0x32]
        { buffer := List.replicate 20 0, dataIndex := 0, state := STATE_OP, opCodeIndex := -1,
          commands := [] } (flip_bit (frame 0x31 2 [7, 9]) 3 3)).state = STATE_OP ∧
      (Parser.process_bytes [0x31, 0x32]
        { buffer := List.replicate 20 0, dataIndex := 0, state := STATE_OP, opCodeIndex := -1,
          commands := [] } (flip_bit (frame 0x31 2 [7, 9]) 3 3)).dataIndex = 0) :=
  have h := crc_rejection [0x31, 0x32] (Run_init (List.replicate 20 0))
    { buffer := List.replicate 20 0, dataIndex := 0, state := STATE_OP, opCodeIndex := -1,
      commands := [] } 0x31 2 [7, 9] 3 3 (by decide) rfl (by decide) (by decide) (by decide)
  ⟨h.1 (by decide) rfl rfl rfl, h.2 (by decide) rfl rfl (by decide)⟩

/-! ## Opcode filtering and length check -/

theorem CheckValidOpCode_iff (ch : Nat) : CheckValidOpCode ch = true ↔ ch ∈ accepted_opcodes := by
  simp only [CheckValidOpCode, accepted_opcodes, List.mem_cons, List.mem_singleton,
    List.not_mem_nil, or_false]
  constructor
  · intro h
    split at h
    · rename_i h'
      rcases h' with h' | h' | h' | h' | h' | h' <;> simp [h']
    · cases h
  · intro h
    rw [if_pos]
    rcases h with h | h | h | h | h | h <;> simp [h]

/-- C4, refuted as stated: TX (0x30) is one of the known opcodes of section 6, and the receive
loop of the flight computer in state OP does not move to state LEN on it. -/
theorem opcode_filter_counterexample :
    ¬ ((Run_byte (Run_init (List.replicate 20 0)) CMD_TX).state = STATE_LEN
        ↔ CMD_TX ∈ known_opcodes) := by
  decide

/-- C4, amended. In state OP a received byte moves the receive loop of the flight computer to
state LEN, stored as the opcode of the frame, exactly when it is one of the six opcodes the
flight computer handles (RX 0x31, INFO 0x32, GNSS_LOC 0x40, GNSS_TIME 0x41, GNSS_INFO 0x42,
TEMP_INFO 0x50); every other byte, the other known opcodes included, is discarded: the loop
stays in state OP and buffer, index and dispatched commands are as before. -/
theorem opcode_filter (s : RunState) (ch : Nat) (hst : s.state = STATE_OP) :
    ((Run_byte s ch).state = STATE_LEN ↔ ch ∈ accepted_opcodes) ∧
    (ch ∈ accepted_opcodes →
      (Run_byte s ch).uart_buffer = s.uart_buffer.set INDEX_OP ch ∧
      (Run_byte s ch).uart_index = s.uart_index ∧ (Run_byte s ch).parsed = s.parsed) ∧
    (ch ∉ accepted_opcodes →
      (Run_byte s ch).state = STATE_OP ∧ (Run_byte s ch).uart_buffer = s.uart_buffer ∧
      (Run_byte s ch).uart_index = s.uart_index ∧ (Run_byte s ch).parsed = s.parsed) := by
  by_cases h : ch ∈ accepted_opcodes
  · have hv := (CheckValidOpCode_iff ch).2 h
    simp [Run_byte, hst, hv, h]
  · have hv : CheckValidOpCode ch = false := by
      cases hc : CheckValidOpCode ch
      · rfl
      · exact absurd ((CheckValidOpCode_iff ch).1 hc) h
    simp [Run_byte, hst, hv, h]

/-- C4 amended, at a concrete input: the byte 0x40 (GNSS_LOC) received in the initial state. -/
theorem opcode_filter_witness :
    ((Run_byte (Run_init (List.replicate 20 0)) 0x40).state = STATE_LEN
        ↔ 0x40 ∈ accepted_opcodes) ∧
    (Run_byte (Run_init (List.replicate 20 0)) 0x40).uart_buffer
      = (List.replicate 20 0).set INDEX_OP 0x40 :=
  have h := opcode_filter (Run_init (List.replicate 20 0)) 0x40 rfl
  ⟨h.1, (h.2.1 (by decide)).1⟩

/-- C5, refuted as stated: after the opcode 0x31 the length byte 17 leaves the receive loop of
the flight computer in state LEN, not in state OP; the parser of the ground station does the
same. -/
theorem length_check_counterexample :
    (Run_byte (Run_byte (Run_init (List.replicate 20 0)) 0x31) 17).state = STATE_LEN ∧
    (Run_byte (Run_byte (Run_init (List.replicate 20 0)) 0x31) 17).state ≠ STATE_OP ∧
    (Parser.process [0x31]
      (Parser.process [0x31]
        { buffer := List.replicate 20 0, dataIndex := 0, state := STATE_OP, opCodeIndex := -1,
          commands := [] } 0x31) 17).state = STATE_LEN := by
  decide

/-- C5, amended. In state LEN a length byte greater than 16 is ignored: nothing is stored, no
command is dispatched, and the parser stays in state LEN, still holding the opcode, until a
byte that is at most 16 arrives; a length byte that is at most 16 is stored as the length and
the parser moves to state DATA when it is greater than 0 and to state CRC when it is 0. This
holds for the receive loop of the flight computer and for the parser of the ground station. -/
theorem length_check (cmdIndex : List Nat) (s : RunState) (p : Parser) (ch : Nat) :
    (s.state = STATE_LEN →
      (16 < ch → Run_byte s ch = s) ∧
      (ch ≤ 16 →
        Run_byte s ch = { s with uart_buffer := s.uart_buffer.set INDEX_LEN ch,
                                 state := if ch > 0 then STATE_DATA else STATE_CRC })) ∧
    (p.state = STATE_LEN →
      (16 < ch → Parser.process cmdIndex p ch = p) ∧
      (ch ≤ 16 →
        Parser.process cmdIndex p ch
          = { p with buffer := p.buffer.set INDEX_LEN ch,
                     state := if ch > 0 then STATE_DATA else STATE_CRC })) := by
  constructor
  · intro hst
    constructor
    · intro h
      simp [Run_byte, hst, Nat.not_le.mpr h]
    · intro h
      by_cases h0 : ch > 0 <;> simp [Run_byte, hst, h, h0]
  · intro hst
    constructor
    · intro h
      simp [Parser.process, hst, Nat.not_le.mpr h]
    · intro h
      by_cases h0 : ch > 0 <;> simp [Parser.process, hst, h, h0]

/-- C5 amended, at a concrete input: after the opcode 0x31, the length bytes 200 and 3. -/
theorem length_check_witness :
    Run_byte (Run_byte (Run_init (List.replicate 20 0)) 0x31) 200
      = Run_byte (Run_init (List.replicate 20 0)) 0x31 ∧
    (Run_byte (Run_byte (Run_init (List.replicate 20 0)) 0x31) 3).state = STATE_DATA :=
  have h := (length_check [] (Run_byte (Run_init (List.replicate 20 0)) 0x31)
    { buffer := [], dataIndex := 0, state := STATE_OP, opCodeIndex := -1, commands := [] } 200).1
    (by decide)
  have h3 := (length_check [] (Run_byte (Run_init (List.replicate 20 0)) 0x31)
    { buffer := [], dataIndex := 0, state := STATE_OP, opCodeIndex := -1, commands := [] } 3).1
    (by decide)
  ⟨h.1 (by decide), by rw [h3.2 (by decide)]; decide⟩

/-! ## Truncated frames -/

/-- In state DATA, bytes that do not yet complete the frame are stored and the loop stays in
state DATA. -/
theorem Run_bytes_data_incomplete (d : List Nat) :
    ∀ (pre mid post : List Nat) (s : RunState) (op len : Nat),
      s.state = STATE_DATA → s.uart_buffer = op :: len :: (pre ++ mid ++ post) →
      pre.length = s.uart_index → mid.length = d.length → s.uart_index + d.length < len →
      len < 4294967296 →
      Run_bytes s d = { s with uart_index := s.uart_index + d.length,
                               uart_buffer := op :: len :: (pre ++ d ++ post) } := by
  induction d with
  | nil =>
    intro pre mid post s op len _ hbuf _ hmid _ _
    have hm : mid = [] := List.length_eq_zero.mp (by simpa using hmid)
    subst hm
    cases s
    simp only [List.append_nil] at hbuf
    simp [Run_bytes_nil, ← hbuf]
  | cons ch rest ih =>
    intro pre mid post s op len hst hbuf hpre hmid hlen hl
    cases mid with
    | nil => simp at hmid
    | cons m mid' =>
      simp only [List.length_cons] at hmid hlen
      have hpos : len_minus_index len s.uart_index > 0 :=
        (len_minus_index_pos_iff len s.uart_index (by omega) hl).2 (by omega)
      have hmod : (s.uart_index + 1) % 4294967296 = s.uart_index + 1 := by omega
      have hset : (op :: len :: (pre ++ (m :: mid') ++ post)).set (s.uart_index + 2) ch
          = op :: len :: ((pre ++ [ch]) ++ mid' ++ post) := by
        simp [List.set_append, hpre]
      have hnz : ¬ len_minus_index len (s.uart_index + 1) = 0 := by
        rw [len_minus_index_eq_zero_iff len (s.uart_index + 1) (by omega) hl]
        omega
      have hstep : Run_byte s ch = { s with uart_buffer := op :: len :: ((pre ++ [ch]) ++ mid' ++ post),
                                            uart_index := s.uart_index + 1 } := by
        simp only [Run_byte, hst, hbuf, INDEX_LEN, List.getD_cons_succ,
          List.getD_cons_zero, hpos, if_true, hmod, hset, hnz, if_false]
      rw [Run_bytes_cons, hstep]
      rw [ih (pre ++ [ch]) mid' post
        { s with uart_buffer := op :: len :: ((pre ++ [ch]) ++ mid' ++ post),
                 uart_index := s.uart_index + 1 } op len hst rfl (by simp [hpre]) (by omega)
        (by simp only []; omega) hl]
      simp
      omega

/-- The ground-station counterpart of `Run_bytes_data_incomplete`. -/
theorem process_bytes_data_incomplete (cmdIndex : List Nat) (d : List Nat) :
    ∀ (pre mid post : List Nat) (p : Parser) (op len : Nat),
      p.state = STATE_DATA → p.buffer = op :: len :: (pre ++ mid ++ post) →
      pre.length = p.dataIndex → mid.length = d.length → p.dataIndex + d.length < len →
      len < 4294967296 →
      Parser.process_bytes cmdIndex p d
        = { p with dataIndex := p.dataIndex + d.length,
                   buffer := op :: len :: (pre ++ d ++ post) } := by
  induction d with
  | nil =>
    intro pre mid post p op len _ hbuf _ hmid _ _
    have hm : mid = [] := List.length_eq_zero.mp (by simpa using hmid)
    subst hm
    cases p
    simp only [List.append_nil] at hbuf
    simp [process_bytes_nil, ← hbuf]
  | cons ch rest ih =>
    intro pre mid post p op len hst hbuf hpre hmid hlen hl
    cases mid with
    | nil => simp at hmid
    | cons m mid' =>
      simp only [List.length_cons] at hmid hlen
      have hpos : len_minus_index len p.dataIndex > 0 :=
        (len_minus_index_pos_iff len p.dataIndex (by omega) hl).2 (by omega)
      have hmod : (p.dataIndex + 1) % 4294967296 = p.dataIndex + 1 := by omega
      have hset : (op :: len :: (pre ++ (m :: mid') ++ post)).set (p.dataIndex + 2) ch
          = op :: len :: ((pre ++ [ch]) ++ mid' ++ post) := by
        simp [List.set_append, hpre]
      have hnz : ¬ len_minus_index len (p.dataIndex + 1) = 0 := by
        rw [len_minus_index_eq_zero_iff len (p.dataIndex + 1) (by omega) hl]
        omega
      have hstep : Parser.process cmdIndex p ch
          = { p with buffer := op :: len :: ((pre ++ [ch]) ++ mid' ++ post),
                     dataIndex := p.dataIndex + 1 } := by
        simp only [Parser.process, hst, hbuf, INDEX_LEN, List.getD_cons_succ,
          List.getD_cons_zero, hpos, if_true, hmod, hset, hnz, if_false]
      rw [process_bytes_cons, hstep]
      rw [ih (pre ++ [ch]) mid' post
        { p with buffer := op :: len :: ((pre ++ [ch]) ++ mid' ++ post),
                 dataIndex := p.dataIndex + 1 } op len hst rfl (by simp [hpre]) (by omega)
        (by simp only []; omega) hl]
      simp
      omega

theorem accepted_opcode_gt (op : Nat) (h : CheckValidOpCode op = true) : 16 < op ∧ op < 256 := by
  have := (CheckValidOpCode_iff op).1 h
  simp only [accepted_opcodes, List.mem_cons, List.mem_singleton, List.not_mem_nil,
    or_false] at this
  rcases this with h | h | h | h | h | h <;> subst h <;> decide

/-- Two frames that differ in the opcode only have different CRC-8 values. -/
theorem crc8_opcode_change (op0 op len : Nat) (data : List Nat) (h0 : op0 < 256) (h1 : op < 256)
    (hlen : len ≤ 16) (hdata : data.length = len) (hbytes : ∀ b ∈ data, b < 256) :
    crc8 (op0 :: len :: data) (len + 2) = crc8 (op :: len :: data) (len + 2) ↔ op0 = op := by
  constructor
  · intro h
    by_contra hne
    have hpost : ∀ b ∈ len :: data, b < 256 := by
      intro b hb
      rcases List.mem_cons.1 hb with hb | hb
      · omega
      · exact hbytes b hb
    have key := crc8_single_byte_change [] (len :: data) op0 op hpost h0 h1 hne
    simp only [List.nil_append, List.length_cons, hdata] at key
    exact key h
  · intro h; rw [h]

/-- The frame sent after a frame that was cut off after its opcode `op0`. -/
theorem Run_bytes_after_truncated_op (s : RunState) (op0 op len : Nat) (data : List Nat)
    (hst : s.state = STATE_OP) (hidx : s.uart_index = 0) (hlen20 : s.uart_buffer.length = 20)
    (hop0 : CheckValidOpCode op0 = true) (hop : CheckValidOpCode op = true)
    (hlen : len ≤ 16) (hdata : data.length = len) (hbytes : ∀ b ∈ data, b < 256) :
    (Run_bytes s (op0 :: frame op len data)).state = STATE_OP ∧
    (Run_bytes s (op0 :: frame op len data)).uart_index = 0 ∧
    (Run_bytes s (op0 :: frame op len data)).parsed
      = if op0 = op then s.parsed ++ [{ op_code := op, buffer := data, length := len }]
        else s.parsed := by
  cases hb : s.uart_buffer with
  | nil => simp [hb] at hlen20
  | cons b0 tl =>
    have hstep0 : Run_byte s op0 = { s with valid_op := true, uart_buffer := op0 :: tl,
                                            state := STATE_LEN } := by
      simp [Run_byte, hst, hop0, hb, INDEX_OP]
    have hgt := (accepted_opcode_gt op hop).1
    have hstep1 : Run_byte { s with valid_op := true, uart_buffer := op0 :: tl,
                                    state := STATE_LEN } op
        = { s with valid_op := true, uart_buffer := op0 :: tl, state := STATE_LEN } := by
      simp [Run_byte, Nat.not_le.mpr hgt]
    rw [Run_bytes_cons, hstep0, frame, List.cons_append, Run_bytes_cons, hstep1]
    rw [Run_bytes_after_op { s with valid_op := true, uart_buffer := op0 :: tl, state := STATE_LEN }
      op0 len _ data tl rfl hidx rfl (by simpa [hb] using hlen20) hlen hdata]
    have hiff := crc8_opcode_change op0 op len data (accepted_opcode_gt op0 hop0).2
      (accepted_opcode_gt op hop).2 hlen hdata hbytes
    by_cases h : op0 = op
    · simp [hiff.2 h, h]
    · have hc : ¬ crc8 (op0 :: len :: data) (len + 2) = crc8 (op :: len :: data) (len + 2) :=
        fun x => h (hiff.1 x)
      simp [hc, h]

/-- The ground-station counterpart of `Run_bytes_after_truncated_op`. -/
theorem process_bytes_after_truncated_op (cmdIndex : List Nat) (p : Parser) (op0 op len : Nat)
    (data : List Nat)
    (hst : p.state = STATE_OP) (hidx : p.dataIndex = 0) (hlen18 : 18 ≤ p.buffer.length)
    (hop0 : 0 ≤ getOpCodeIndex cmdIndex op0) (h0 : op0 < 256) (h1 : 16 < op ∧ op < 256)
    (hlen : len ≤ 16) (hdata : data.length = len) (hbytes : ∀ b ∈ data, b < 256) :
    (Parser.process_bytes cmdIndex p (op0 :: frame op len data)).state = STATE_OP ∧
    (Parser.process_bytes cmdIndex p (op0 :: frame op len data)).dataIndex = 0 ∧
    (Parser.process_bytes cmdIndex p (op0 :: frame op len data)).commands
      = if op0 = op then
          p.commands ++ [{ opCodeIndex := getOpCodeIndex cmdIndex op, args := data, length := len }]
        else p.commands := by
  cases hb : p.buffer with
  | nil => simp [hb] at hlen18
  | cons b0 tl =>
    have hstep0 : Parser.process cmdIndex p op0
        = { p with opCodeIndex := getOpCodeIndex cmdIndex op0, buffer := op0 :: tl,
                   state := STATE_LEN } := by
      simp [Parser.process, hst, hop0, hb, INDEX_OP]
    have hstep1 : Parser.process cmdIndex
          { p with opCodeIndex := getOpCodeIndex cmdIndex op0, buffer := op0 :: tl,
                   state := STATE_LEN } op
        = { p with opCodeIndex := getOpCodeIndex cmdIndex op0, buffer := op0 :: tl,
                   state := STATE_LEN } := by
      simp [Parser.process, Nat.not_le.mpr h1.1]
    rw [process_bytes_cons, hstep0, frame, List.cons_append, process_bytes_cons, hstep1]
    rw [process_bytes_after_op cmdIndex
      { p with opCodeIndex := getOpCodeIndex cmdIndex op0, buffer := op0 :: tl, state := STATE_LEN }
      op0 len _ data tl rfl hidx rfl (by simpa [hb] using hlen18) hlen hdata]
    have hiff := crc8_opcode_change op0 op len data h0 h1.2 hlen hdata hbytes
    by_cases h : op0 = op
    · simp [hiff.2 h, h]
    · have hc : ¬ crc8 (op0 :: len :: data) (len + 2) = crc8 (op :: len :: data) (len + 2) :=
        fun x => h (hiff.1 x)
      simp [hc, h]

/-- The state of the receive loop after a frame that was cut off after its length byte or
after some, not all, of its data bytes. -/
theorem Run_bytes_truncated_data (s : RunState) (op0 len0 : Nat) (d0 : List Nat)
    (hst : s.state = STATE_OP) (hidx : s.uart_index = 0) (hlen20 : s.uart_buffer.length = 20)
    (hop0 : CheckValidOpCode op0 = true) (hlen : len0 ≤ 16) (hd : d0.length < len0) :
    Run_bytes s (op0 :: len0 :: d0)
      = { s with valid_op := true, state := STATE_DATA, uart_index := d0.length,
                 uart_buffer := op0 :: len0 :: (d0 ++ s.uart_buffer.drop (d0.length + 2)) } := by
  cases hb : s.uart_buffer with
  | nil => simp [hb] at hlen20
  | cons b0 tl =>
    cases tl with
    | nil => simp [hb] at hlen20
    | cons b1 tl2 =>
      have htl : tl2.length = 18 := by simpa [hb] using hlen20
      have hstep0 : Run_byte s op0 = { s with valid_op := true, uart_buffer := op0 :: b1 :: tl2,
                                              state := STATE_LEN } := by
        simp [Run_byte, hst, hop0, hb, INDEX_OP]
      have hstep1 : Run_byte { s with valid_op := true, uart_buffer := op0 :: b1 :: tl2,
                                      state := STATE_LEN } len0
          = { s with valid_op := true, uart_buffer := op0 :: len0 :: tl2,
                     state := STATE_DATA } := by
        simp [Run_byte, INDEX_LEN, hlen, Nat.lt_of_le_of_lt (Nat.zero_le _) hd]
      rw [Run_bytes_cons, hstep0, Run_bytes_cons, hstep1]
      rw [Run_bytes_data_incomplete d0 [] (tl2.take d0.length) (tl2.drop d0.length)
        { s with valid_op := true, uart_buffer := op0 :: len0 :: tl2, state := STATE_DATA }
        op0 len0 rfl (by simp) (by simp [hidx]) (by simp; omega) (by simp [hidx]; omega)
        (by omega)]
      simp [hidx]

/-- The ground-station counterpart of `Run_bytes_truncated_data`. -/
theorem process_bytes_truncated_data (cmdIndex : List Nat) (p : Parser) (op0 len0 : Nat)
    (d0 : List Nat)
    (hst : p.state = STATE_OP) (hidx : p.dataIndex = 0) (hlen18 : 18 ≤ p.buffer.length)
    (hop0 : 0 ≤ getOpCodeIndex cmdIndex op0) (hlen : len0 ≤ 16) (hd : d0.length < len0) :
    Parser.process_bytes cmdIndex p (op0 :: len0 :: d0)
      = { p with opCodeIndex := getOpCodeIndex cmdIndex op0, state := STATE_DATA,
                 dataIndex := d0.length,
                 buffer := op0 :: len0 :: (d0 ++ p.buffer.drop (d0.length + 2)) } := by
  cases hb : p.buffer with
  | nil => simp [hb] at hlen18
  | cons b0 tl =>
    cases tl with
    | nil => simp [hb] at hlen18
    | cons b1 tl2 =>
      have htl : 16 ≤ tl2.length := by
        have : 18 ≤ tl2.length + 1 + 1 := by simpa [hb] using hlen18
        omega
      have hstep0 : Parser.process cmdIndex p op0
          = { p with opCodeIndex := getOpCodeIndex cmdIndex op0, buffer := op0 :: b1 :: tl2,
                     state := STATE_LEN } := by
        simp [Parser.process, hst, hop0, hb, INDEX_OP]
      have hstep1 : Parser.process cmdIndex
            { p with opCodeIndex := getOpCodeIndex cmdIndex op0, buffer := op0 :: b1 :: tl2,
                     state := STATE_LEN } len0
          = { p with opCodeIndex := getOpCodeIndex cmdIndex op0, buffer := op0 :: len0 :: tl2,
                     state := STATE_DATA } := by
        simp [Parser.process, INDEX_LEN, hlen, Nat.lt_of_le_of_lt (Nat.zero_le _) hd]
      rw [process_bytes_cons, hstep0, process_bytes_cons, hstep1]
      rw [process_bytes_data_incomplete cmdIndex d0 [] (tl2.take d0.length) (tl2.drop d0.length)
        { p with opCodeIndex := getOpCodeIndex cmdIndex op0, buffer := op0 :: len0 :: tl2,
                 state := STATE_DATA }
        op0 len0 rfl (by simp) (by simp [hidx]) (by simp; omega) (by simp [hidx]; omega)
        (by omega)]
      simp [hidx]

/-- In state DATA with data bytes still expected, the receive loop stores whatever byte comes
next as a data byte. -/
theorem Run_byte_data_store (s : RunState) (ch : Nat) (hst : s.state = STATE_DATA)
    (hidx : s.uart_index < s.uart_buffer.getD 1 0) (hl : s.uart_buffer.getD 1 0 ≤ 16) :
    (Run_byte s ch).state ≠ STATE_LEN ∧ (Run_byte s ch).state ≠ STATE_OP ∧
    (Run_byte s ch).uart_index = s.uart_index + 1 ∧
    (Run_byte s ch).uart_buffer = s.uart_buffer.set (s.uart_index + 2) ch ∧
    (Run_byte s ch).parsed = s.parsed := by
  have hpos : len_minus_index (s.uart_buffer.getD 1 0) s.uart_index > 0 :=
    (len_minus_index_pos_iff _ _ (by omega) (by omega)).2 hidx
  have hmod : (s.uart_index + 1) % 4294967296 = s.uart_index + 1 := by omega
  simp only [Run_byte, hst, hpos, if_true, hmod]
  split <;> simp

/-- The ground-station counterpart of `Run_byte_data_store`. -/
theorem process_data_store (cmdIndex : List Nat) (p : Parser) (ch : Nat)
    (hst : p.state = STATE_DATA)
    (hidx : p.dataIndex < p.buffer.getD 1 0) (hl : p.buffer.getD 1 0 ≤ 16) :
    (Parser.process cmdIndex p ch).state ≠ STATE_LEN ∧
    (Parser.process cmdIndex p ch).state ≠ STATE_OP ∧
    (Parser.process cmdIndex p ch).dataIndex = p.dataIndex + 1 ∧
    (Parser.process cmdIndex p ch).buffer = p.buffer.set (p.dataIndex + 2) ch ∧
    (Parser.process cmdIndex p ch).commands = p.commands := by
  have hpos : len_minus_index (p.buffer.getD 1 0) p.dataIndex > 0 :=
    (len_minus_index_pos_iff _ _ (by omega) (by omega)).2 hidx
  have hmod : (p.dataIndex + 1) % 4294967296 = p.dataIndex + 1 := by omega
  simp only [Parser.process, hst, INDEX_LEN, hpos, if_true, hmod]
  split <;> simp

/-- C6, refuted as stated: a frame cut off after its opcode 0x31, followed immediately by the
complete well-formed frame `0x40, 1, [5], crc8`, and a frame cut off after its length byte
(`0x31, 2`), followed by the complete well-formed frame `0x31, 1, [5], crc8`. In both cases the
receive loop of the flight computer and the parser of the ground station dispatch nothing. -/
theorem resync_counterexample :
    CheckValidOpCode 0x40 = true ∧
    (Run_bytes (Run_init (List.replicate 20 0)) ([0x31] ++ frame 0x40 1 [5])).parsed = [] ∧
    (Run_bytes (Run_init (List.replicate 20 0)) ([0x31, 2] ++ frame 0x31 1 [5])).parsed = [] ∧
    (Parser.process_bytes [0x31, 0x40]
      { buffer := List.replicate 20 0, dataIndex := 0, state := STATE_OP, opCodeIndex := -1,
        commands := [] } ([0x31] ++ frame 0x40 1 [5])).commands = [] ∧
    (Parser.process_bytes [0x31, 0x40]
      { buffer := List.replicate 20 0, dataIndex := 0, state := STATE_OP, opCodeIndex := -1,
        commands := [] } ([0x31, 2] ++ frame 0x31 1 [5])).commands = [] := by
  decide

/-- C6, amended. After a truncated frame the parser does not resynchronise on the opcode byte
of the frame that follows; it is back in state OP only after the byte it reads in state CRC.
Let a complete well-formed frame `op, len, data, crc8` (accepted opcode, `len ≤ 16`) follow
immediately. (1) After a frame cut off after its opcode `op0`, the opcode byte of the following
frame (it is greater than 16) is ignored in state LEN and the rest of that frame completes the
truncated one: the following frame is dispatched exactly when `op = op0`, and otherwise
nothing is dispatched; either way the parser is then in state OP with index 0. (2) After a frame
cut off after its length byte `len0 ≥ 1` or after fewer than `len0` data bytes, the parser is in
state DATA and the byte that comes next, the opcode of the following frame, is stored as a data
byte of the truncated frame: the parser moves neither to state LEN nor to state OP and
dispatches nothing on it. This holds for the receive loop of the flight computer and, for
opcodes greater than 16, for the parser of the ground station. -/
theorem resync_after_truncation (cmdIndex : List Nat) (s : RunState) (p : Parser)
    (op0 op len len0 ch : Nat) (data d0 : List Nat)
    (hs : s.state = STATE_OP ∧ s.uart_index = 0 ∧ s.uart_buffer.length = 20)
    (hp : p.state = STATE_OP ∧ p.dataIndex = 0 ∧ 18 ≤ p.buffer.length)
    (hlen : len ≤ 16) (hdata : data.length = len) (hbytes : ∀ b ∈ data, b < 256)
    (hlen0 : len0 ≤ 16) (hd0 : d0.length < len0) :
    (CheckValidOpCode op0 = true → CheckValidOpCode op = true →
      (Run_bytes s (op0 :: frame op len data)).state = STATE_OP ∧
      (Run_bytes s (op0 :: frame op len data)).uart_index = 0 ∧
      (Run_bytes s (op0 :: frame op len data)).parsed
        = if op0 = op then s.parsed ++ [{ op_code := op, buffer := data, length := len }]
          else s.parsed) ∧
    (CheckValidOpCode op0 = true →
      (Run_bytes s (op0 :: len0 :: d0)).state = STATE_DATA ∧
      (Run_byte (Run_bytes s (op0 :: len0 :: d0)) ch).state ≠ STATE_LEN ∧
      (Run_byte (Run_bytes s (op0 :: len0 :: d0)) ch).state ≠ STATE_OP ∧
      (Run_byte (Run_bytes s (op0 :: len0 :: d0)) ch).uart_index = d0.length + 1 ∧
      (Run_byte (Run_bytes s (op0 :: len0 :: d0)) ch).uart_buffer
        = (Run_bytes s (op0 :: len0 :: d0)).uart_buffer.set (d0.length + 2) ch ∧
      (Run_byte (Run_bytes s (op0 :: len0 :: d0)) ch).parsed = s.parsed) ∧
    (0 ≤ getOpCodeIndex cmdIndex op0 → op0 < 256 → 16 < op ∧ op < 256 →
      (Parser.process_bytes cmdIndex p (op0 :: frame op len data)).state = STATE_OP ∧
      (Parser.process_bytes cmdIndex p (op0 :: frame op len data)).dataIndex = 0 ∧
      (Parser.process_bytes cmdIndex p (op0 :: frame op len data)).commands
        = if op0 = op then
            p.commands ++
              [{ opCodeIndex := getOpCodeIndex cmdIndex op, args := data, length := len }]
          else p.commands) ∧
    (0 ≤ getOpCodeIndex cmdIndex op0 →
      (Parser.process_bytes cmdIndex p (op0 :: len0 :: d0)).state = STATE_DATA ∧
      (Parser.process cmdIndex (Parser.process_bytes cmdIndex p (op0 :: len0 :: d0)) ch).state
        ≠ STATE_LEN ∧
      (Parser.process cmdIndex (Parser.process_bytes cmdIndex p (op0 :: len0 :: d0)) ch).state
        ≠ STATE_OP ∧
      (Parser.process cmdIndex (Parser.process_bytes cmdIndex p (op0 :: len0 :: d0)) ch).dataIndex
        = d0.length + 1 ∧
      (Parser.process cmdIndex (Parser.process_bytes cmdIndex p (op0 :: len0 :: d0)) ch).buffer
        = (Parser.process_bytes cmdIndex p (op0 :: len0 :: d0)).buffer.set (d0.length + 2) ch ∧
      (Parser.process cmdIndex (Parser.process_bytes cmdIndex p (op0 :: len0 :: d0)) ch).commands
        = p.commands) := by
  obtain ⟨hst, hidx, hlen20⟩ := hs
  obtain ⟨hpst, hpidx, hlen18⟩ := hp
  refine ⟨?_, ?_, ?_, ?_⟩
  · intro hop0 hop
    exact Run_bytes_after_truncated_op s op0 op len data hst hidx hlen20 hop0 hop hlen hdata hbytes
  · intro hop0
    have e := Run_bytes_truncated_data s op0 len0 d0 hst hidx hlen20 hop0 hlen0 hd0
    have h := Run_byte_data_store (Run_bytes s (op0 :: len0 :: d0)) ch
      (by rw [e]) (by rw [e]; simpa using hd0) (by rw [e]; simpa using hlen0)
    refine ⟨by rw [e], h.1, h.2.1, ?_, ?_, ?_⟩
    · rw [h.2.2.1, e]
    · rw [h.2.2.2.1, e]
    · rw [h.2.2.2.2, e]
  · intro hop0 h0 h1
    exact process_bytes_after_truncated_op cmdIndex p op0 op len data hpst hpidx hlen18 hop0 h0 h1
      hlen hdata hbytes
  · intro hop0
    have e := process_bytes_truncated_data cmdIndex p op0 len0 d0 hpst hpidx hlen18 hop0 hlen0 hd0
    have h := process_data_store cmdIndex (Parser.process_bytes cmdIndex p (op0 :: len0 :: d0)) ch
      (by rw [e]) (by rw [e]; simpa using hd0) (by rw [e]; simpa using hlen0)
    refine ⟨by rw [e], h.1, h.2.1, ?_, ?_, ?_⟩
    · rw [h.2.2.1, e]
    · rw [h.2.2.2.1, e]
    · rw [h.2.2.2.2, e]

/-- C6 amended, at a concrete input: the truncated frame `0x31` followed by the frame
`0x31, 1, [5], crc8` (dispatched), and the truncated frame `0x31, 2, [9]` followed by the
opcode byte 0x40 (stored as data). -/
theorem resync_after_truncation_witness :
    (Run_bytes (Run_init (List.replicate 20 0)) (0x31 :: frame 0x31 1 [5])).parsed
      = [{ op_code := 0x31, buffer := [5], length := 1 }] ∧
    (Run_byte (Run_bytes (Run_init (List.replicate 20 0)) [0x31, 2, 9]) 0x40).state
      ≠ STATE_LEN :=
  have h := resync_after_truncation [0x31] (Run_init (List.replicate 20 0))
    { buffer := List.replicate 20 0, dataIndex := 0, state := STATE_OP, opCodeIndex := -1,
      commands := [] } 0x31 0x31 1 2 0x40 [5] [9] (by decide) (by decide) (by decide) rfl
    (by decide) (by decide) (by decide)
  ⟨(h.1 (by decide) (by decide)).2.2, (h.2.1 (by decide)).2.1⟩

/-! ## Downlink payload: timestamp and error bits -/

/-- C8, refuted as stated: for the tick count 10 ms the timestamp field is 0, not the one
centisecond `(10 / 10) mod 32768 = 1` that the claim asks for. -/
theorem timestamp_counterexample :
    ¬ ((PackTxMessage 10
          { m_fsm_enum := 0, get_error_by_tag := fun _ => false, lat := 0, lon := 0, height := 0,
            velocity := 0, battery_voltage_byte := 0, adc_pyro1 := 0, adc_pyro2 := 0 }
          packed_tx_msg_zero).timestamp = (10 / 10) % 32768) := by
  decide

/-- C8, amended. For every tick count `ts` in milliseconds passed to `PackTxMessage`, the 15-bit
timestamp field of the packed payload is the number of deciseconds since boot modulo `2 ^ 15`,
that is `(ts / 100) mod 32768`. -/
theorem timestamp_deciseconds (ts : Nat) (inp : PackTxInputs) (tx_payload : packed_tx_msg_t) :
    (PackTxMessage ts inp tx_payload).timestamp = (ts / 100) % 32768 := by
  rfl

/-- C9 (downlink error bits). For every set of active error flags and a payload that starts
zeroed, `PackTxMessage` sets bit 0 of the errors field iff NON_USER_CFG is active, bit 1 iff
LOG_FULL, bit 2 iff FILTER_ACC or FILTER_HEIGHT, bit 3 iff TELEMETRY_HOT, bit 4 iff NO_PYRO;
bit 5 is never set and the field fits its 6 bits. -/
theorem error_bitfield (ts : Nat) (inp : PackTxInputs) :
    (PackTxMessage ts inp packed_tx_msg_zero).errors.testBit 0
      = inp.get_error_by_tag CATS_ERR_NON_USER_CFG ∧
    (PackTxMessage ts inp packed_tx_msg_zero).errors.testBit 1
      = inp.get_error_by_tag CATS_ERR_LOG_FULL ∧
    (PackTxMessage ts inp packed_tx_msg_zero).errors.testBit 2
      = (inp.get_error_by_tag CATS_ERR_FILTER_ACC || inp.get_error_by_tag CATS_ERR_FILTER_HEIGHT) ∧
    (PackTxMessage ts inp packed_tx_msg_zero).errors.testBit 3
      = inp.get_error_by_tag CATS_ERR_TELEMETRY_HOT ∧
    (PackTxMessage ts inp packed_tx_msg_zero).errors.testBit 4
      = inp.get_error_by_tag CATS_ERR_NO_PYRO ∧
    (PackTxMessage ts inp packed_tx_msg_zero).errors.testBit 5 = false ∧
    (PackTxMessage ts inp packed_tx_msg_zero).errors < 64 := by
  simp only [PackTxMessage, packed_tx_msg_zero]
  cases inp.get_error_by_tag CATS_ERR_NON_USER_CFG <;>
  cases inp.get_error_by_tag CATS_ERR_LOG_FULL <;>
  cases inp.get_error_by_tag CATS_ERR_FILTER_ACC <;>
  cases inp.get_error_by_tag CATS_ERR_FILTER_HEIGHT <;>
  cases inp.get_error_by_tag CATS_ERR_TELEMETRY_HOT <;>
  cases inp.get_error_by_tag CATS_ERR_NO_PYRO <;>
  decide

/-! ## Wire format of the transmitted frames -/

/-- The last two statements of the `Send...` functions on an output buffer that already holds
opcode, length and data: the CRC-8 of the first `len + 2` bytes is stored behind them and
`len + 3` bytes are transmitted. -/
theorem send_tail (op len : Nat) (data rest : List Nat) (x : Nat) (hdata : data.length = len) :
    ((op :: len :: (data ++ x :: rest)).set (len + 2)
        (crc8 (op :: len :: (data ++ x :: rest)) (len + 2))).take (len + 3)
      = frame op len data := by
  subst hdata
  rw [crc8_take_frame op data.length data (x :: rest) rfl]
  simp [frame, List.set_append, List.take_append_eq_append_take]

theorem frame_length (op len : Nat) (data : List Nat) (hdata : data.length = len) :
    (frame op len data).length = len + 3 := by
  simp [frame, hdata]

theorem SendSettings_eq (command value : Nat) :
    SendSettings command value = frame command 1 [value] := by
  have h := send_tail command 1 [value] [] 0 rfl
  simpa [SendSettings, List.replicate] using h

theorem SendEnable_eq : SendEnable = frame CMD_ENABLE 0 [] := by
  have h := send_tail CMD_ENABLE 0 [] [] 0 rfl
  simpa [SendEnable, List.replicate] using h

theorem SendDisable_eq : SendDisable = frame CMD_DISABLE 0 [] := by
  have h := send_tail CMD_DISABLE 0 [] [] 0 rfl
  simpa [SendDisable, List.replicate] using h

theorem SendLinkPhrase_eq (phrase_crc length : Nat) (h : length ≤ 4) :
    SendLinkPhrase phrase_crc length
      = frame CMD_LINK_PHRASE length ((bytes_of_u32 phrase_crc).take length) := by
  have hd : ((bytes_of_u32 phrase_crc).take length).length = length := by
    simp [bytes_of_u32]; omega
  have hmod : length % 256 = length := by omega
  have hrep : List.drop (2 + length) (CMD_LINK_PHRASE :: length :: List.replicate 5 0)
      = 0 :: List.replicate (4 - length) 0 := by
    rw [Nat.add_comm, List.drop_succ_cons, List.drop_succ_cons, List.drop_replicate,
      ← List.replicate_succ]
    congr 1
    omega
  have h2 := send_tail CMD_LINK_PHRASE length ((bytes_of_u32 phrase_crc).take length)
    (List.replicate (4 - length) 0) 0 hd
  rw [← h2]
  simp only [SendLinkPhrase, memcpy, hmod]
  have hout : ((List.replicate 7 0).set 0 CMD_LINK_PHRASE).set 1 length
      = CMD_LINK_PHRASE :: length :: List.replicate 5 0 := by
    simp [List.replicate]
  rw [hout, hrep]
  simp

theorem SendTxPayload_eq (payload : List Nat) (length : Nat) (h : length ≤ 15)
    (hp : length ≤ payload.length) :
    SendTxPayload payload length = frame CMD_TX length (payload.take length) := by
  have hd : (payload.take length).length = length := by
    simp; omega
  have hmod : length % 256 = length := by omega
  have hrep : List.drop (2 + length) (CMD_TX :: length :: List.replicate 16 0)
      = 0 :: List.replicate (15 - length) 0 := by
    rw [Nat.add_comm, List.drop_succ_cons, List.drop_succ_cons, List.drop_replicate,
      ← List.replicate_succ]
    congr 1
    omega
  have h2 := send_tail CMD_TX length (payload.take length) (List.replicate (15 - length) 0) 0 hd
  rw [← h2]
  simp only [SendTxPayload, memcpy, hmod]
  have hout : ((List.replicate 18 0).set 0 CMD_TX).set 1 length
      = CMD_TX :: length :: List.replicate 16 0 := by
    simp [List.replicate]
  rw [hout, hrep]
  simp

/-- C10 (wire format of transmitted frames). Every frame built by `SendSettings`, `SendEnable`,
`SendDisable`, `SendLinkPhrase` and `SendTxPayload` is `op`, `len`, then `len` data bytes, then
one byte equal to the CRC-8 of the `len + 2` bytes before it (this is what `frame op len data`
is), it has `len + 3` bytes and `len ≤ 16`. `SendLinkPhrase` and `SendTxPayload` are taken with
a length that their output buffers `out[7]` and `out[18]` and the copied object hold (at most 4
and at most 15 bytes; `Telemetry::Run` passes 4 and 15). In particular `SendTxPayload` for the
15-byte payload emits 18 bytes beginning `0x30, 15`, and `SendSettings` emits 4 bytes with
`len = 1`. -/
theorem wire_format :
    (∀ command value,
      SendSettings command value = frame command 1 [value] ∧
      (SendSettings command value).length = 4) ∧
    (SendEnable = frame CMD_ENABLE 0 [] ∧ SendEnable.length = 3) ∧
    (SendDisable = frame CMD_DISABLE 0 [] ∧ SendDisable.length = 3) ∧
    (∀ phrase_crc length, length ≤ 4 →
      SendLinkPhrase phrase_crc length
        = frame CMD_LINK_PHRASE length ((bytes_of_u32 phrase_crc).take length) ∧
      ((bytes_of_u32 phrase_crc).take length).length = length ∧
      (SendLinkPhrase phrase_crc length).length = length + 3 ∧ length ≤ 16) ∧
    (∀ payload length, length ≤ 15 → length ≤ payload.length →
      SendTxPayload payload length = frame CMD_TX length (payload.take length) ∧
      (payload.take length).length = length ∧
      (SendTxPayload payload length).length = length + 3 ∧ length ≤ 16) ∧
    (∀ payload, payload.length = 15 →
      (SendTxPayload payload 15).length = 18 ∧ (SendTxPayload payload 15).take 2 = [0x30, 15]) := by
  refine ⟨?_, ?_, ?_, ?_, ?_, ?_⟩
  · intro command value
    rw [SendSettings_eq]
    exact ⟨rfl, frame_length _ _ _ rfl⟩
  · rw [SendEnable_eq]
    exact ⟨rfl, frame_length _ _ _ rfl⟩
  · rw [SendDisable_eq]
    exact ⟨rfl, frame_length _ _ _ rfl⟩
  · intro phrase_crc length h
    have hd : ((bytes_of_u32 phrase_crc).take length).length = length := by
      simp [bytes_of_u32]; omega
    rw [SendLinkPhrase_eq phrase_crc length h]
    exact ⟨rfl, hd, frame_length _ _ _ hd, by omega⟩
  · intro payload length h hp
    have hd : (payload.take length).length = length := by
      simp; omega
    rw [SendTxPayload_eq payload length h hp]
    exact ⟨rfl, hd, frame_length _ _ _ hd, by omega⟩
  · intro payload hp
    rw [SendTxPayload_eq payload 15 (by omega) (by omega)]
    refine ⟨frame_length _ _ _ (by simp; omega), ?_⟩
    simp [frame, CMD_TX]

/-- C10, at concrete inputs: the link phrase frame for the CRC `0x12345678` with length 4, the
frame of a 15-byte payload, and a settings frame. -/
theorem wire_format_witness :
    SendLinkPhrase 0x12345678 4 = frame CMD_LINK_PHRASE 4 [0x78, 0x56, 0x34, 0x12] ∧
    (SendTxPayload [1, 2, 3, 4, 5, 6, 7, 8, 9, 10, 11, 12, 13, 14, 15] 15).length = 18 ∧
    SendSettings CMD_POWER_LEVEL 30 = frame CMD_POWER_LEVEL 1 [30] :=
  ⟨(wire_format.2.2.2.1 0x12345678 4 (by decide)).1,
   (wire_format.2.2.2.2.2 [1, 2, 3, 4, 5, 6, 7, 8, 9, 10, 11, 12, 13, 14, 15] rfl).1,
   (wire_format.1 CMD_POWER_LEVEL 30).1⟩

/-! ## Downlink round trip -/

theorem of_le_bytes_to_le_bytes (k : Nat) : ∀ n, of_le_bytes (to_le_bytes k n) = n % 256 ^ k := by
  induction k with
  | zero => intro n; simp [to_le_bytes, of_le_bytes, Nat.mod_one]
  | succ k ih =>
    intro n
    simp only [to_le_bytes, of_le_bytes, ih]
    rw [pow_succ, Nat.mul_comm (256 ^ k) 256, Nat.mod_mul]

theorem to_le_bytes_length (k : Nat) : ∀ n, (to_le_bytes k n).length = k := by
  induction k with
  | zero => intro n; rfl
  | succ k ih => intro n; simp [to_le_bytes, ih]

theorem twos_complement_lt (w : Nat) (v : Int) : twos_complement w v < 2 ^ w := by
  unfold twos_complement
  have h : (0 : Int) < 2 ^ w := by positivity
  have h1 := Int.emod_nonneg v (ne_of_gt h)
  have h2 := Int.emod_lt_of_pos v h
  have : ((v % 2 ^ w).toNat : Int) < ((2 ^ w : Nat) : Int) := by
    rw [Int.toNat_of_nonneg h1]; push_cast; exact h2
  exact_mod_cast this

theorem sign_extend_twos_complement_22 (v : Int) (h : -2 ^ 21 ≤ v ∧ v < 2 ^ 21) :
    sign_extend 22 (twos_complement 22 v) = v := by
  unfold sign_extend twos_complement
  norm_num at h ⊢
  split <;> omega

theorem sign_extend_twos_complement_17 (v : Int) (h : -2 ^ 16 ≤ v ∧ v < 2 ^ 16) :
    sign_extend 17 (twos_complement 17 v) = v := by
  unfold sign_extend twos_complement
  norm_num at h ⊢
  split <;> omega

theorem sign_extend_twos_complement_10 (v : Int) (h : -2 ^ 9 ≤ v ∧ v < 2 ^ 9) :
    sign_extend 10 (twos_complement 10 v) = v := by
  unfold sign_extend twos_complement
  norm_num at h ⊢
  split <;> omega

theorem packed_tx_msg_bits_lt (m : packed_tx_msg_t) : packed_tx_msg_bits m < 256 ^ 15 := by
  have h1 := twos_complement_lt 22 m.lat
  have h2 := twos_complement_lt 22 m.lon
  have h3 := twos_complement_lt 17 m.altitude
  have h4 := twos_complement_lt 10 m.velocity
  unfold packed_tx_msg_bits
  generalize twos_complement 22 m.lat = a at *
  generalize twos_complement 22 m.lon = b at *
  generalize twos_complement 17 m.altitude = c at *
  generalize twos_complement 10 m.velocity = d at *
  norm_num at *
  omega

/-- Each field is found again at its place in the 120 bits. -/
theorem packed_tx_msg_bits_fields (m : packed_tx_msg_t)
    (hstate : m.state < 8) (htimestamp : m.timestamp < 2 ^ 15) (herrors : m.errors < 64)
    (hvoltage : m.voltage < 256) (hpyro : m.pyro_continuity < 4) (htesting : m.testing_on < 2)
    (hd1 : m.d1 < 256) :
    packed_tx_msg_bits m % 2 ^ 3 = m.state ∧
    packed_tx_msg_bits m / 2 ^ 3 % 2 ^ 15 = m.timestamp ∧
    packed_tx_msg_bits m / 2 ^ 18 % 2 ^ 6 = m.errors ∧
    packed_tx_msg_bits m / 2 ^ 24 % 2 ^ 22 = twos_complement 22 m.lat ∧
    packed_tx_msg_bits m / 2 ^ 46 % 2 ^ 22 = twos_complement 22 m.lon ∧
    packed_tx_msg_bits m / 2 ^ 68 % 2 ^ 17 = twos_complement 17 m.altitude ∧
    packed_tx_msg_bits m / 2 ^ 85 % 2 ^ 10 = twos_complement 10 m.velocity ∧
    packed_tx_msg_bits m / 2 ^ 95 % 2 ^ 8 = m.voltage ∧
    packed_tx_msg_bits m / 2 ^ 103 % 2 ^ 2 = m.pyro_continuity ∧
    packed_tx_msg_bits m / 2 ^ 105 % 2 ^ 1 = m.testing_on ∧
    packed_tx_msg_bits m / 2 ^ 112 % 2 ^ 8 = m.d1 := by
  have h1 := twos_complement_lt 22 m.lat
  have h2 := twos_complement_lt 22 m.lon
  have h3 := twos_complement_lt 17 m.altitude
  have h4 := twos_complement_lt 10 m.velocity
  unfold packed_tx_msg_bits
  generalize twos_complement 22 m.lat = a at *
  generalize twos_complement 22 m.lon = b at *
  generalize twos_complement 17 m.altitude = c at *
  generalize twos_complement 10 m.velocity = d at *
  norm_num at *
  refine ⟨?_, ?_, ?_, ?_, ?_, ?_, ?_, ?_, ?_, ?_, ?_⟩ <;> omega

/-- C3 (downlink round trip). For every tuple of field values each within its declared range
(state 0..7, timestamp 0..2^15-1, errors 0..63, lat and lon in -2^21..2^21-1, altitude in
-2^16..2^16-1, velocity in -512..511, voltage 0..255, pyro_continuity 0..3, testing_on 0..1, and
the trailing byte 0..255), packing the fields into the 15-byte payload in the declared order and
widths and unpacking the 15 bytes again returns exactly the same tuple, signed fields
sign-extended. -/
theorem downlink_round_trip (m : packed_tx_msg_t)
    (hstate : m.state < 8) (htimestamp : m.timestamp < 2 ^ 15) (herrors : m.errors < 64)
    (hlat : -2 ^ 21 ≤ m.lat ∧ m.lat < 2 ^ 21) (hlon : -2 ^ 21 ≤ m.lon ∧ m.lon < 2 ^ 21)
    (haltitude : -2 ^ 16 ≤ m.altitude ∧ m.altitude < 2 ^ 16)
    (hvelocity : -512 ≤ m.velocity ∧ m.velocity < 512)
    (hvoltage : m.voltage < 256) (hpyro : m.pyro_continuity < 4) (htesting : m.testing_on < 2)
    (hd1 : m.d1 < 256) :
    packed_tx_msg_of_bytes (packed_tx_msg_bytes m) = m ∧ (packed_tx_msg_bytes m).length = 15 := by
  refine ⟨?_, to_le_bytes_length 15 _⟩
  have hb : of_le_bytes (packed_tx_msg_bytes m) = packed_tx_msg_bits m := by
    rw [packed_tx_msg_bytes, of_le_bytes_to_le_bytes]
    exact Nat.mod_eq_of_lt (packed_tx_msg_bits_lt m)
  have e1 := sign_extend_twos_complement_22 m.lat hlat
  have e2 := sign_extend_twos_complement_22 m.lon hlon
  have e3 := sign_extend_twos_complement_17 m.altitude haltitude
  have e4 := sign_extend_twos_complement_10 m.velocity (by norm_num; exact hvelocity)
  obtain ⟨f0, f1, f2, f3, f4, f5, f6, f7, f8, f9, f10⟩ :=
    packed_tx_msg_bits_fields m hstate htimestamp herrors hvoltage hpyro htesting hd1
  unfold packed_tx_msg_of_bytes
  simp only [hb, f0, f1, f2, f3, f4, f5, f6, f7, f8, f9, f10, e1, e2, e3, e4]

/-- C3, at a concrete payload with negative latitude, altitude and velocity. -/
theorem downlink_round_trip_witness :
    packed_tx_msg_of_bytes (packed_tx_msg_bytes
        { state := 5, timestamp := 12345, errors := 21, lat := -1234567, lon := 2000000,
          altitude := -17, velocity := -512, voltage := 255, pyro_continuity := 3,
          testing_on := 1, d1 := 0 })
      = { state := 5, timestamp := 12345, errors := 21, lat := -1234567, lon := 2000000,
          altitude := -17, velocity := -512, voltage := 255, pyro_continuity := 3,
          testing_on := 1, d1 := 0 } :=
  (downlink_round_trip
    { state := 5, timestamp := 12345, errors := 21, lat := -1234567, lon := 2000000,
      altitude := -17, velocity := -512, voltage := 255, pyro_continuity := 3,
      testing_on := 1, d1 := 0 }
    (by decide) (by decide) (by decide) (by decide) (by decide) (by decide) (by decide)
    (by decide) (by decide) (by decide) (by decide)).1

/-! ## Flight recorder: the byte stream written to flash -/

theorem memcpy_length (dst src : List Nat) (off n : Nat) (h1 : off + n ≤ dst.length)
    (h2 : n ≤ src.length) : (memcpy dst off src n).length = dst.length := by
  simp [memcpy]
  omega

theorem ite_le_bound (c : Prop) [Decidable c] (a b m : Nat) (ha : a ≤ m) (hb : b ≤ m) :
    (if c then a else b) ≤ m := by
  split <;> assumption

theorem get_rec_elem_size_le (sz : rec_sizes) (r : rec_elem_t) (h : sz.ok) :
    get_rec_elem_size sz r ≤ 4 + sz.rec_elem_u := by
  obtain ⟨h1, h2, h3, h4, h5, h6, h7, h8, h9, h10, _⟩ := h
  unfold get_rec_elem_size
  refine ite_le_bound _ _ _ _ (by omega) ?_
  refine ite_le_bound _ _ _ _ (by omega) ?_
  refine ite_le_bound _ _ _ _ (by omega) ?_
  refine ite_le_bound _ _ _ _ (by omega) ?_
  refine ite_le_bound _ _ _ _ (by omega) ?_
  refine ite_le_bound _ _ _ _ (by omega) ?_
  refine ite_le_bound _ _ _ _ (by omega) ?_
  refine ite_le_bound _ _ _ _ (by omega) ?_
  refine ite_le_bound _ _ _ _ (by omega) ?_
  refine ite_le_bound _ _ _ _ (by omega) ?_
  omega

theorem rec_elem_bytes_length (r : rec_elem_t) : (rec_elem_bytes r).length = 4 + r.u.length := by
  simp [rec_elem_bytes, bytes_of_u32]
  omega

theorem record_stream_cons (sz : rec_sizes) (r : rec_elem_t) (rs : List rec_elem_t) :
    record_stream sz (r :: rs) = serialize sz r ++ record_stream sz rs := by
  simp [record_stream]

theorem flatten_length_256 (l : List (List Nat)) (h : ∀ b ∈ l, b.length = 256) :
    l.flatten.length = 256 * l.length := by
  induction l with
  | nil => rfl
  | cons b l ih =>
    simp only [List.flatten_cons, List.length_append, List.length_cons]
    rw [ih (fun x hx => h x (List.mem_cons_of_mem _ hx)), h b (List.mem_cons_self _ _)]
    omega

/-- A pass through the inner loop in the WRITE_TO_FLASH state keeps the invariant and moves the
serialisation of the element it takes from the queue to the bytes taken. -/
theorem recorder_inner_spec (sz : rec_sizes) (limit status : Nat) (s : recorder_state)
    (hsz : sz.ok) (hst : status ≥ REC_WRITE_TO_FLASH) (hinv : recorder_inv sz s)
    (hidx : s.rec_buffer_idx < 256) :
    recorder_inv sz (recorder_inner sz limit status s) ∧
    recorder_taken (recorder_inner sz limit status s)
        ++ record_stream sz (recorder_inner sz limit status s).rec_queue
      = recorder_taken s ++ record_stream sz s.rec_queue ∧
    recorder_todo (recorder_inner sz limit status s) + 1 ≤ recorder_todo s + (if s.rec_queue = [] then 1 else 0) := by
  obtain ⟨hbuf, hwr, _, _, hq⟩ := hinv
  cases hqueue : s.rec_queue with
  | nil =>
    simp only [recorder_inner, hst, if_true, hqueue]
    refine ⟨⟨hbuf, hwr, by simpa using by omega, ?_, by simp⟩, ?_, ?_⟩
    · intro h; simp only [] at h; omega
    · simp [recorder_taken, hqueue]
    · simp [recorder_todo, hidx]
  | cons e rest =>
    have hsize := get_rec_elem_size_le sz e hsz
    have hu : e.u.length = sz.rec_elem_u := hq e (by simp [hqueue])
    have himg : (rec_elem_bytes e).length = 4 + sz.rec_elem_u := by
      rw [rec_elem_bytes_length, hu]
    have h255 : 4 + sz.rec_elem_u ≤ 255 := hsz.2.2.2.2.2.2.2.2.2.2
    have hmod : (s.rec_buffer_idx + get_rec_elem_size sz e) % 65536
        = s.rec_buffer_idx + get_rec_elem_size sz e := by omega
    simp only [recorder_inner, hst, if_true, hqueue, write_value, hmod, REC_BUFFER_LEN]
    by_cases hfit : s.rec_buffer_idx + get_rec_elem_size sz e > 256
    · simp only [hfit, if_true]
      have hlen : (memcpy s.rec_buffer s.rec_buffer_idx (rec_elem_bytes e)
          (256 - s.rec_buffer_idx)).length = 256 := by
        rw [memcpy_length _ _ _ _ (by omega) (by omega), hbuf]
      refine ⟨⟨hlen, hwr, by simp only []; omega, ?_, ?_⟩, ?_, ?_⟩
      · intro _
        simp only []
        omega
      · intro r hr
        exact hq r (by simp [hqueue, hr])
      · have hnle : ¬ s.rec_buffer_idx + get_rec_elem_size sz e ≤ 256 := by omega
        have hle : s.rec_buffer_idx ≤ 256 := by omega
        have hsub : get_rec_elem_size sz e - (s.rec_buffer_idx + get_rec_elem_size sz e - 256)
            = 256 - s.rec_buffer_idx := by omega
        have hdrop : List.drop 256 s.rec_buffer = [] := by
          apply List.drop_eq_nil_of_le; omega
        have htt : List.take (256 - s.rec_buffer_idx) (rec_elem_bytes e)
            = List.take (256 - s.rec_buffer_idx)
                (List.take (get_rec_elem_size sz e) (rec_elem_bytes e)) := by
          rw [List.take_take, Nat.min_eq_left (by omega)]
        have hadd : s.rec_buffer_idx + (256 - s.rec_buffer_idx) = 256 := by omega
        simp only [recorder_taken, hnle, hle, if_true, if_false, record_stream_cons, serialize,
          hsub, memcpy, hadd, hdrop, List.append_nil]
        rw [htt]
        simp only [List.append_assoc]
        rw [← List.append_assoc (List.take (256 - s.rec_buffer_idx) _), List.take_append_drop]
      · simp only [recorder_todo, hidx, hqueue, if_true, List.length_cons]
        split <;> simp <;> omega
    · simp only [hfit, if_false]
      have hlen : (memcpy s.rec_buffer s.rec_buffer_idx (rec_elem_bytes e)
          (get_rec_elem_size sz e)).length = 256 := by
        rw [memcpy_length _ _ _ _ (by omega) (by omega), hbuf]
      refine ⟨⟨hlen, hwr, by simp only []; omega, ?_, ?_⟩, ?_, ?_⟩
      · intro h
        simp only [] at h
        omega
      · intro r hr
        exact hq r (by simp [hqueue, hr])
      · have hle' : s.rec_buffer_idx + get_rec_elem_size sz e ≤ 256 := by omega
        have hle : s.rec_buffer_idx ≤ 256 := by omega
        have htk : List.take (s.rec_buffer_idx + get_rec_elem_size sz e)
            (memcpy s.rec_buffer s.rec_buffer_idx (rec_elem_bytes e) (get_rec_elem_size sz e))
            = List.take s.rec_buffer_idx s.rec_buffer
                ++ List.take (get_rec_elem_size sz e) (rec_elem_bytes e) := by
          have hl : (List.take s.rec_buffer_idx s.rec_buffer
                ++ List.take (get_rec_elem_size sz e) (rec_elem_bytes e)).length
              = s.rec_buffer_idx + get_rec_elem_size sz e := by
            simp; omega
          rw [memcpy, ← hl, List.take_left]
        simp only [recorder_taken, hle', hle, if_true, record_stream_cons, serialize, htk,
          List.append_assoc]
      · simp only [recorder_todo, hidx, hqueue, if_true, List.length_cons]
        split <;> simp <;> omega

/-- The statements behind the inner loop keep the invariant and the bytes taken: the full
buffer is written and the rest of the element that crossed its end starts the next one. -/
theorem recorder_flush_spec (sz : rec_sizes) (s : recorder_state) (hinv : recorder_inv sz s)
    (hidx : 256 ≤ s.rec_buffer_idx) :
    recorder_inv sz (recorder_flush s) ∧
    recorder_taken (recorder_flush s) = recorder_taken s ∧
    (recorder_flush s).rec_queue = s.rec_queue ∧
    (recorder_flush s).rec_buffer_idx < 256 ∧
    (recorder_flush s).written = s.written ++ [s.rec_buffer] := by
  obtain ⟨hbuf, hwr, h512, hrem, hq⟩ := hinv
  have htake : List.take 256 s.rec_buffer = s.rec_buffer := by
    apply List.take_of_length_le; omega
  have hwr' : ∀ b ∈ s.written ++ [s.rec_buffer], b.length = 256 := by
    intro b hb
    rcases List.mem_append.1 hb with hb | hb
    · exact hwr b hb
    · rw [List.mem_singleton.1 hb]; exact hbuf
  by_cases heq : s.rec_buffer_idx = 256
  · have hng : ¬ s.rec_buffer_idx > 256 := by omega
    have e : recorder_flush s =
        { s with written := s.written ++ [s.rec_buffer], rec_buffer_idx := 0,
                 synced := if s.sync_counter % 16 = 0 then
                     s.synced ++ [(s.written ++ [s.rec_buffer]).length] else s.synced,
                 sync_counter := (s.sync_counter + 1) % 4294967296 } := by
      simp only [recorder_flush, REC_BUFFER_LEN, hng, if_false, htake, Nat.lt_irrefl]
    rw [e]
    refine ⟨⟨hbuf, hwr', by simp only []; omega, ?_, hq⟩, ?_, rfl, by simp only []; omega, rfl⟩
    · intro h; simp only [] at h; omega
    · simp [recorder_taken, heq, htake]
  · have hgt : s.rec_buffer_idx > 256 := by omega
    obtain ⟨hr1, hr2⟩ := hrem hgt
    have hmod : (s.rec_buffer_idx - 256) % 65536 = s.rec_buffer_idx - 256 := by omega
    have hpos : s.rec_buffer_idx - 256 > 0 := by omega
    have e : recorder_flush s =
        { s with written := s.written ++ [s.rec_buffer],
                 rec_buffer_idx := s.rec_buffer_idx - 256,
                 bytes_remaining := s.rec_buffer_idx - 256,
                 rec_buffer := memcpy s.rec_buffer 0
                   (List.drop (s.curr_log_elem_size - (s.rec_buffer_idx - 256))
                     (rec_elem_bytes s.curr_log_elem)) (s.rec_buffer_idx - 256),
                 synced := if s.sync_counter % 16 = 0 then
                     s.synced ++ [(s.written ++ [s.rec_buffer]).length] else s.synced,
                 sync_counter := (s.sync_counter + 1) % 4294967296 } := by
      simp only [recorder_flush, REC_BUFFER_LEN, hgt, if_true, htake, hmod, hpos]
    rw [e]
    have hsrc : s.rec_buffer_idx - 256 ≤ (List.drop (s.curr_log_elem_size - (s.rec_buffer_idx - 256))
        (rec_elem_bytes s.curr_log_elem)).length := by
      simp only [List.length_drop]; omega
    have hlen : (memcpy s.rec_buffer 0
        (List.drop (s.curr_log_elem_size - (s.rec_buffer_idx - 256))
          (rec_elem_bytes s.curr_log_elem)) (s.rec_buffer_idx - 256)).length = 256 := by
      rw [memcpy_length _ _ _ _ (by omega) hsrc, hbuf]
    refine ⟨⟨hlen, hwr', by simp only []; omega, ?_, hq⟩, ?_, rfl, by simp only []; omega, rfl⟩
    · intro h; simp only [] at h; omega
    · have hle : s.rec_buffer_idx - 256 ≤ 256 := by omega
      have hnle : ¬ s.rec_buffer_idx ≤ 256 := by omega
      have htk : List.take (s.rec_buffer_idx - 256)
          (memcpy s.rec_buffer 0
            (List.drop (s.curr_log_elem_size - (s.rec_buffer_idx - 256))
              (rec_elem_bytes s.curr_log_elem)) (s.rec_buffer_idx - 256))
          = List.drop (s.curr_log_elem_size - (s.rec_buffer_idx - 256))
              (List.take s.curr_log_elem_size (rec_elem_bytes s.curr_log_elem)) := by
        have hl : (List.take (s.rec_buffer_idx - 256)
            (List.drop (s.curr_log_elem_size - (s.rec_buffer_idx - 256))
              (rec_elem_bytes s.curr_log_elem))).length = s.rec_buffer_idx - 256 := by
          rw [List.length_take]; omega
        have hm : memcpy s.rec_buffer 0
            (List.drop (s.curr_log_elem_size - (s.rec_buffer_idx - 256))
              (rec_elem_bytes s.curr_log_elem)) (s.rec_buffer_idx - 256)
            = List.take (s.rec_buffer_idx - 256)
                (List.drop (s.curr_log_elem_size - (s.rec_buffer_idx - 256))
                  (rec_elem_bytes s.curr_log_elem))
              ++ List.drop (s.rec_buffer_idx - 256) s.rec_buffer := by
          simp [memcpy]
        have hsz : s.curr_log_elem_size - (s.curr_log_elem_size - (s.rec_buffer_idx - 256))
            = s.rec_buffer_idx - 256 := by omega
        rw [hm, List.take_left' hl, List.drop_take, hsz]
      simp only [recorder_taken, hle, hnle, if_true, if_false, htk, List.flatten_append,
        List.flatten_cons, List.flatten_nil, List.append_nil]

theorem task_recorder_step_spec (sz : rec_sizes) (limit status : Nat) (s : recorder_state)
    (hsz : sz.ok) (hst : status ≥ REC_WRITE_TO_FLASH) (hinv : recorder_inv sz s) :
    recorder_inv sz (task_recorder_step sz limit status s) ∧
    recorder_taken (task_recorder_step sz limit status s)
        ++ record_stream sz (task_recorder_step sz limit status s).rec_queue
      = recorder_taken s ++ record_stream sz s.rec_queue ∧
    recorder_todo (task_recorder_step sz limit status s) ≤ recorder_todo s - 1 := by
  unfold task_recorder_step
  by_cases hidx : s.rec_buffer_idx < REC_BUFFER_LEN
  · rw [if_pos hidx]
    obtain ⟨h1, h2, h3⟩ := recorder_inner_spec sz limit status s hsz hst hinv hidx
    refine ⟨h1, h2, ?_⟩
    by_cases hq : s.rec_queue = []
    · rw [if_pos hq] at h3
      have : recorder_todo s = 0 := by
        have hidx' : s.rec_buffer_idx < 256 := hidx
        simp [recorder_todo, hq, hidx']
      omega
    · rw [if_neg hq] at h3
      omega
  · rw [if_neg hidx]
    have hidx' : 256 ≤ s.rec_buffer_idx := by
      unfold REC_BUFFER_LEN at hidx; omega
    obtain ⟨h1, h2, h3, h4, _⟩ := recorder_flush_spec sz s hinv hidx'
    refine ⟨h1, by rw [h2, h3], ?_⟩
    have hn : ¬ s.rec_buffer_idx < 256 := by omega
    simp only [recorder_todo, h3, h4, hn, if_true, if_false]
    omega

theorem task_recorder_spec (sz : rec_sizes) (limit status : Nat) (hsz : sz.ok)
    (hst : status ≥ REC_WRITE_TO_FLASH) :
    ∀ (n : Nat) (s : recorder_state), recorder_inv sz s →
      recorder_inv sz (task_recorder sz limit status n s) ∧
      recorder_taken (task_recorder sz limit status n s)
          ++ record_stream sz (task_recorder sz limit status n s).rec_queue
        = recorder_taken s ++ record_stream sz s.rec_queue ∧
      recorder_todo (task_recorder sz limit status n s) ≤ recorder_todo s - n := by
  intro n
  induction n with
  | zero => intro s hinv; exact ⟨hinv, rfl, by simp [task_recorder]⟩
  | succ n ih =>
    intro s hinv
    obtain ⟨h1, h2, h3⟩ := task_recorder_step_spec sz limit status s hsz hst hinv
    obtain ⟨g1, g2, g3⟩ := ih _ h1
    refine ⟨g1, by rw [task_recorder, g2, h2], ?_⟩
    rw [task_recorder]
    omega

theorem recorder_taken_prefix (s : recorder_state) :
    ∃ pending, recorder_taken s = s.written.flatten ++ pending ∧
      (s.rec_buffer_idx < 256 → pending.length = min s.rec_buffer_idx s.rec_buffer.length) := by
  unfold recorder_taken
  split
  · exact ⟨_, rfl, fun _ => by simp⟩
  · rename_i h
    exact ⟨_, by rw [List.append_assoc], fun h' => by omega⟩

/-- C1 (record byte-exactness). In the WRITE_TO_FLASH state, for every sequence of queued
records, the concatenation, in order, of the 256-byte buffers handed to the file write equals
the first `256 * k` bytes of the concatenated serialisations of the records, where `k` is the
number of buffers written so far; a record that straddles the end of a buffer is split, its
prefix ending one buffer and its suffix starting the next. Once the loop has run long enough
(`2 * n` passes for `n` records) the queue is empty and `k` is the length of the record stream
divided by 256. The element sizes are those of a union that holds its members, with
`sizeof(rec_elem_t) ≤ 255`. -/
theorem record_byte_exactness (sz : rec_sizes) (limit status fuel : Nat) (recs : List rec_elem_t)
    (hsz : sz.ok) (hst : status ≥ REC_WRITE_TO_FLASH)
    (hrecs : ∀ r ∈ recs, r.u.length = sz.rec_elem_u) :
    (task_recorder sz limit status fuel (recorder_init recs)).written.flatten
      = (record_stream sz recs).take
          (256 * (task_recorder sz limit status fuel (recorder_init recs)).written.length) ∧
    (∀ b ∈ (task_recorder sz limit status fuel (recorder_init recs)).written, b.length = 256) ∧
    (2 * recs.length ≤ fuel →
      (task_recorder sz limit status fuel (recorder_init recs)).rec_queue = [] ∧
      (task_recorder sz limit status fuel (recorder_init recs)).written.length
        = (record_stream sz recs).length / 256) := by
  have hinit : recorder_inv sz (recorder_init recs) := by
    refine ⟨List.length_replicate _ _, ?_, ?_, ?_, hrecs⟩
    · intro b hb
      exact absurd hb (List.not_mem_nil b)
    · show (0 : Nat) < 512
      omega
    · intro h
      have h' : (256 : Nat) < 0 := h
      omega
  obtain ⟨hinv, hstream, htodo⟩ :=
    task_recorder_spec sz limit status hsz hst fuel (recorder_init recs) hinit
  have htaken0 : recorder_taken (recorder_init recs) = [] := by
    unfold recorder_taken
    have h0 : (recorder_init recs).rec_buffer_idx = 0 := rfl
    have hw : (recorder_init recs).written = [] := rfl
    rw [h0, hw, if_pos (Nat.zero_le _)]
    rfl
  rw [htaken0, List.nil_append] at hstream
  have hq0 : (recorder_init recs).rec_queue = recs := rfl
  rw [hq0] at hstream
  generalize task_recorder sz limit status fuel (recorder_init recs) = s at *
  obtain ⟨pending, hp, hplen⟩ := recorder_taken_prefix s
  have hlen := flatten_length_256 s.written hinv.2.1
  rw [hp, List.append_assoc] at hstream
  refine ⟨?_, hinv.2.1, ?_⟩
  · rw [← hstream, ← hlen, List.take_left]
  · intro hfuel
    have htodo0 : recorder_todo s = 0 := by
      have : recorder_todo (recorder_init recs) = 2 * recs.length := by
        unfold recorder_todo
        have h0 : (recorder_init recs).rec_buffer_idx = 0 := rfl
        rw [h0, hq0, if_pos (by omega)]
        rfl
      omega
    have hqe : s.rec_queue = [] := by
      unfold recorder_todo at htodo0
      apply List.length_eq_zero.mp
      omega
    have hidx : s.rec_buffer_idx < 256 := by
      unfold recorder_todo at htodo0
      by_contra hc
      rw [if_neg hc] at htodo0
      omega
    refine ⟨hqe, ?_⟩
    have hl := congrArg List.length hstream
    simp only [List.length_append, hqe, record_stream, List.map_nil, List.flatten_nil,
      List.length_nil, Nat.add_zero, hlen, hplen hidx, hinv.1] at hl
    simp only [record_stream]
    omega

/-- C1, at a concrete input: eleven FILTERED_DATA_INFO records of 24 bytes each; the eleventh
straddles the end of the first buffer (bytes 240 to 263 of the stream). -/
theorem record_byte_exactness_witness :
    (task_recorder
        { imu := 16, baro := 12, magneto_info := 16, flight_info := 16, filtered_data_info := 20,
          flight_state := 8, covariance_info := 12, sensor_info := 12, event_info := 12,
          error_info := 8, rec_elem_u := 20 } 0 REC_WRITE_TO_FLASH 22
        (recorder_init (List.replicate 11
          { rec_type := FILTERED_DATA_INFO, u := List.range 20 }))).written.flatten
      = (record_stream
          { imu := 16, baro := 12, magneto_info := 16, flight_info := 16, filtered_data_info := 20,
            flight_state := 8, covariance_info := 12, sensor_info := 12, event_info := 12,
            error_info := 8, rec_elem_u := 20 }
          (List.replicate 11 { rec_type := FILTERED_DATA_INFO, u := List.range 20 })).take
          (256 * (task_recorder
            { imu := 16, baro := 12, magneto_info := 16, flight_info := 16,
              filtered_data_info := 20, flight_state := 8, covariance_info := 12,
              sensor_info := 12, event_info := 12, error_info := 8, rec_elem_u := 20 }
            0 REC_WRITE_TO_FLASH 22
            (recorder_init (List.replicate 11
              { rec_type := FILTERED_DATA_INFO, u := List.range 20 }))).written.length) ∧
    (task_recorder
        { imu := 16, baro := 12, magneto_info := 16, flight_info := 16, filtered_data_info := 20,
          flight_state := 8, covariance_info := 12, sensor_info := 12, event_info := 12,
          error_info := 8, rec_elem_u := 20 } 0 REC_WRITE_TO_FLASH 22
        (recorder_init (List.replicate 11
          { rec_type := FILTERED_DATA_INFO, u := List.range 20 }))).written.length
      = (record_stream
          { imu := 16, baro := 12, magneto_info := 16, flight_info := 16, filtered_data_info := 20,
            flight_state := 8, covariance_info := 12, sensor_info := 12, event_info := 12,
            error_info := 8, rec_elem_u := 20 }
          (List.replicate 11 { rec_type := FILTERED_DATA_INFO, u := List.range 20 })).length
        / 256 :=
  have h := record_byte_exactness
    { imu := 16, baro := 12, magneto_info := 16, flight_info := 16, filtered_data_info := 20,
      flight_state := 8, covariance_info := 12, sensor_info := 12, event_info := 12,
      error_info := 8, rec_elem_u := 20 } 0 REC_WRITE_TO_FLASH 22
    (List.replicate 11 { rec_type := FILTERED_DATA_INFO, u := List.range 20 })
    (by decide) (by decide) (by decide)
  ⟨h.1, (h.2.2 (by decide)).2⟩

/-! ## Uplink testing event -/

/-- C7, the code at the failing input: testing is enabled and the packet carries the testing
header 0x72, the passcode equal to the CRC-32 of the test phrase (here `0xCBF43926`), the enable
flag and the event 9. `ParseRxMessage` posts no event and changes no member, where the claim
asks for the event to be posted exactly once. -/
theorem uplink_event_not_posted :
    ParseRxMessage
        { m_test_phrase_crc := 0xCBF43926, m_testing_enabled := true, m_testing_armed := false,
          m_event_reset := false, m_testing_timeout := 0 }
        { header := RX_PACKET_HEADER, passcode := 0xCBF43926, event := 9,
          enable_testing_telemetry := true, dummy1 := 0, dummy2 := 0 }
      = ({ m_test_phrase_crc := 0xCBF43926, m_testing_enabled := true, m_testing_armed := false,
           m_event_reset := false, m_testing_timeout := 0 }, []) := by
  rfl

/-! ## Flight recorder: the states FILL_QUEUE and OFF, and the flush cadence -/

/-- A pass through the inner loop while the status is below WRITE_TO_FLASH: the oldest element
leaves the queue when the status is FILL_QUEUE and the queue holds more than the limit, and
nothing else changes but the logged maximum of the queue length. -/
theorem recorder_inner_below_write (sz : rec_sizes) (limit status : Nat) (s : recorder_state)
    (hst : status < REC_WRITE_TO_FLASH) :
    recorder_inner sz limit status s
      = { s with
          max_elem_count :=
            if s.max_elem_count < s.rec_queue.length then s.rec_queue.length
            else s.max_elem_count,
          rec_queue :=
            if s.rec_queue.length > limit ∧ status = REC_FILL_QUEUE then s.rec_queue.tail
            else s.rec_queue } := by
  have hn : ¬ status ≥ REC_WRITE_TO_FLASH := by omega
  unfold recorder_inner
  simp only [hn, if_false]
  by_cases hc : s.rec_queue.length > limit ∧ status = REC_FILL_QUEUE
  · simp only [hc, and_self, if_true]
    cases hq : s.rec_queue with
    | nil => rfl
    | cons e rest => rfl
  · simp only [hc, if_false]

/-- C11 (pre-liftoff retention). While the recorder status is FILL_QUEUE, a step of the recorder
loop (a pass through the inner loop, the buffer index being below 256) on a queue whose
occupancy exceeds `REC_QUEUE_PRE_THRUSTING_LIMIT` removes exactly the oldest queued entry, keeps
the remaining entries in their order, and writes nothing to the page buffer; a step on a queue
whose occupancy is at most the limit leaves queue and page buffer unchanged. In both cases
nothing is handed to the file system. -/
theorem pre_liftoff_retention (sz : rec_sizes) (limit : Nat) (s : recorder_state)
    (hidx : s.rec_buffer_idx < REC_BUFFER_LEN) :
    (∀ oldest rest, s.rec_queue = oldest :: rest → limit < s.rec_queue.length →
      (task_recorder_step sz limit REC_FILL_QUEUE s).rec_queue = rest) ∧
    (s.rec_queue.length ≤ limit →
      (task_recorder_step sz limit REC_FILL_QUEUE s).rec_queue = s.rec_queue) ∧
    (task_recorder_step sz limit REC_FILL_QUEUE s).rec_buffer = s.rec_buffer ∧
    (task_recorder_step sz limit REC_FILL_QUEUE s).rec_buffer_idx = s.rec_buffer_idx ∧
    (task_recorder_step sz limit REC_FILL_QUEUE s).written = s.written ∧
    (task_recorder_step sz limit REC_FILL_QUEUE s).synced = s.synced := by
  have e : task_recorder_step sz limit REC_FILL_QUEUE s
      = recorder_inner sz limit REC_FILL_QUEUE s := by
    unfold task_recorder_step
    rw [if_pos hidx]
  rw [e, recorder_inner_below_write sz limit REC_FILL_QUEUE s (by decide)]
  refine ⟨?_, ?_, rfl, rfl, rfl, rfl⟩
  · intro oldest rest hq hl
    have hc : s.rec_queue.length > limit ∧ REC_FILL_QUEUE = REC_FILL_QUEUE := ⟨hl, rfl⟩
    show (if s.rec_queue.length > limit ∧ REC_FILL_QUEUE = REC_FILL_QUEUE then s.rec_queue.tail
      else s.rec_queue) = rest
    rw [if_pos hc, hq, List.tail_cons]
  · intro hl
    have hc : ¬ (s.rec_queue.length > limit ∧ REC_FILL_QUEUE = REC_FILL_QUEUE) := by
      intro h; omega
    show (if s.rec_queue.length > limit ∧ REC_FILL_QUEUE = REC_FILL_QUEUE then s.rec_queue.tail
      else s.rec_queue) = s.rec_queue
    rw [if_neg hc]

/-- C11, at a concrete input: a queue of three entries with limit 2 loses its oldest entry, and
with limit 3 it stays as it is. -/
theorem pre_liftoff_retention_witness :
    (task_recorder_step
        { imu := 16, baro := 12, magneto_info := 16, flight_info := 16, filtered_data_info := 20,
          flight_state := 8, covariance_info := 12, sensor_info := 12, event_info := 12,
          error_info := 8, rec_elem_u := 20 } 2 REC_FILL_QUEUE
        (recorder_init [{ rec_type := IMU0, u := [] }, { rec_type := IMU1, u := [] },
          { rec_type := IMU2, u := [] }])).rec_queue
      = [{ rec_type := IMU1, u := [] }, { rec_type := IMU2, u := [] }] ∧
    ((recorder_init [{ rec_type := IMU0, u := [] }, { rec_type := IMU1, u := [] },
          { rec_type := IMU2, u := [] }]).rec_queue.length ≤ 3 →
      (task_recorder_step
        { imu := 16, baro := 12, magneto_info := 16, flight_info := 16, filtered_data_info := 20,
          flight_state := 8, covariance_info := 12, sensor_info := 12, event_info := 12,
          error_info := 8, rec_elem_u := 20 } 3 REC_FILL_QUEUE
        (recorder_init [{ rec_type := IMU0, u := [] }, { rec_type := IMU1, u := [] },
          { rec_type := IMU2, u := [] }])).rec_queue
      = (recorder_init [{ rec_type := IMU0, u := [] }, { rec_type := IMU1, u := [] },
          { rec_type := IMU2, u := [] }]).rec_queue) :=
  ⟨(pre_liftoff_retention _ 2 (recorder_init [{ rec_type := IMU0, u := [] },
      { rec_type := IMU1, u := [] }, { rec_type := IMU2, u := [] }]) (by decide)).1
      { rec_type := IMU0, u := [] } [{ rec_type := IMU1, u := [] }, { rec_type := IMU2, u := [] }]
      rfl (by decide),
   (pre_liftoff_retention _ 3 (recorder_init [{ rec_type := IMU0, u := [] },
      { rec_type := IMU1, u := [] }, { rec_type := IMU2, u := [] }]) (by decide)).2.1⟩

/-- With the status OFF the recorder loop changes neither the queue nor the buffer nor what
was written, in one step and in any number of steps. -/
theorem task_recorder_off_idle (sz : rec_sizes) (limit : Nat) (s : recorder_state)
    (hidx : s.rec_buffer_idx < REC_BUFFER_LEN) :
    ((task_recorder_step sz limit REC_OFF s).rec_queue = s.rec_queue ∧
      (task_recorder_step sz limit REC_OFF s).rec_buffer = s.rec_buffer ∧
      (task_recorder_step sz limit REC_OFF s).rec_buffer_idx = s.rec_buffer_idx ∧
      (task_recorder_step sz limit REC_OFF s).written = s.written) ∧
    (∀ n, (task_recorder sz limit REC_OFF n s).rec_queue = s.rec_queue ∧
      (task_recorder sz limit REC_OFF n s).rec_buffer = s.rec_buffer ∧
      (task_recorder sz limit REC_OFF n s).rec_buffer_idx = s.rec_buffer_idx ∧
      (task_recorder sz limit REC_OFF n s).written = s.written) := by
  have hstep : ∀ t : recorder_state, t.rec_buffer_idx < REC_BUFFER_LEN →
      (task_recorder_step sz limit REC_OFF t).rec_queue = t.rec_queue ∧
      (task_recorder_step sz limit REC_OFF t).rec_buffer = t.rec_buffer ∧
      (task_recorder_step sz limit REC_OFF t).rec_buffer_idx = t.rec_buffer_idx ∧
      (task_recorder_step sz limit REC_OFF t).written = t.written := by
    intro t ht
    have e : task_recorder_step sz limit REC_OFF t = recorder_inner sz limit REC_OFF t := by
      unfold task_recorder_step
      rw [if_pos ht]
    rw [e, recorder_inner_below_write sz limit REC_OFF t (by decide)]
    have hc : ¬ (t.rec_queue.length > limit ∧ REC_OFF = REC_FILL_QUEUE) := by
      intro h; exact absurd h.2 (by decide)
    refine ⟨?_, rfl, rfl, rfl⟩
    show (if t.rec_queue.length > limit ∧ REC_OFF = REC_FILL_QUEUE then t.rec_queue.tail
      else t.rec_queue) = t.rec_queue
    rw [if_neg hc]
  refine ⟨hstep s hidx, ?_⟩
  intro n
  induction n generalizing s with
  | zero => exact ⟨rfl, rfl, rfl, rfl⟩
  | succ n ih =>
    obtain ⟨h1, h2, h3, h4⟩ := hstep s hidx
    obtain ⟨g1, g2, g3, g4⟩ := ih (task_recorder_step sz limit REC_OFF s) (by rw [h3]; exact hidx)
    rw [task_recorder]
    exact ⟨g1.trans h1, g2.trans h2, g3.trans h3, g4.trans h4⟩

/-- C12, refuted as stated: with the status OFF a step of the recorder loop on a queue of two
entries leaves both entries in the queue, and the queue is still not empty after 50 steps. -/
theorem recorder_off_counterexample :
    (task_recorder_step
        { imu := 16, baro := 12, magneto_info := 16, flight_info := 16, filtered_data_info := 20,
          flight_state := 8, covariance_info := 12, sensor_info := 12, event_info := 12,
          error_info := 8, rec_elem_u := 20 } 0 REC_OFF
        (recorder_init [{ rec_type := IMU0, u := [] }, { rec_type := IMU1, u := [] }])).rec_queue
      = [{ rec_type := IMU0, u := [] }, { rec_type := IMU1, u := [] }] ∧
    (task_recorder
        { imu := 16, baro := 12, magneto_info := 16, flight_info := 16, filtered_data_info := 20,
          flight_state := 8, covariance_info := 12, sensor_info := 12, event_info := 12,
          error_info := 8, rec_elem_u := 20 } 0 REC_OFF 50
        (recorder_init [{ rec_type := IMU0, u := [] }, { rec_type := IMU1, u := [] }])).rec_queue
      ≠ [] := by
  have h := task_recorder_off_idle
    { imu := 16, baro := 12, magneto_info := 16, flight_info := 16, filtered_data_info := 20,
      flight_state := 8, covariance_info := 12, sensor_info := 12, event_info := 12,
      error_info := 8, rec_elem_u := 20 } 0
    (recorder_init [{ rec_type := IMU0, u := [] }, { rec_type := IMU1, u := [] }]) (by decide)
  refine ⟨h.1.1, ?_⟩
  rw [(h.2 50).1]
  exact List.cons_ne_nil _ _

/-- C12, amended. While the recorder status is OFF, a step of the recorder loop (a pass through
the inner loop, the buffer index being below 256) leaves the queue as it is, whatever its
occupancy: no entry is removed, nothing is written to the page buffer and nothing is handed to
the file system; the task only waits. The same holds for any number of steps. -/
theorem recorder_off (sz : rec_sizes) (limit : Nat) (s : recorder_state)
    (hidx : s.rec_buffer_idx < REC_BUFFER_LEN) :
    ((task_recorder_step sz limit REC_OFF s).rec_queue = s.rec_queue ∧
      (task_recorder_step sz limit REC_OFF s).rec_buffer = s.rec_buffer ∧
      (task_recorder_step sz limit REC_OFF s).rec_buffer_idx = s.rec_buffer_idx ∧
      (task_recorder_step sz limit REC_OFF s).written = s.written) ∧
    (∀ n, (task_recorder sz limit REC_OFF n s).rec_queue = s.rec_queue ∧
      (task_recorder sz limit REC_OFF n s).rec_buffer = s.rec_buffer ∧
      (task_recorder sz limit REC_OFF n s).rec_buffer_idx = s.rec_buffer_idx ∧
      (task_recorder sz limit REC_OFF n s).written = s.written) :=
  task_recorder_off_idle sz limit s hidx

/-- C12 amended, at a concrete input: a queue of two entries after one step with status OFF. -/
theorem recorder_off_witness :
    (task_recorder_step
        { imu := 16, baro := 12, magneto_info := 16, flight_info := 16, filtered_data_info := 20,
          flight_state := 8, covariance_info := 12, sensor_info := 12, event_info := 12,
          error_info := 8, rec_elem_u := 20 } 0 REC_OFF
        (recorder_init [{ rec_type := IMU0, u := [] }, { rec_type := IMU1, u := [] }])).rec_queue
      = (recorder_init [{ rec_type := IMU0, u := [] }, { rec_type := IMU1, u := [] }]).rec_queue :=
  (recorder_off _ 0 (recorder_init [{ rec_type := IMU0, u := [] }, { rec_type := IMU1, u := [] }])
    (by decide)).1.1

/-- A pass through the inner loop hands nothing to the file system. -/
theorem recorder_inner_fs (sz : rec_sizes) (limit status : Nat) (s : recorder_state) :
    (recorder_inner sz limit status s).written = s.written ∧
    (recorder_inner sz limit status s).synced = s.synced ∧
    (recorder_inner sz limit status s).sync_counter = s.sync_counter := by
  unfold recorder_inner
  by_cases h1 : status ≥ REC_WRITE_TO_FLASH
  · simp only [h1, if_true]
    cases s.rec_queue <;> exact ⟨rfl, rfl, rfl⟩
  · simp only [h1, if_false]
    by_cases h2 : s.rec_queue.length > limit ∧ status = REC_FILL_QUEUE
    · simp only [h2, and_self, if_true]
      cases s.rec_queue <;> exact ⟨rfl, rfl, rfl⟩
    · simp only [h2, if_false]
      exact ⟨trivial, trivial, trivial⟩

/-- What the statements behind the inner loop hand to the file system: one buffer, and a sync
when the counter is a multiple of 16. -/
theorem recorder_flush_fs (s : recorder_state) :
    (recorder_flush s).written = s.written ++ [s.rec_buffer.take 256] ∧
    (recorder_flush s).synced
      = (if s.sync_counter % 16 = 0 then s.synced ++ [s.written.length + 1] else s.synced) ∧
    (recorder_flush s).sync_counter = (s.sync_counter + 1) % 4294967296 := by
  refine ⟨rfl, ?_, rfl⟩
  show (if s.sync_counter % 16 = 0 then s.synced ++ [(s.written ++ [s.rec_buffer.take 256]).length]
    else s.synced) = _
  simp

/-- The sync cadence as an invariant of the recorder loop: the counter is the number of written
buffers (modulo `2 ^ 32`) and a sync was issued after the buffer number `k`, counting from 0,
exactly when `k % 16 = 0`. -/
theorem task_recorder_step_cadence (sz : rec_sizes) (limit status : Nat) (s : recorder_state)
    (hc : s.sync_counter = s.written.length % 4294967296)
    (hs : s.synced = ((List.range s.written.length).filter (fun k => k % 16 = 0)).map
      (fun k => k + 1)) :
    (task_recorder_step sz limit status s).sync_counter
      = (task_recorder_step sz limit status s).written.length % 4294967296 ∧
    (task_recorder_step sz limit status s).synced
      = ((List.range (task_recorder_step sz limit status s).written.length).filter
          (fun k => k % 16 = 0)).map (fun k => k + 1) := by
  unfold task_recorder_step
  by_cases hidx : s.rec_buffer_idx < REC_BUFFER_LEN
  · rw [if_pos hidx]
    obtain ⟨h1, h2, h3⟩ := recorder_inner_fs sz limit status s
    rw [h1, h2, h3]
    exact ⟨hc, hs⟩
  · rw [if_neg hidx]
    obtain ⟨h1, h2, h3⟩ := recorder_flush_fs s
    rw [h1, h2, h3]
    have hmod : s.sync_counter % 16 = s.written.length % 16 := by
      rw [hc]; omega
    constructor
    · rw [hc]; simp only [List.length_append, List.length_singleton]; omega
    · simp only [List.length_append, List.length_singleton, List.range_succ, List.filter_append,
        List.map_append, hmod]
      by_cases h16 : s.written.length % 16 = 0
      · simp [h16, hs]
      · simp [h16, hs]

theorem task_recorder_cadence (sz : rec_sizes) (limit status : Nat) :
    ∀ (n : Nat) (s : recorder_state),
      s.sync_counter = s.written.length % 4294967296 →
      s.synced = ((List.range s.written.length).filter (fun k => k % 16 = 0)).map
        (fun k => k + 1) →
      (task_recorder sz limit status n s).sync_counter
        = (task_recorder sz limit status n s).written.length % 4294967296 ∧
      (task_recorder sz limit status n s).synced
        = ((List.range (task_recorder sz limit status n s).written.length).filter
            (fun k => k % 16 = 0)).map (fun k => k + 1) := by
  intro n
  induction n with
  | zero => intro s hc hs; exact ⟨hc, hs⟩
  | succ n ih =>
    intro s hc hs
    obtain ⟨h1, h2⟩ := task_recorder_step_cadence sz limit status s hc hs
    rw [task_recorder]
    exact ih _ h1 h2

/-- The invariant of the recorder loop holds in every recorder status. -/
theorem task_recorder_step_inv (sz : rec_sizes) (limit status : Nat) (s : recorder_state)
    (hsz : sz.ok) (hinv : recorder_inv sz s) :
    recorder_inv sz (task_recorder_step sz limit status s) := by
  by_cases hst : status ≥ REC_WRITE_TO_FLASH
  · exact (task_recorder_step_spec sz limit status s hsz hst hinv).1
  · unfold task_recorder_step
    by_cases hidx : s.rec_buffer_idx < REC_BUFFER_LEN
    · rw [if_pos hidx, recorder_inner_below_write sz limit status s (by omega)]
      obtain ⟨h1, h2, h3, h4, h5⟩ := hinv
      refine ⟨h1, h2, h3, h4, ?_⟩
      intro r hr
      apply h5
      have hr' : r ∈ (if s.rec_queue.length > limit ∧ status = REC_FILL_QUEUE then s.rec_queue.tail
          else s.rec_queue) := hr
      split at hr'
      · exact List.mem_of_mem_tail hr'
      · exact hr'
    · rw [if_neg hidx]
      have hidx' : 256 ≤ s.rec_buffer_idx := by
        unfold REC_BUFFER_LEN at hidx; omega
      exact (recorder_flush_spec sz s hinv hidx').1

theorem task_recorder_inv (sz : rec_sizes) (limit status : Nat) (hsz : sz.ok) :
    ∀ (n : Nat) (s : recorder_state), recorder_inv sz s →
      recorder_inv sz (task_recorder sz limit status n s) := by
  intro n
  induction n with
  | zero => intro s h; exact h
  | succ n ih =>
    intro s h
    rw [task_recorder]
    exact ih _ (task_recorder_step_inv sz limit status s hsz h)

theorem recorder_init_inv (sz : rec_sizes) (recs : List rec_elem_t)
    (hrecs : ∀ r ∈ recs, r.u.length = sz.rec_elem_u) : recorder_inv sz (recorder_init recs) := by
  refine ⟨List.length_replicate _ _, ?_, ?_, ?_, hrecs⟩
  · intro b hb
    exact absurd hb (List.not_mem_nil b)
  · show (0 : Nat) < 512
    omega
  · intro h
    have h' : (256 : Nat) < 0 := h
    omega

/-- C13 (flush cadence). After any number of passes of the recorder loop, started with the
counters at 0, in any recorder status: (1) the next pass hands exactly one buffer, the 256
bytes of the page buffer, to the file write when the buffer index has reached 256 or more,
and nothing when it has not; (2) every buffer written so far has 256 bytes; (3) a file system
sync has been issued after the `k`-th written buffer, counting from 0, exactly when
`k mod 16 = 0` (the list `synced` holds the number `k + 1` of buffers written at each sync), so
once every 16 buffers. -/
theorem flush_cadence (sz : rec_sizes) (limit status n : Nat) (recs : List rec_elem_t)
    (hsz : sz.ok) (hrecs : ∀ r ∈ recs, r.u.length = sz.rec_elem_u) :
    (256 ≤ (task_recorder sz limit status n (recorder_init recs)).rec_buffer_idx →
      (task_recorder sz limit status (n + 1) (recorder_init recs)).written
        = (task_recorder sz limit status n (recorder_init recs)).written
          ++ [(task_recorder sz limit status n (recorder_init recs)).rec_buffer] ∧
      (task_recorder sz limit status n (recorder_init recs)).rec_buffer.length = 256) ∧
    ((task_recorder sz limit status n (recorder_init recs)).rec_buffer_idx < 256 →
      (task_recorder sz limit status (n + 1) (recorder_init recs)).written
        = (task_recorder sz limit status n (recorder_init recs)).written) ∧
    (∀ b ∈ (task_recorder sz limit status n (recorder_init recs)).written, b.length = 256) ∧
    (task_recorder sz limit status n (recorder_init recs)).synced
      = ((List.range (task_recorder sz limit status n (recorder_init recs)).written.length).filter
          (fun k => k % 16 = 0)).map (fun k => k + 1) := by
  have hinv := task_recorder_inv sz limit status hsz n (recorder_init recs)
    (recorder_init_inv sz recs hrecs)
  have hcad := task_recorder_cadence sz limit status n (recorder_init recs) rfl rfl
  have hnext : ∀ (m : Nat) (s : recorder_state),
      task_recorder sz limit status (m + 1) s
        = task_recorder_step sz limit status (task_recorder sz limit status m s) := by
    intro m
    induction m with
    | zero => intro s; rfl
    | succ m ih => intro s; rw [task_recorder, ih, task_recorder]
  rw [hnext]
  generalize task_recorder sz limit status n (recorder_init recs) = t at *
  have htake : List.take 256 t.rec_buffer = t.rec_buffer := by
    apply List.take_of_length_le
    rw [hinv.1]
  refine ⟨?_, ?_, hinv.2.1, hcad.2⟩
  · intro h
    have hn : ¬ t.rec_buffer_idx < REC_BUFFER_LEN := by unfold REC_BUFFER_LEN; omega
    unfold task_recorder_step
    rw [if_neg hn, (recorder_flush_fs t).1, htake]
    exact ⟨rfl, hinv.1⟩
  · intro h
    have hp : t.rec_buffer_idx < REC_BUFFER_LEN := h
    unfold task_recorder_step
    rw [if_pos hp, (recorder_inner_fs sz limit status t).1]

/-- C13, at a concrete input: 200 records of 24 bytes (4800 bytes, 18 buffers) run to the end;
syncs were issued after the buffers number 0 and 16, when 1 and 17 buffers had been written. -/
theorem flush_cadence_witness :
    (task_recorder
        { imu := 16, baro := 12, magneto_info := 16, flight_info := 16, filtered_data_info := 20,
          flight_state := 8, covariance_info := 12, sensor_info := 12, event_info := 12,
          error_info := 8, rec_elem_u := 20 } 0 REC_WRITE_TO_FLASH 400
        (recorder_init (List.replicate 200
          { rec_type := FILTERED_DATA_INFO, u := List.range 20 }))).synced
      = ((List.range (task_recorder
          { imu := 16, baro := 12, magneto_info := 16, flight_info := 16,
            filtered_data_info := 20, flight_state := 8, covariance_info := 12,
            sensor_info := 12, event_info := 12, error_info := 8, rec_elem_u := 20 }
          0 REC_WRITE_TO_FLASH 400
          (recorder_init (List.replicate 200
            { rec_type := FILTERED_DATA_INFO, u := List.range 20 }))).written.length).filter
          (fun k => k % 16 = 0)).map (fun k => k + 1) :=
  (flush_cadence
    { imu := 16, baro := 12, magneto_info := 16, flight_info := 16, filtered_data_info := 20,
      flight_state := 8, covariance_info := 12, sensor_info := 12, event_info := 12,
      error_info := 8, rec_elem_u := 20 } 0 REC_WRITE_TO_FLASH 400
    (List.replicate 200 { rec_type := FILTERED_DATA_INFO, u := List.range 20 })
    (by decide) (fun r hr => by rw [List.eq_of_mem_replicate hr]; rfl)).2.2.2

/-! ## State estimation: reset triggers and the reported acceleration -/

/-- Which of the two reset statements at the head of the loop run, and the filter they leave. -/
theorem est_resets_spec {F S : Type} (ops : estimation_ops F S) (n o : Nat)
    (f : kalman_filter_t F S) :
    (est_call.reset_kalman ∈ (est_resets ops n o f).2 ↔ n = READY ∧ o ≠ READY) ∧
    (est_call.soft_reset_kalman ∈ (est_resets ops n o f).2 ↔ n = THRUSTING ∧ o ≠ THRUSTING) ∧
    (est_resets ops n o f).1
      = (if n = READY ∧ o ≠ READY then ops.reset_kalman f
         else if n = THRUSTING ∧ o ≠ THRUSTING then ops.soft_reset_kalman f else f) := by
  have hRT : READY ≠ THRUSTING := by decide
  unfold est_resets
  by_cases h1 : n = READY
  · subst h1
    by_cases h2 : READY = o
    · simp [← h2, hRT]
    · have h2' : o ≠ READY := fun h => h2 h.symm
      simp [h2, h2', hRT]
  · by_cases h3 : n = THRUSTING
    · subst h3
      by_cases h2 : THRUSTING = o
      · simp [← h2, hRT.symm]
      · have h2' : o ≠ THRUSTING := fun h => h2 h.symm
        simp [h2, h2', hRT.symm]
    · simp [h1, h3]

/-- The calls of one pass of the loop: the resets, then the Kalman step and the two records. -/
theorem task_state_est_step_calls {F S : Type} (ops : estimation_ops F S) (inp : est_input F)
    (s : est_state F S) :
    (est_call.reset_kalman ∈ (task_state_est_step ops inp s).2
      ↔ est_call.reset_kalman ∈ (est_resets ops inp.flight_state_0 s.old_fsm_enum s.filter).2) ∧
    (est_call.soft_reset_kalman ∈ (task_state_est_step ops inp s).2
      ↔ est_call.soft_reset_kalman ∈
          (est_resets ops inp.flight_state_0 s.old_fsm_enum s.filter).2) := by
  unfold task_state_est_step
  simp

/-- C14 (Kalman reset triggers), as the code has them. On every pass of the estimation loop
with previous phase `old_fsm_enum` and current phase `flight_state_0`: the full reset
(`reset_kalman`) is performed iff the current phase is READY and the previous one is not; the
soft reset (`soft_reset_kalman`) is performed iff the current phase is THRUSTING and the previous
one is not; never both, and on every other pass neither; the filter is changed accordingly, and
the current phase is the previous phase of the next pass. When READY is only entered from MOVING
and THRUSTING only from READY, these are the passes MOVING to READY and READY to THRUSTING. -/
theorem kalman_reset_triggers {F S : Type} (ops : estimation_ops F S) (inp : est_input F)
    (s : est_state F S) :
    (est_call.reset_kalman ∈ (task_state_est_step ops inp s).2
      ↔ inp.flight_state_0 = READY ∧ s.old_fsm_enum ≠ READY) ∧
    (est_call.soft_reset_kalman ∈ (task_state_est_step ops inp s).2
      ↔ inp.flight_state_0 = THRUSTING ∧ s.old_fsm_enum ≠ THRUSTING) ∧
    ¬ (est_call.reset_kalman ∈ (task_state_est_step ops inp s).2 ∧
        est_call.soft_reset_kalman ∈ (task_state_est_step ops inp s).2) ∧
    (est_resets ops inp.flight_state_0 s.old_fsm_enum s.filter).1
      = (if inp.flight_state_0 = READY ∧ s.old_fsm_enum ≠ READY then ops.reset_kalman s.filter
         else if inp.flight_state_0 = THRUSTING ∧ s.old_fsm_enum ≠ THRUSTING then
           ops.soft_reset_kalman s.filter
         else s.filter) ∧
    (task_state_est_step ops inp s).1.old_fsm_enum = inp.flight_state_0 ∧
    ((inp.flight_state_0 = READY → s.old_fsm_enum ≠ READY → s.old_fsm_enum = MOVING) →
      (est_call.reset_kalman ∈ (task_state_est_step ops inp s).2
        ↔ s.old_fsm_enum = MOVING ∧ inp.flight_state_0 = READY)) ∧
    ((inp.flight_state_0 = THRUSTING → s.old_fsm_enum ≠ THRUSTING → s.old_fsm_enum = READY) →
      (est_call.soft_reset_kalman ∈ (task_state_est_step ops inp s).2
        ↔ s.old_fsm_enum = READY ∧ inp.flight_state_0 = THRUSTING)) := by
  obtain ⟨c1, c2⟩ := task_state_est_step_calls ops inp s
  obtain ⟨r1, r2, r3⟩ := est_resets_spec ops inp.flight_state_0 s.old_fsm_enum s.filter
  have hRT : READY ≠ THRUSTING := by decide
  have hMR : MOVING ≠ READY := by decide
  refine ⟨c1.trans r1, c2.trans r2, ?_, r3, rfl, ?_, ?_⟩
  · rintro ⟨h1, h2⟩
    exact hRT (((c1.trans r1).mp h1).1.symm.trans ((c2.trans r2).mp h2).1)
  · intro hedge
    rw [c1.trans r1]
    constructor
    · rintro ⟨h1, h2⟩
      exact ⟨hedge h1 h2, h1⟩
    · rintro ⟨h1, h2⟩
      exact ⟨h2, by rw [h1]; exact hMR⟩
  · intro hedge
    rw [c2.trans r2]
    constructor
    · rintro ⟨h1, h2⟩
      exact ⟨hedge h1 h2, h1⟩
    · rintro ⟨h1, h2⟩
      exact ⟨h2, by rw [h1]; exact hRT⟩

/-- C14, at a concrete input: the first pass with the phase READY (the previous phase is the
initial MOVING) performs the full reset. -/
theorem kalman_reset_triggers_witness :
    est_call.reset_kalman ∈
      (task_state_est_step est_ops_example
        { flight_state_0 := READY, flight_state_1 := READY, flight_state_2 := READY,
          acceleration_z := 3, height_AGL := 4 }
        (est_init est_ops_example est_filter_example)).2 :=
  ((kalman_reset_triggers est_ops_example
      { flight_state_0 := READY, flight_state_1 := READY, flight_state_2 := READY,
        acceleration_z := 3, height_AGL := 4 }
      (est_init est_ops_example est_filter_example)).2.2.2.2.2.1
    (fun _ _ => rfl)).mpr ⟨rfl, rfl⟩

/-- C14 as stated fails: a pass whose previous phase is MOVING and whose current phase is
THRUSTING performs the soft reset although the previous phase is not READY, and a pass whose
previous phase is THRUSTING and whose current phase is READY performs the full reset although
the previous phase is not MOVING. -/
theorem kalman_reset_counterexample :
    (est_call.soft_reset_kalman ∈
      (task_state_est_step est_ops_example
        { flight_state_0 := THRUSTING, flight_state_1 := THRUSTING, flight_state_2 := THRUSTING,
          acceleration_z := 3, height_AGL := 4 }
        (est_init est_ops_example est_filter_example)).2 ∧
      ¬ ((est_init est_ops_example est_filter_example).old_fsm_enum = READY ∧
          THRUSTING = THRUSTING)) ∧
    (est_call.reset_kalman ∈
      (task_state_est_step est_ops_example
        { flight_state_0 := READY, flight_state_1 := READY, flight_state_2 := READY,
          acceleration_z := 3, height_AGL := 4 }
        { filter := est_filter_example, new_fsm_enum := THRUSTING, old_fsm_enum := THRUSTING,
          global_estimation_data := (0, 0, 0) }).2 ∧
      ¬ (THRUSTING = MOVING ∧ READY = READY)) := by
  refine ⟨⟨?_, by decide⟩, ⟨?_, by decide⟩⟩
  · rw [(task_state_est_step_calls _ _ _).2, (est_resets_spec _ _ _ _).2.1]
    exact ⟨rfl, by decide⟩
  · rw [(task_state_est_step_calls _ _ _).1, (est_resets_spec _ _ _ _).1]
    exact ⟨rfl, by decide⟩

/-- C15 (reported acceleration). On every pass of the estimation loop, with the Kalman step an
unknown function that leaves the member `measured_acceleration` as it is, and a phase at or
after DROGUE not going back within the pass: the calls of the pass are the resets, then the
Kalman step, which is handed the acceleration input when the phase read at the head of the pass
is before DROGUE and 0 when it is at or after DROGUE, then the records; the acceleration of the
`FLIGHT_INFO` record is the bias state `x_bar_data[2]` alone when the phase read before the
record is DROGUE or later, and the float sum of the acceleration input and `x_bar_data[2]` when
it is before DROGUE. -/
theorem reported_acceleration {F S : Type} (ops : estimation_ops F S) (inp : est_input F)
    (s : est_state F S)
    (hstep : ∀ (f : kalman_filter_t F S) (p : Nat),
      (ops.kalman_step f p).measured_acceleration = f.measured_acceleration)
    (hmono : DROGUE ≤ inp.flight_state_0 → DROGUE ≤ inp.flight_state_2) :
    (task_state_est_step ops inp s).2
      = (est_resets ops inp.flight_state_0 s.old_fsm_enum s.filter).2 ++
        [est_call.kalman_step
            (if inp.flight_state_0 < DROGUE then inp.acceleration_z else ops.zero)
            inp.height_AGL inp.flight_state_1,
          est_call.record_filtered_data_info
            (task_state_est_step ops inp s).1.filter.measured_AGL
            (if inp.flight_state_0 < DROGUE then inp.acceleration_z else ops.zero),
          est_call.record_flight_info
            ((task_state_est_step ops inp s).1.filter.x_bar_data 0)
            ((task_state_est_step ops inp s).1.filter.x_bar_data 1)
            (if DROGUE ≤ inp.flight_state_2 then
              (task_state_est_step ops inp s).1.filter.x_bar_data 2
             else ops.add inp.acceleration_z
              ((task_state_est_step ops inp s).1.filter.x_bar_data 2))] := by
  unfold task_state_est_step
  simp only [hstep, ge_iff_le]
  by_cases h2 : DROGUE ≤ inp.flight_state_2
  · simp only [h2, if_true]
  · have h0 : inp.flight_state_0 < DROGUE := by
      by_contra h
      exact h2 (hmono (by omega))
    simp only [h2, h0, if_true, if_false]

/-- C15, at a concrete input: in the phase MAIN the Kalman step is handed the acceleration 0
and the record holds the bias state (1 + 0 + 4) alone; in the phase COASTING the step is handed
the input 3 and the record holds 3 + (1 + 3 + 4). -/
theorem reported_acceleration_witness :
    (task_state_est_step est_ops_example
        { flight_state_0 := MAIN, flight_state_1 := MAIN, flight_state_2 := MAIN,
          acceleration_z := 3, height_AGL := 4 }
        { filter := est_filter_example, new_fsm_enum := MAIN, old_fsm_enum := MAIN,
          global_estimation_data := (0, 0, 0) }).2
      = [est_call.kalman_step 0 4 MAIN, est_call.record_filtered_data_info 4 0,
          est_call.record_flight_info 1 1 5] ∧
    (task_state_est_step est_ops_example
        { flight_state_0 := COASTING, flight_state_1 := COASTING, flight_state_2 := COASTING,
          acceleration_z := 3, height_AGL := 4 }
        { filter := est_filter_example, new_fsm_enum := COASTING, old_fsm_enum := COASTING,
          global_estimation_data := (0, 0, 0) }).2
      = [est_call.kalman_step 3 4 COASTING, est_call.record_filtered_data_info 4 3,
          est_call.record_flight_info 1 1 11] :=
  ⟨(reported_acceleration est_ops_example
      { flight_state_0 := MAIN, flight_state_1 := MAIN, flight_state_2 := MAIN,
        acceleration_z := 3, height_AGL := 4 }
      { filter := est_filter_example, new_fsm_enum := MAIN, old_fsm_enum := MAIN,
        global_estimation_data := (0, 0, 0) }
      (fun _ _ => rfl) (fun h => h)).trans (by decide),
   (reported_acceleration est_ops_example
      { flight_state_0 := COASTING, flight_state_1 := COASTING, flight_state_2 := COASTING,
        acceleration_z := 3, height_AGL := 4 }
      { filter := est_filter_example, new_fsm_enum := COASTING, old_fsm_enum := COASTING,
        global_estimation_data := (0, 0, 0) }
      (fun _ _ => rfl) (fun h => h)).trans (by decide)⟩

/-! ## The phase a task holds (`Task::GetNewFsmEnum`) -/

/-- C17 (an invalid phase is held, not adopted). For the firmware (`GetNewFsmEnum`, first valid
phase MOVING) and for the flight computer (`GetNewFsmEnum_fc`, first valid phase CALIBRATING):
when the value read from the event flags is below the first valid phase, above TOUCHDOWN, or
equal to the stored phase, the call returns false and the stored phase is unchanged; INVALID is
such a value; otherwise the call returns true and stores the value; and in every case a second
call with the same value returns false and leaves the stored phase as the first call left
it. -/
theorem invalid_phase_held (new_enum m_fsm_enum : Nat) :
    ((new_enum < MOVING ∨ new_enum > TOUCHDOWN ∨ new_enum = m_fsm_enum) →
      GetNewFsmEnum new_enum m_fsm_enum = (false, m_fsm_enum)) ∧
    (¬ (new_enum < MOVING ∨ new_enum > TOUCHDOWN ∨ new_enum = m_fsm_enum) →
      GetNewFsmEnum new_enum m_fsm_enum = (true, new_enum)) ∧
    GetNewFsmEnum INVALID m_fsm_enum = (false, m_fsm_enum) ∧
    GetNewFsmEnum new_enum (GetNewFsmEnum new_enum m_fsm_enum).2
      = (false, (GetNewFsmEnum new_enum m_fsm_enum).2) ∧
    ((new_enum < CALIBRATING ∨ new_enum > TOUCHDOWN ∨ new_enum = m_fsm_enum) →
      GetNewFsmEnum_fc new_enum m_fsm_enum = (false, m_fsm_enum)) ∧
    (¬ (new_enum < CALIBRATING ∨ new_enum > TOUCHDOWN ∨ new_enum = m_fsm_enum) →
      GetNewFsmEnum_fc new_enum m_fsm_enum = (true, new_enum)) ∧
    GetNewFsmEnum_fc INVALID m_fsm_enum = (false, m_fsm_enum) ∧
    GetNewFsmEnum_fc new_enum (GetNewFsmEnum_fc new_enum m_fsm_enum).2
      = (false, (GetNewFsmEnum_fc new_enum m_fsm_enum).2) := by
  unfold GetNewFsmEnum GetNewFsmEnum_fc INVALID MOVING CALIBRATING TOUCHDOWN
  refine ⟨?_, ?_, ?_, ?_, ?_, ?_, ?_, ?_⟩
  · intro h
    by_cases h1 : new_enum > 7 ∨ new_enum < 1
    · rw [if_pos h1]
    · rw [if_neg h1, if_pos (by omega)]
  · intro h
    rw [if_neg (by omega), if_neg (by omega)]
  · rfl
  · by_cases h1 : new_enum > 7 ∨ new_enum < 1
    · simp only [if_pos h1]
    · by_cases h2 : new_enum = m_fsm_enum
      · simp only [if_neg h1, if_pos h2]
      · simp only [if_neg h1, if_neg h2, if_true]
  · intro h
    by_cases h1 : new_enum > 7 ∨ new_enum < 1
    · rw [if_pos h1]
    · rw [if_neg h1, if_pos (by omega)]
  · intro h
    rw [if_neg (by omega), if_neg (by omega)]
  · rfl
  · by_cases h1 : new_enum > 7 ∨ new_enum < 1
    · simp only [if_pos h1]
    · by_cases h2 : new_enum = m_fsm_enum
      · simp only [if_neg h1, if_pos h2]
      · simp only [if_neg h1, if_neg h2, if_true]

/-- C17, at concrete inputs: the flag value 9, above TOUCHDOWN, leaves the stored phase READY
as it is, and the new phase THRUSTING is adopted. -/
theorem invalid_phase_held_witness :
    GetNewFsmEnum 9 READY = (false, READY) ∧ GetNewFsmEnum THRUSTING READY = (true, THRUSTING) :=
  ⟨(invalid_phase_held 9 READY).1 (Or.inr (Or.inl (by decide))),
   (invalid_phase_held THRUSTING READY).2.1 (by decide)⟩

/-! ## Averaging over the sensor channels -/

/-- C16, the code against the claim. The loop of `task_state_est` divides the sum of the
non-faulty channels by the counters `num_faulty_imus` and `num_faulty_baros`, not by the number
of non-faulty channels. With channel 0 faulty (counters 1) and the channel values 9, 2, 4 and
90, 20, 40 the code computes 6 and 60, raw and filtered, where the means of the non-faulty
channels are 3 and 30. -/
theorem averaging_divides_by_faulty_count :
    (∀ (elimination : sensor_elimination_t) (state_data : state_estimation_data_t),
      raw_accel_and_AGL elimination state_data
        = ((((List.range 3).filter (fun i => elimination.faulty_imu i = 0)).map
              state_data.acceleration).sum / (elimination.num_faulty_imus : ℚ),
           (((List.range 3).filter (fun i => elimination.faulty_baro i = 0)).map
              state_data.calculated_AGL).sum / (elimination.num_faulty_baros : ℚ))) ∧
    raw_accel_and_AGL elimination_one_faulty state_data_example = (6, 60) ∧
    filtered_acc_and_AGL (fun d => d) elimination_one_faulty state_data_example = (6, 60) ∧
    spec_mean_non_faulty elimination_one_faulty.faulty_imu state_data_example.acceleration = 3 ∧
    spec_mean_non_faulty elimination_one_faulty.faulty_baro state_data_example.calculated_AGL
      = 30 := by
  refine ⟨?_, ?_, ?_, ?_, ?_⟩
  · intro el sd
    simp only [raw_accel_and_AGL, average_channel, List.range_succ, List.range_zero,
      List.nil_append, List.cons_append, List.foldl_cons, List.foldl_nil, List.filter_cons,
      List.filter_nil, decide_eq_true_eq]
    refine Prod.ext ?_ ?_
    · by_cases h0 : el.faulty_imu 0 = 0 <;> by_cases h1 : el.faulty_imu 1 = 0 <;>
        by_cases h2 : el.faulty_imu 2 = 0 <;>
        simp only [h0, h1, h2, if_true, if_false, List.map_cons, List.map_nil, List.sum_cons,
          List.sum_nil] <;> ring
    · by_cases g0 : el.faulty_baro 0 = 0 <;> by_cases g1 : el.faulty_baro 1 = 0 <;>
        by_cases g2 : el.faulty_baro 2 = 0 <;>
        simp only [g0, g1, g2, if_true, if_false, List.map_cons, List.map_nil, List.sum_cons,
          List.sum_nil] <;> ring
  · norm_num [raw_accel_and_AGL, average_channel, List.range_succ, elimination_one_faulty,
      state_data_example]
  · norm_num [filtered_acc_and_AGL, average_channel, List.range_succ, elimination_one_faulty,
      state_data_example]
  · norm_num [spec_mean_non_faulty, List.range_succ, List.filter_cons, elimination_one_faulty,
      state_data_example]
  · norm_num [spec_mean_non_faulty, List.range_succ, List.filter_cons, elimination_one_faulty,
      state_data_example]

/-! ## Command line: bounds of a direct-mode setting -/

theorem tolower_eq_zero (c : Nat) : tolower c = 0 ↔ c = 0 := by
  unfold tolower
  split_ifs with h
  · constructor
    · intro e
      exact e.elim
    · intro e
      omega
  · exact Iff.rfl

/-- The comparison `strncasecmp(name, settingName, strlen(settingName))` is 0 exactly when the
first `strlen(settingName)` characters of `name` are the setting name, up to case. -/
theorem strncasecmp_eq_zero (s2 : List Nat) (h : ∀ c ∈ s2, c ≠ 0) :
    ∀ s1 : List Nat,
      strncasecmp s1 s2 s2.length = 0 ↔ (s1.take s2.length).map tolower = s2.map tolower := by
  induction s2 with
  | nil =>
    intro s1
    simp [strncasecmp]
  | cons c t ih =>
    intro s1
    have hc : c ≠ 0 := h c (List.mem_cons_self _ _)
    have hc' : tolower c ≠ 0 := fun e => hc ((tolower_eq_zero c).mp e)
    have ht : ∀ c ∈ t, c ≠ 0 := fun x hx => h x (List.mem_cons_of_mem _ hx)
    cases s1 with
    | nil =>
      have h0 : tolower 0 = 0 := rfl
      simp only [List.length_cons, strncasecmp, List.headD_nil, List.headD_cons, h0,
        List.take_nil, List.map_nil, List.map_cons]
      rw [if_pos (fun e => hc' e.symm)]
      constructor
      · intro e
        exact absurd (by simpa using e) hc'
      · intro e
        exact absurd e (List.cons_ne_nil _ _).symm
    | cons a u =>
      simp only [List.length_cons, strncasecmp, List.headD_cons, List.tail_cons,
        List.take_succ_cons, List.map_cons, List.cons.injEq]
      by_cases hac : tolower a = tolower c
      · have ha : a ≠ 0 := fun e => hc' (by rw [← hac, e]; rfl)
        simp only [hac, ne_eq, not_true_eq_false, if_false, ha, true_and]
        exact ih ht u
      · simp only [ne_eq, hac, not_false_eq_true, if_true, false_and, iff_false]
        intro e
        apply hac
        have e' := sub_eq_zero.mp e
        exact_mod_cast e'

/-- The loop of `cliGetSettingIndex` finds the first entry that matches. -/
theorem cliGetSettingIndex_from_spec (count : Nat) (name : List Nat) (length : Nat) :
    ∀ (rest : List clivalue_t) (i : Nat), (∀ e ∈ rest, ∀ c ∈ e.name, c ≠ 0) →
      cliGetSettingIndex_from count name length rest i
        = (if rest.findIdx (fun e => decide (e.name.length = length ∧
              (name.take length).map tolower = e.name.map tolower)) < rest.length then
            (i + rest.findIdx (fun e => decide (e.name.length = length ∧
              (name.take length).map tolower = e.name.map tolower))) % 65536
          else count % 65536) := by
  intro rest
  induction rest with
  | nil =>
    intro i _
    simp [cliGetSettingIndex_from]
  | cons e rest ih =>
    intro i h
    have he : ∀ c ∈ e.name, c ≠ 0 := h e (List.mem_cons_self _ _)
    have hr : ∀ e ∈ rest, ∀ c ∈ e.name, c ≠ 0 := fun x hx => h x (List.mem_cons_of_mem _ hx)
    simp only [cliGetSettingIndex_from, strncasecmp_eq_zero e.name he name, List.findIdx_cons]
    by_cases hm : e.name.length = length ∧ (name.take length).map tolower = e.name.map tolower
    · have hm' : (name.take e.name.length).map tolower = e.name.map tolower
          ∧ length = e.name.length := by
        rw [hm.1]
        exact ⟨hm.2, rfl⟩
      rw [if_pos hm']
      simp [hm]
    · have hm' : ¬ ((name.take e.name.length).map tolower = e.name.map tolower
          ∧ length = e.name.length) := by
        rintro ⟨h1, h2⟩
        apply hm
        rw [h2]
        exact ⟨rfl, h1⟩
      rw [if_neg hm', ih (i + 1) hr]
      simp only [hm, decide_False, cond_false, List.length_cons, Nat.add_lt_add_iff_right]
      by_cases hf : rest.findIdx (fun e => decide (e.name.length = length ∧
          (name.take length).map tolower = e.name.map tolower)) < rest.length
      · rw [if_pos hf, if_pos hf]
        congr 1
        omega
      · rw [if_neg hf, if_neg hf]

/-- C19 (set selects by exact name). For a registry of fewer than 65536 entries whose names
hold no 0 character, `cliGetSettingIndex(name, length)` is the index of the first entry whose
name has exactly `length` characters and equals the first `length` characters of `name` up to
case, and `valueTableEntryCount` when there is no such entry; an entry whose name is longer or
shorter than `length`, as for an input that is a proper part or a proper extension of the name,
is never the one selected. -/
theorem set_selects_exact_name (valueTable : List clivalue_t) (name : List Nat) (length : Nat)
    (hcount : valueTable.length < 65536)
    (hnames : ∀ e ∈ valueTable, ∀ c ∈ e.name, c ≠ 0) :
    cliGetSettingIndex valueTable name length
      = valueTable.findIdx (fun e => decide (e.name.length = length ∧
          (name.take length).map tolower = e.name.map tolower)) ∧
    ∀ (j : Nat) (hj : j < valueTable.length),
      (valueTable.get ⟨j, hj⟩).name.length ≠ length →
      cliGetSettingIndex valueTable name length ≠ j := by
  have hle : valueTable.findIdx (fun e => decide (e.name.length = length ∧
      (name.take length).map tolower = e.name.map tolower)) ≤ valueTable.length :=
    List.findIdx_le_length _
  have hmain : cliGetSettingIndex valueTable name length
      = valueTable.findIdx (fun e => decide (e.name.length = length ∧
          (name.take length).map tolower = e.name.map tolower)) := by
    unfold cliGetSettingIndex
    rw [cliGetSettingIndex_from_spec valueTable.length name length valueTable 0 hnames]
    split_ifs with hf
    · rw [Nat.zero_add]
      exact Nat.mod_eq_of_lt (by omega)
    · rw [Nat.mod_eq_of_lt hcount]
      omega
  refine ⟨hmain, ?_⟩
  intro j hj hlen hsel
  rw [hmain] at hsel
  have hlt : valueTable.findIdx (fun e => decide (e.name.length = length ∧
      (name.take length).map tolower = e.name.map tolower)) < valueTable.length := by
    rw [hsel]
    exact hj
  have hp := List.findIdx_getElem (w := hlt)
  simp only [decide_eq_true_eq] at hp
  apply hlen
  rw [← hp.1]
  simp only [List.get_eq_getElem, hsel]

/-- C19, at concrete inputs: in the registry `acc`, `ACC_MAX`, `timer` the input `acc_max = 5`
with length 7 selects the entry 1, and the input `acc = 5` with length 3 selects the entry 0
and not the entry `ACC_MAX`, of which it is a proper part. -/
theorem set_selects_exact_name_witness :
    cliGetSettingIndex valueTable_example [97, 99, 99, 95, 109, 97, 120, 32, 61, 32, 53] 7 = 1 ∧
    cliGetSettingIndex valueTable_example [97, 99, 99, 32, 61, 32, 53] 3 ≠ 1 :=
  ⟨(set_selects_exact_name valueTable_example
      [97, 99, 99, 95, 109, 97, 120, 32, 61, 32, 53] 7 (by decide) (by decide)).1.trans
      (by decide),
   (set_selects_exact_name valueTable_example [97, 99, 99, 32, 61, 32, 53] 3
      (by decide) (by decide)).2 1 (by decide) (by decide)⟩

/-! ## Command line: tail indexing of the flight logs -/

/-- C20, the code against the claim. The local `flight_idx` is unsigned, so the test
`flight_idx < 0` for tail indexing never holds: `strtoul` turns the argument `-1` into
4294967295 and `-2` into 4294967294, which exceed the flight counter, and `get_flight_idx`
returns -1. With 3 recorded flights the arguments `-1`, `-2`, `-3` all give -1, where the claim
has 3, 2, 1; the plain argument `3` gives 3. For every flight counter below 4294967295 the
argument `-1` gives -1. -/
theorem tail_index_rejected :
    strtoul [45, 49] = (4294967295, 2) ∧
    strtoul [45, 50] = (4294967294, 2) ∧
    get_flight_idx 3 (some [45, 49]) = -1 ∧
    get_flight_idx 3 (some [45, 50]) = -1 ∧
    get_flight_idx 3 (some [45, 51]) = -1 ∧
    get_flight_idx 3 (some [51]) = 3 ∧
    (∀ flight_counter : Nat, get_flight_idx (flight_counter % 4294967295) (some [45, 49]) = -1) := by
  refine ⟨by decide, by decide, by decide, by decide, by decide, by decide, ?_⟩
  intro flight_counter
  have h : strtoul [45, 49] = (4294967295, 2) := by decide
  have hlt : flight_counter % 4294967295 < 4294967295 := Nat.mod_lt _ (by norm_num)
  simp only [get_flight_idx, h]
  norm_num
  omega

/-! ## Frame decode round trip -/

/-- A non-negative result of the loop of `Parser::getOpCodeIndex` is the index of the opcode in
the table. -/
theorem getOpCodeIndex_from_spec (opCode : Nat) :
    ∀ (rest : List Nat) (i : Nat), 0 ≤ getOpCodeIndex_from opCode rest i →
      ∃ j, getOpCodeIndex_from opCode rest i = ((i + j : Nat) : Int) ∧ rest[j]? = some opCode := by
  intro rest
  induction rest with
  | nil =>
    intro i h
    simp [getOpCodeIndex_from] at h
  | cons c rest ih =>
    intro i h
    rw [getOpCodeIndex_from] at h ⊢
    by_cases hc : opCode = c
    · rw [if_pos hc]
      exact ⟨0, rfl, by simp [hc]⟩
    · rw [if_neg hc] at h ⊢
      obtain ⟨j, h1, h2⟩ := ih (i + 1) h
      refine ⟨j + 1, ?_, by simpa using h2⟩
      rw [h1]
      congr 1
      omega

/-- C21 (frame decode round trip). For every opcode that the opcode check of the parser accepts,
every `len` in 1..16 and every data of `len` bytes: the bytes `op`, `len`, data, CRC-8 fed one
at a time to a parser in state OP with index 0 dispatch exactly one command, with that opcode
(for the ground station: the handler whose table entry is the opcode), exactly those data bytes
and the length `len`, and leave the parser in state OP with index 0. This holds for the receive
loop of the flight computer and for the parser of the ground station. -/
theorem frame_round_trip (cmdIndex : List Nat) (s : RunState) (p : Parser) (op len : Nat)
    (data : List Nat) (hlen : 1 ≤ len ∧ len ≤ 16) (hdata : data.length = len) :
    (CheckValidOpCode op = true → s.state = STATE_OP → s.uart_index = 0 →
        s.uart_buffer.length = 20 →
      (Run_bytes s (frame op len data)).parsed
        = s.parsed ++ [{ op_code := op, buffer := data, length := len }] ∧
      (Run_bytes s (frame op len data)).state = STATE_OP ∧
      (Run_bytes s (frame op len data)).uart_index = 0) ∧
    (0 ≤ getOpCodeIndex cmdIndex op → p.state = STATE_OP → p.dataIndex = 0 →
        18 ≤ p.buffer.length →
      (Parser.process_bytes cmdIndex p (frame op len data)).commands
        = p.commands ++
          [{ opCodeIndex := getOpCodeIndex cmdIndex op, args := data, length := len }] ∧
      cmdIndex[(getOpCodeIndex cmdIndex op).toNat]? = some op ∧
      (Parser.process_bytes cmdIndex p (frame op len data)).state = STATE_OP ∧
      (Parser.process_bytes cmdIndex p (frame op len data)).dataIndex = 0) := by
  constructor
  · intro hop hst hidx hlen20
    unfold frame
    rw [Run_bytes_frame s op len _ data hst hidx hlen20 hop hlen.2 hdata]
    simp
  · intro hop hst hidx hlen18
    unfold frame
    rw [process_bytes_frame cmdIndex p op len _ data hst hidx hlen18 hop hlen.2 hdata]
    refine ⟨by simp, ?_, rfl, rfl⟩
    obtain ⟨j, h1, h2⟩ := getOpCodeIndex_from_spec op cmdIndex 0 hop
    unfold getOpCodeIndex
    rw [h1]
    simpa using h2

/-- C21, at a concrete input: the frame `0x31, 2, [7, 9], crc` is dispatched once by the receive
loop of the flight computer, started on a zeroed buffer. -/
theorem frame_round_trip_witness :
    (Run_bytes (Run_init (List.replicate 20 0)) (frame CMD_RX 2 [7, 9])).parsed
      = [{ op_code := CMD_RX, buffer := [7, 9], length := 2 }] ∧
    (Run_bytes (Run_init (List.replicate 20 0)) (frame CMD_RX 2 [7, 9])).state = STATE_OP ∧
    (Run_bytes (Run_init (List.replicate 20 0)) (frame CMD_RX 2 [7, 9])).uart_index = 0 :=
  (frame_round_trip [] (Run_init (List.replicate 20 0))
    { buffer := [], dataIndex := 0, state := STATE_OP, opCodeIndex := 0, commands := [] }
    CMD_RX 2 [7, 9] (by decide) rfl).1 (by decide) rfl rfl rfl

/-! ## Bounds of the frame parsers -/

theorem len_minus_index_of_le (len index : Nat) (h : index ≤ len) (hlen : len ≤ 16) :
    len_minus_index len index = len - index := by
  unfold len_minus_index
  omega

theorem getD_set_ne (l : List Nat) (i j v : Nat) (h : i ≠ j) :
    (l.set i v).getD j 0 = l.getD j 0 := by
  simp [List.getD_eq_getElem?_getD, List.getElem?_set, h]

theorem getD_set_eq (l : List Nat) (i v : Nat) (h : i < l.length) :
    (l.set i v).getD i 0 = v := by
  simp [List.getD_eq_getElem?_getD, List.getElem?_set, h]

/-- One received byte keeps the relation `Run_bounds`, and a stored length byte of at most 16
stays at most 16. -/
theorem Run_byte_bounds (s : RunState) (ch : Nat) (h : Run_bounds s) :
    Run_bounds (Run_byte s ch) ∧
    (s.uart_buffer.getD INDEX_LEN 0 ≤ 16 → (Run_byte s ch).uart_buffer.getD INDEX_LEN 0 ≤ 16) := by
  obtain ⟨hl, hm⟩ := h
  unfold Run_bounds Run_byte
  cases hst : s.state with
  | STATE_OP =>
    rw [hst] at hm
    simp only at hm ⊢
    by_cases hv : CheckValidOpCode ch = true
    · simp only [hv, if_true, List.length_set]
      exact ⟨⟨hl, hm⟩, fun h1 => by rw [getD_set_ne _ _ _ _ (by decide)]; exact h1⟩
    · simp only [hv, if_false, hst]
      exact ⟨⟨hl, hm⟩, fun h1 => h1⟩
  | STATE_LEN =>
    rw [hst] at hm
    simp only at hm ⊢
    by_cases h16 : ch ≤ 16
    · have hget : (s.uart_buffer.set INDEX_LEN ch).getD INDEX_LEN 0 = ch :=
        getD_set_eq _ _ _ (by rw [hl]; decide)
      by_cases h0 : ch > 0
      · simp only [h16, h0, if_true, List.length_set, hget]
        exact ⟨⟨hl, trivial, by omega⟩, fun _ => trivial⟩
      · simp only [h16, h0, if_true, if_false, List.length_set, hget]
        exact ⟨⟨hl, trivial, by omega⟩, fun _ => trivial⟩
    · simp only [h16, if_false, hst]
      exact ⟨⟨hl, hm⟩, fun h1 => h1⟩
  | STATE_DATA =>
    rw [hst] at hm
    simp only at hm ⊢
    obtain ⟨h16, hlt⟩ := hm
    have hpos : len_minus_index (s.uart_buffer.getD 1 0) s.uart_index > 0 := by
      have e := len_minus_index_of_le (s.uart_buffer.getD 1 0) s.uart_index
        (Nat.le_of_lt hlt) h16
      rw [e]
      exact Nat.sub_pos_of_lt hlt
    have hkeep : (s.uart_buffer.set (s.uart_index + 2) ch).getD INDEX_LEN 0
        = s.uart_buffer.getD INDEX_LEN 0 :=
      getD_set_ne _ _ _ _ (by unfold INDEX_LEN; omega)
    have hmod : (s.uart_index + 1) % 4294967296 = s.uart_index + 1 := by
      have : s.uart_index < 16 := lt_of_lt_of_le hlt h16
      omega
    simp only [hpos, if_true, hkeep, hmod]
    have e2 := len_minus_index_of_le (s.uart_buffer.getD INDEX_LEN 0) (s.uart_index + 1) hlt h16
    rw [e2]
    by_cases hz : s.uart_buffer.getD INDEX_LEN 0 - (s.uart_index + 1) = 0
    · simp only [hz, if_true, List.length_set, hkeep]
      exact ⟨⟨hl, h16, by have := hlt; omega⟩, fun h1 => h1⟩
    · simp only [hz, if_false, List.length_set, hkeep, hst]
      exact ⟨⟨hl, h16, by have := hlt; omega⟩, fun h1 => h1⟩
  | STATE_CRC =>
    simp only
    refine ⟨⟨?_, trivial⟩, fun h1 => ?_⟩
    · split_ifs <;> exact hl
    · split_ifs <;> exact h1

/-- One byte handed to `Parser::process` keeps the relation `Parser.bounds`, and a stored length
byte of at most 16 stays at most 16. -/
theorem process_bounds (cmdIndex : List Nat) (n : Nat) (p : Parser) (ch : Nat) (hn : 2 ≤ n)
    (h : Parser.bounds n p) :
    Parser.bounds n (Parser.process cmdIndex p ch) ∧
    (p.buffer.getD INDEX_LEN 0 ≤ 16 →
      (Parser.process cmdIndex p ch).buffer.getD INDEX_LEN 0 ≤ 16) := by
  obtain ⟨hl, hm⟩ := h
  unfold Parser.bounds Parser.process
  cases hst : p.state with
  | STATE_OP =>
    rw [hst] at hm
    simp only at hm ⊢
    by_cases hv : getOpCodeIndex cmdIndex ch ≥ 0
    · simp only [hv, if_true, List.length_set]
      exact ⟨⟨hl, hm⟩, fun h1 => by rw [getD_set_ne _ _ _ _ (by decide)]; exact h1⟩
    · simp only [hv, if_false, hst]
      exact ⟨⟨hl, hm⟩, fun h1 => h1⟩
  | STATE_LEN =>
    rw [hst] at hm
    simp only at hm ⊢
    by_cases h16 : ch ≤ 16
    · have hget : (p.buffer.set INDEX_LEN ch).getD INDEX_LEN 0 = ch :=
        getD_set_eq _ _ _ (by rw [hl]; unfold INDEX_LEN; omega)
      by_cases h0 : ch > 0
      · simp only [h16, h0, if_true, List.length_set, hget]
        exact ⟨⟨hl, trivial, by omega⟩, fun _ => trivial⟩
      · simp only [h16, h0, if_true, if_false, List.length_set, hget]
        exact ⟨⟨hl, trivial, by omega⟩, fun _ => trivial⟩
    · simp only [h16, if_false, hst]
      exact ⟨⟨hl, hm⟩, fun h1 => h1⟩
  | STATE_DATA =>
    rw [hst] at hm
    simp only at hm ⊢
    obtain ⟨h16, hlt⟩ := hm
    have hpos : len_minus_index (p.buffer.getD INDEX_LEN 0) p.dataIndex > 0 := by
      have e := len_minus_index_of_le (p.buffer.getD INDEX_LEN 0) p.dataIndex
        (Nat.le_of_lt hlt) h16
      rw [e]
      exact Nat.sub_pos_of_lt hlt
    have hkeep : (p.buffer.set (p.dataIndex + 2) ch).getD INDEX_LEN 0
        = p.buffer.getD INDEX_LEN 0 :=
      getD_set_ne _ _ _ _ (by unfold INDEX_LEN; omega)
    have hmod : (p.dataIndex + 1) % 4294967296 = p.dataIndex + 1 := by
      have : p.dataIndex < 16 := lt_of_lt_of_le hlt h16
      omega
    simp only [hpos, if_true, hkeep, hmod]
    have e2 := len_minus_index_of_le (p.buffer.getD INDEX_LEN 0) (p.dataIndex + 1) hlt h16
    rw [e2]
    by_cases hz : p.buffer.getD INDEX_LEN 0 - (p.dataIndex + 1) = 0
    · simp only [hz, if_true, List.length_set, hkeep]
      exact ⟨⟨hl, h16, by have := hlt; omega⟩, fun h1 => h1⟩
    · simp only [hz, if_false, List.length_set, hkeep, hst]
      exact ⟨⟨hl, h16, by have := hlt; omega⟩, fun h1 => h1⟩
  | STATE_CRC =>
    simp only
    refine ⟨⟨?_, ?_⟩, fun h1 => ?_⟩
    · split_ifs <;> exact hl
    · split_ifs <;> rfl
    · split_ifs <;> exact h1

theorem Run_bytes_bounds (bytes : List Nat) :
    ∀ s : RunState, Run_bounds s →
      Run_bounds (Run_bytes s bytes) ∧
      (s.uart_buffer.getD INDEX_LEN 0 ≤ 16 →
        (Run_bytes s bytes).uart_buffer.getD INDEX_LEN 0 ≤ 16) := by
  induction bytes with
  | nil => intro s h; exact ⟨h, fun h1 => h1⟩
  | cons b bs ih =>
    intro s h
    rw [Run_bytes_cons]
    obtain ⟨h1, h2⟩ := Run_byte_bounds s b h
    obtain ⟨h3, h4⟩ := ih (Run_byte s b) h1
    exact ⟨h3, fun h5 => h4 (h2 h5)⟩

theorem process_bytes_bounds (cmdIndex : List Nat) (n : Nat) (hn : 2 ≤ n) (bytes : List Nat) :
    ∀ p : Parser, Parser.bounds n p →
      Parser.bounds n (Parser.process_bytes cmdIndex p bytes) ∧
      (p.buffer.getD INDEX_LEN 0 ≤ 16 →
        (Parser.process_bytes cmdIndex p bytes).buffer.getD INDEX_LEN 0 ≤ 16) := by
  induction bytes with
  | nil => intro p h; exact ⟨h, fun h1 => h1⟩
  | cons b bs ih =>
    intro p h
    rw [process_bytes_cons]
    obtain ⟨h1, h2⟩ := process_bounds cmdIndex n p b hn h
    obtain ⟨h3, h4⟩ := ih (Parser.process cmdIndex p b) h1
    exact ⟨h3, fun h5 => h4 (h2 h5)⟩

theorem Run_bounds_cases (s : RunState) (h : Run_bounds s) :
    s.uart_buffer.length = 20 ∧
    (s.state = STATE_OP ∨ s.state = STATE_LEN → s.uart_index = 0) ∧
    (s.state = STATE_DATA →
      s.uart_buffer.getD INDEX_LEN 0 ≤ 16 ∧ s.uart_index < s.uart_buffer.getD INDEX_LEN 0 ∧
      s.uart_index + 2 ≤ 17) ∧
    (s.state = STATE_CRC →
      s.uart_buffer.getD INDEX_LEN 0 ≤ 16 ∧ s.uart_index = s.uart_buffer.getD INDEX_LEN 0 ∧
      s.uart_index + 2 ≤ 18) ∧
    (s.uart_buffer.getD INDEX_LEN 0 ≤ 16 → s.uart_index ≤ s.uart_buffer.getD INDEX_LEN 0) := by
  obtain ⟨hl, hm⟩ := h
  cases hst : s.state <;> rw [hst] at hm <;> simp only at hm <;>
    refine ⟨hl, ?_, ?_, ?_, ?_⟩ <;> intro h1 <;> simp at h1 <;> omega

theorem Parser_bounds_cases (n : Nat) (p : Parser) (h : Parser.bounds n p) :
    p.buffer.length = n ∧
    (p.state = STATE_OP ∨ p.state = STATE_LEN → p.dataIndex = 0) ∧
    (p.state = STATE_DATA →
      p.buffer.getD INDEX_LEN 0 ≤ 16 ∧ p.dataIndex < p.buffer.getD INDEX_LEN 0 ∧
      p.dataIndex + 2 ≤ 17) ∧
    (p.state = STATE_CRC →
      p.buffer.getD INDEX_LEN 0 ≤ 16 ∧ p.dataIndex = p.buffer.getD INDEX_LEN 0 ∧
      p.dataIndex + 2 ≤ 18) ∧
    (p.buffer.getD INDEX_LEN 0 ≤ 16 → p.dataIndex ≤ p.buffer.getD INDEX_LEN 0) := by
  obtain ⟨hl, hm⟩ := h
  cases hst : p.state <;> rw [hst] at hm <;> simp only at hm <;>
    refine ⟨hl, ?_, ?_, ?_, ?_⟩ <;> intro h1 <;> simp at h1 <;> omega

/-- C24 as stated fails for the receive loop of the flight computer, whose buffer is an
uninitialised local array: started in state OP with index 0 on a buffer that holds the byte 255
at the length position, the state reached by the opcode byte 0x31 is LEN and the length byte in
the buffer is still 255, above 16. -/
theorem parser_bounds_counterexample :
    (Run_bytes (Run_init (List.replicate 20 255)) [CMD_RX]).state = STATE_LEN ∧
    (Run_bytes (Run_init (List.replicate 20 255)) [CMD_RX]).uart_buffer.getD INDEX_LEN 0 = 255 ∧
    ¬ (Run_bytes (Run_init (List.replicate 20 255)) [CMD_RX]).uart_buffer.getD INDEX_LEN 0
        ≤ 16 := by
  decide

/-- C24 (parser buffer invariant), as the code has it. In every state reached from state OP
with index 0 by any byte sequence, for the receive loop of the flight computer (buffer of 20
bytes) and for the parser of the ground station (buffer of at least 18 bytes): the index is 0 in
the states OP and LEN; in state DATA the length byte in the buffer is at most 16 and the index
is below it, so the data write at `index + 2` is at an index of at most 17, inside the buffer;
in state CRC the length byte is at most 16 and the index equals it, so the CRC is computed over
`index + 2`, at most 18, bytes. If the length byte in the buffer is at most 16 at the start,
then in every state reached it is at most 16 and the index is at most the length byte; and
once a length byte has been accepted, that is from a state DATA or CRC on, the length byte in
the buffer is at most 16 and the index is at most the length byte in every later state. -/
theorem parser_buffer_bounds (cmdIndex : List Nat) (uart_buffer : List Nat) (p : Parser)
    (bytes : List Nat) (hbuf : uart_buffer.length = 20)
    (hst : p.state = STATE_OP) (hidx : p.dataIndex = 0) (hpl : 18 ≤ p.buffer.length) :
    ((Run_bytes (Run_init uart_buffer) bytes).uart_buffer.length = 20 ∧
      ((Run_bytes (Run_init uart_buffer) bytes).state = STATE_OP ∨
        (Run_bytes (Run_init uart_buffer) bytes).state = STATE_LEN →
        (Run_bytes (Run_init uart_buffer) bytes).uart_index = 0) ∧
      ((Run_bytes (Run_init uart_buffer) bytes).state = STATE_DATA →
        (Run_bytes (Run_init uart_buffer) bytes).uart_buffer.getD INDEX_LEN 0 ≤ 16 ∧
        (Run_bytes (Run_init uart_buffer) bytes).uart_index
          < (Run_bytes (Run_init uart_buffer) bytes).uart_buffer.getD INDEX_LEN 0 ∧
        (Run_bytes (Run_init uart_buffer) bytes).uart_index + 2 ≤ 17) ∧
      ((Run_bytes (Run_init uart_buffer) bytes).state = STATE_CRC →
        (Run_bytes (Run_init uart_buffer) bytes).uart_buffer.getD INDEX_LEN 0 ≤ 16 ∧
        (Run_bytes (Run_init uart_buffer) bytes).uart_index
          = (Run_bytes (Run_init uart_buffer) bytes).uart_buffer.getD INDEX_LEN 0 ∧
        (Run_bytes (Run_init uart_buffer) bytes).uart_index + 2 ≤ 18) ∧
      (uart_buffer.getD INDEX_LEN 0 ≤ 16 →
        (Run_bytes (Run_init uart_buffer) bytes).uart_buffer.getD INDEX_LEN 0 ≤ 16 ∧
        (Run_bytes (Run_init uart_buffer) bytes).uart_index
          ≤ (Run_bytes (Run_init uart_buffer) bytes).uart_buffer.getD INDEX_LEN 0)) ∧
    ((Parser.process_bytes cmdIndex p bytes).buffer.length = p.buffer.length ∧
      ((Parser.process_bytes cmdIndex p bytes).state = STATE_OP ∨
        (Parser.process_bytes cmdIndex p bytes).state = STATE_LEN →
        (Parser.process_bytes cmdIndex p bytes).dataIndex = 0) ∧
      ((Parser.process_bytes cmdIndex p bytes).state = STATE_DATA →
        (Parser.process_bytes cmdIndex p bytes).buffer.getD INDEX_LEN 0 ≤ 16 ∧
        (Parser.process_bytes cmdIndex p bytes).dataIndex
          < (Parser.process_bytes cmdIndex p bytes).buffer.getD INDEX_LEN 0 ∧
        (Parser.process_bytes cmdIndex p bytes).dataIndex + 2 ≤ 17) ∧
      ((Parser.process_bytes cmdIndex p bytes).state = STATE_CRC →
        (Parser.process_bytes cmdIndex p bytes).buffer.getD INDEX_LEN 0 ≤ 16 ∧
        (Parser.process_bytes cmdIndex p bytes).dataIndex
          = (Parser.process_bytes cmdIndex p bytes).buffer.getD INDEX_LEN 0 ∧
        (Parser.process_bytes cmdIndex p bytes).dataIndex + 2 ≤ 18) ∧
      (p.buffer.getD INDEX_LEN 0 ≤ 16 →
        (Parser.process_bytes cmdIndex p bytes).buffer.getD INDEX_LEN 0 ≤ 16 ∧
        (Parser.process_bytes cmdIndex p bytes).dataIndex
          ≤ (Parser.process_bytes cmdIndex p bytes).buffer.getD INDEX_LEN 0)) ∧
    (∀ earlier later : List Nat, bytes = earlier ++ later →
      ((Run_bytes (Run_init uart_buffer) earlier).state = STATE_DATA ∨
          (Run_bytes (Run_init uart_buffer) earlier).state = STATE_CRC →
        (Run_bytes (Run_init uart_buffer) bytes).uart_buffer.getD INDEX_LEN 0 ≤ 16 ∧
        (Run_bytes (Run_init uart_buffer) bytes).uart_index
          ≤ (Run_bytes (Run_init uart_buffer) bytes).uart_buffer.getD INDEX_LEN 0) ∧
      ((Parser.process_bytes cmdIndex p earlier).state = STATE_DATA ∨
          (Parser.process_bytes cmdIndex p earlier).state = STATE_CRC →
        (Parser.process_bytes cmdIndex p bytes).buffer.getD INDEX_LEN 0 ≤ 16 ∧
        (Parser.process_bytes cmdIndex p bytes).dataIndex
          ≤ (Parser.process_bytes cmdIndex p bytes).buffer.getD INDEX_LEN 0)) := by
  have h0 : Run_bounds (Run_init uart_buffer) := ⟨hbuf, rfl⟩
  have hp0 : Parser.bounds p.buffer.length p := by
    refine ⟨rfl, ?_⟩
    rw [hst]
    exact hidx
  obtain ⟨h1, h2⟩ := Run_bytes_bounds bytes (Run_init uart_buffer) h0
  obtain ⟨h3, h4⟩ := process_bytes_bounds cmdIndex p.buffer.length (by omega) bytes p hp0
  obtain ⟨a1, a2, a3, a4, a5⟩ := Run_bounds_cases _ h1
  obtain ⟨b1, b2, b3, b4, b5⟩ := Parser_bounds_cases _ _ h3
  refine ⟨⟨a1, a2, a3, a4, fun h => ⟨h2 h, a5 (h2 h)⟩⟩,
    ⟨b1, b2, b3, b4, fun h => ⟨h4 h, b5 (h4 h)⟩⟩, ?_⟩
  intro earlier later hsplit
  subst hsplit
  constructor
  · intro hmid
    obtain ⟨m1, _⟩ := Run_bytes_bounds earlier (Run_init uart_buffer) h0
    obtain ⟨_, _, c3, c4, _⟩ := Run_bounds_cases _ m1
    have hlen : (Run_bytes (Run_init uart_buffer) earlier).uart_buffer.getD INDEX_LEN 0 ≤ 16 := by
      rcases hmid with hd | hc
      · exact (c3 hd).1
      · exact (c4 hc).1
    rw [Run_bytes_append]
    obtain ⟨n1, n2⟩ := Run_bytes_bounds later _ m1
    obtain ⟨_, _, _, _, d5⟩ := Run_bounds_cases _ n1
    exact ⟨n2 hlen, d5 (n2 hlen)⟩
  · intro hmid
    obtain ⟨m1, _⟩ := process_bytes_bounds cmdIndex p.buffer.length (by omega) earlier p hp0
    obtain ⟨_, _, c3, c4, _⟩ := Parser_bounds_cases _ _ m1
    have hlen : (Parser.process_bytes cmdIndex p earlier).buffer.getD INDEX_LEN 0 ≤ 16 := by
      rcases hmid with hd | hc
      · exact (c3 hd).1
      · exact (c4 hc).1
    rw [process_bytes_append]
    obtain ⟨n1, n2⟩ := process_bytes_bounds cmdIndex p.buffer.length (by omega) later _ m1
    obtain ⟨_, _, _, _, d5⟩ := Parser_bounds_cases _ _ n1
    exact ⟨n2 hlen, d5 (n2 hlen)⟩

/-- C24, at a concrete input: after an opcode, the length 3 and two data bytes the receive loop
is in state DATA with index 2, and the next data byte is written at index 4. -/
theorem parser_buffer_bounds_witness :
    (Run_bytes (Run_init (List.replicate 20 255)) [CMD_RX, 3, 7, 9]).uart_buffer.getD INDEX_LEN 0
        ≤ 16 ∧
    (Run_bytes (Run_init (List.replicate 20 255)) [CMD_RX, 3, 7, 9]).uart_index
      < (Run_bytes (Run_init (List.replicate 20 255)) [CMD_RX, 3, 7, 9]).uart_buffer.getD
          INDEX_LEN 0 ∧
    (Run_bytes (Run_init (List.replicate 20 255)) [CMD_RX, 3, 7, 9]).uart_index + 2 ≤ 17 :=
  (parser_buffer_bounds [] (List.replicate 20 255)
    { buffer := List.replicate 20 0, dataIndex := 0, state := STATE_OP, opCodeIndex := 0,
      commands := [] }
    [CMD_RX, 3, 7, 9] rfl rfl rfl (by decide)).1.2.2.1 (by decide)

/-! ## Logged covariance -/

/-- C22, the code against the claim. The `COVARIANCE_INFO` record is built from the elements 1
and 5 of the covariance data, which are the entries `P[0][1]` and `P[1][2]` of the 3x3 matrix,
not the diagonal entries `P[0][0]` and `P[1][1]` (elements 0 and 4). For the matrix with rows
10 1 2, 1 20 3, 2 3 30 the record holds 1 and 3 where the diagonal has 10 and 20. -/
theorem covariance_off_diagonal :
    (∀ (F : Type) (ts : Nat) (pData : Nat → F),
      (cov_info ts pData).height_cov = spec_P pData 0 1 ∧
      (cov_info ts pData).velocity_cov = spec_P pData 1 2) ∧
    (cov_info 0 P_bar_example).height_cov = 1 ∧
    (cov_info 0 P_bar_example).velocity_cov = 3 ∧
    spec_P P_bar_example 0 0 = 10 ∧
    spec_P P_bar_example 1 1 = 20 := by
  refine ⟨fun F ts pData => ⟨rfl, rfl⟩, ?_, ?_, ?_, ?_⟩ <;> decide

/-! ## The copy of the RX payload -/

/-- C25, the code against the claim. The receive loop of the flight computer accepts the
well-formed frame with opcode RX, length 16 and 16 data bytes, and calls `Parse` with the length
16; `Parse` then copies 16 bytes into the local `packed_tx_msg_t`, which has 15 bytes. For every
length from 1 on the number of bytes copied is the length of the frame. -/
theorem rx_copy_exceeds_payload :
    (Run_bytes (Run_init (List.replicate 20 0)) (frame CMD_RX 16 (List.replicate 16 0))).parsed
      = [{ op_code := CMD_RX, buffer := List.replicate 16 0, length := 16 }] ∧
    Parse_memcpy CMD_RX 16 = [{ dest_size := 15, n := 16 }] ∧
    (∀ length : Nat, Parse_memcpy CMD_RX (length + 1)
      = [{ dest_size := sizeof_packed_tx_msg_t, n := length + 1 }]) := by
  refine ⟨?_, by decide, ?_⟩
  · unfold frame
    rw [Run_bytes_frame (Run_init (List.replicate 20 0)) CMD_RX 16 _ (List.replicate 16 0)
      rfl rfl rfl (by decide) (by decide) rfl]
    simp [Run_init]
  · intro length
    unfold Parse_memcpy
    rw [if_neg (by omega), if_pos rfl]

/-! ## The IMU sample of the flight FSM -/

/-- C27, the code against the claim. The loop of `task_flight_fsm` reads `global_imu[i + 1]`
for the first non-faulty channel `i`, not `global_imu[i]`: with no faulty channel and the
samples 10, 20, 30 the sample used is 20, that of channel 1; with only channel 2 non-faulty the
read is at index 3, outside the array of 3 samples. With all channels faulty the previous sample
is kept. -/
theorem fsm_imu_off_by_one :
    select_imu (fun _ => 0) [10, 20, 30] 7 = some 20 ∧
    select_imu (fun i => if i = 0 then 1 else 0) [10, 20, 30] 7 = some 30 ∧
    select_imu (fun i => if i = 2 then 0 else 1) [10, 20, 30] 7 = none ∧
    select_imu (fun _ => 1) [10, 20, 30] 7 = some 7 := by
  refine ⟨?_, ?_, ?_, ?_⟩ <;> decide

/-! ## USB log names -/

/-- C28, the code against the claim. The numbers passed to `emfat_add_log` count from 1: for a
total of 100 accepted log files (100 flight logs, or 50 flight logs and 50 stats logs, or 100
logs in the firmware) the last call has the number 100, which is `EMFAT_MAX_LOG_ENTRY`, one past
the last row of `logNames`. -/
theorem log_name_index_reaches_max :
    (100 : Int) ∈ emfat_find_logs 100 0 true true ∧
    (100 : Int) ∈ emfat_find_logs 50 50 true true ∧
    (100 : Int) ∈ emfat_find_logs_firmware 100 true ∧
    emfat_find_logs 2 1 true true = [1, 2, 3] ∧
    emfat_find_logs_firmware 3 true = [1, 2, 3] ∧
    ¬ ((100 : Int) < EMFAT_MAX_LOG_ENTRY) := by
  refine ⟨?_, ?_, ?_, ?_, ?_, ?_⟩ <;> decide

/-! ## Recorder information -/

/-- C29, the code against the claim. The percentage that `cli_cmd_rec_info` prints is the used
size divided by 100 times the total size: with 50 of 100 blocks of 4 KB in use it prints
200 / 40000 = 1/200 for `Used` and 100 - 1/200 for `Free`, where the true percentages are 50
and 50. -/
theorem rec_info_percentage :
    (cli_cmd_rec_info 50 4096 100).used_kb = 200 ∧
    (cli_cmd_rec_info 50 4096 100).total_kb = 400 ∧
    (cli_cmd_rec_info 50 4096 100).used_percentage = 1 / 200 ∧
    (cli_cmd_rec_info 50 4096 100).free_percentage = 100 - 1 / 200 ∧
    (100 * 200 / 400 : ℚ) = 50 := by
  refine ⟨by decide, by decide, ?_, ?_, by norm_num⟩
  · norm_num [cli_cmd_rec_info, sign_extend]
  · norm_num [cli_cmd_rec_info, sign_extend]

/-! ## Simulator noise -/

/-- C30, the code against the claim. `rand_bounds` subtracts the lower bound from the remainder
where it has to add it: `rand_bounds(-10, 10)` is the remainder plus 10, so for every value of
`rand()` it is at least 10, outside `[-10, 10)`; for `rand() = 0` it is 10 and for
`rand() = 19` it is 29. -/
theorem rand_bounds_out_of_range :
    rand_bounds 0 (-10) 10 = 10 ∧
    rand_bounds 19 (-10) 10 = 29 ∧
    (∀ rand : Nat, 10 ≤ rand_bounds rand (-10) 10 ∧ rand_bounds rand (-10) 10 < 30) ∧
    (∀ rand : Nat, 25 ≤ rand_bounds rand (-25) 25) := by
  refine ⟨by decide, by decide, ?_, ?_⟩
  · intro rand
    unfold rand_bounds
    have h : Int.tmod (rand : Int) (10 - (-10)) = ((rand % 20 : Nat) : Int) := by
      rw [Int.tmod_eq_emod (by omega) (by norm_num)]
      norm_num
    rw [h]
    omega
  · intro rand
    unfold rand_bounds
    have h : Int.tmod (rand : Int) (25 - (-25)) = ((rand % 50 : Nat) : Int) := by
      rw [Int.tmod_eq_emod (by omega) (by norm_num)]
      norm_num
    rw [h]
    omega

/-! ## Command line: the input line -/

theorem replicate_set_fill (n m a : Nat) :
    (List.replicate n a ++ List.replicate (m + 1) 0).set n a
      = List.replicate (n + 1) a ++ List.replicate m 0 := by
  rw [List.set_append_right _ _ (by simp), List.length_replicate, Nat.sub_self,
    List.replicate_succ, List.set_cons_zero, List.replicate_succ', List.append_assoc]
  rfl

/-- One more letter `a` typed into a buffer that holds `n` of them. -/
theorem processCharacter_fill (size : Nat) (after : List Nat) (n : Nat) (w : List Nat)
    (hn : n < size) (hs : size < 4294967296) :
    processCharacter size after
        { cliBuffer := List.replicate n 97 ++ List.replicate (size - n) 0, bufferIndex := n,
          writes := w, lines := [] } 97
      = { cliBuffer := List.replicate (n + 1) 97 ++ List.replicate (size - (n + 1)) 0,
          bufferIndex := n + 1, writes := w ++ [n], lines := [] } := by
  have e : size - n = (size - (n + 1)) + 1 := by omega
  have hmod : (n + 1) % 4294967296 = n + 1 := Nat.mod_eq_of_lt (by omega)
  unfold processCharacter
  simp only [e, replicate_set_fill, hmod]
  simp [hn]

/-- The letter `a` typed `n` times into the empty buffer. -/
theorem processCharacters_fill (size : Nat) (after : List Nat) (hs : size < 4294967296) :
    ∀ n, n ≤ size →
      processCharacters size after (cli_init size) (List.replicate n 97)
        = { cliBuffer := List.replicate n 97 ++ List.replicate (size - n) 0, bufferIndex := n,
            writes := List.range n, lines := [] } := by
  intro n
  induction n with
  | zero =>
    intro _
    simp [processCharacters, cli_init]
  | succ n ih =>
    intro hn
    have ih' := ih (by omega)
    unfold processCharacters at ih' ⊢
    rw [List.replicate_succ' n 97, List.foldl_append, ih']
    simp only [List.foldl_cons, List.foldl_nil]
    rw [processCharacter_fill size after n _ (by omega) hs, List.range_succ,
      List.replicate_succ' n 97]

theorem strchr_from_ge (c : Nat) :
    ∀ (l : List Nat) (i q : Nat), strchr_from c l i = some q → i ≤ q := by
  intro l
  induction l with
  | nil => intro i q h; simp [strchr_from] at h
  | cons b rest ih =>
    intro i q h
    rw [strchr_from] at h
    split_ifs at h with h1 h2
    · simp at h; omega
    · have := ih (i + 1) q h
      omega

theorem strchr_from_replicate (after : List Nat) :
    ∀ (n i : Nat), strchr_from 35 (List.replicate n 97 ++ after) i
      = strchr_from 35 after (i + n) := by
  intro n
  induction n with
  | zero => intro i; simp
  | succ n ih =>
    intro i
    rw [List.replicate_succ, List.cons_append, strchr_from, if_neg (by decide),
      if_neg (by decide), ih]
    congr 1
    omega

theorem strip_trailing_ge (mem : List Nat) (size : Nat) (hs : 0 < size)
    (hlast : mem.getD (size - 1) 0 ≠ 32) :
    ∀ k, size ≤ k → size ≤ strip_trailing mem k := by
  intro k
  induction k with
  | zero => intro h; omega
  | succ k ih =>
    intro h
    rw [strip_trailing]
    by_cases h32 : mem.getD k 0 = 32
    · rw [if_pos h32]
      by_cases hk : size ≤ k
      · exact ih hk
      · exfalso
        have : k = size - 1 := by omega
        rw [this] at h32
        exact hlast h32
    · rw [if_neg h32]
      exact h

/-- Enter on a buffer that is full of the letter `a`: the terminating 0 is written at the
buffer size or behind it. -/
theorem processCharacter_enter_full (size : Nat) (after w : List Nat) (hs : 0 < size) :
    ∃ k, size ≤ k ∧
      (processCharacter size after
        { cliBuffer := List.replicate size 97, bufferIndex := size, writes := w, lines := [] }
        10).writes = w ++ [k] := by
  have hlast : (List.replicate size 97 ++ after).getD (size - 1) 0 ≠ 32 := by
    rw [List.getD_eq_getElem?_getD, List.getElem?_append_left (by simp; omega)]
    simp [List.getElem?_replicate, hs]
  have hidx : size ≤ (match strchr_from 35 (List.replicate size 97 ++ after) 0 with
      | some q => q
      | none => size) := by
    rw [strchr_from_replicate, Nat.zero_add]
    cases hq : strchr_from 35 after size with
    | none => exact le_refl _
    | some q => exact strchr_from_ge 35 after _ q hq
  have hk := strip_trailing_ge _ size hs hlast _ hidx
  refine ⟨_, hk, ?_⟩
  unfold processCharacter
  have hc : size ≠ 0 ∧ ((10 : Nat) = 10 ∨ (10 : Nat) = 13) := ⟨by omega, Or.inl rfl⟩
  dsimp only
  rw [if_pos hc]
  exact if_pos (lt_of_lt_of_le hs hk)

/-- C26, the code against the claim. After as many printable characters as the buffer has
places (128 in rev1Pro, 256 in rev1) the index equals the buffer size, and Enter then writes
the terminating 0 at `cliBuffer[bufferIndex]`, an index that is not below the buffer size,
whatever the memory behind the buffer holds; with nothing found behind the buffer the index of
that write is exactly 128. -/
theorem cli_terminator_out_of_bounds :
    (∀ after : List Nat, ∃ k, CLI_IN_BUFFER_SIZE ≤ k ∧
      (processCharacters CLI_IN_BUFFER_SIZE after (cli_init CLI_IN_BUFFER_SIZE)
        (List.replicate 128 97 ++ [10])).writes = List.range 128 ++ [k]) ∧
    (∀ after : List Nat, ∃ k, 256 ≤ k ∧
      (processCharacters 256 after (cli_init 256) (List.replicate 256 97 ++ [10])).writes
        = List.range 256 ++ [k]) ∧
    (processCharacters CLI_IN_BUFFER_SIZE [] (cli_init CLI_IN_BUFFER_SIZE)
      (List.replicate 128 97 ++ [10])).writes = List.range 128 ++ [128] := by
  have hgen : ∀ (size : Nat) (after : List Nat), 0 < size → size < 4294967296 →
      processCharacters size after (cli_init size) (List.replicate size 97 ++ [10])
        = processCharacter size after
            { cliBuffer := List.replicate size 97, bufferIndex := size,
              writes := List.range size, lines := [] } 10 := by
    intro size after h0 hs
    have hfill := processCharacters_fill size after hs size (le_refl _)
    unfold processCharacters at hfill ⊢
    rw [List.foldl_append, hfill, Nat.sub_self, List.replicate_zero, List.append_nil]
    rfl
  refine ⟨?_, ?_, ?_⟩
  · intro after
    show ∃ k, 128 ≤ k ∧ (processCharacters 128 after (cli_init 128)
      (List.replicate 128 97 ++ [10])).writes = List.range 128 ++ [k]
    rw [hgen 128 after (by decide) (by decide)]
    exact processCharacter_enter_full 128 after _ (by decide)
  · intro after
    rw [hgen 256 after (by decide) (by decide)]
    exact processCharacter_enter_full 256 after _ (by decide)
  · show (processCharacters 128 [] (cli_init 128) (List.replicate 128 97 ++ [10])).writes
      = List.range 128 ++ [128]
    rw [hgen 128 [] (by decide) (by decide)]
    unfold processCharacter
    dsimp only
    have h1 : strchr_from 35 (List.replicate 128 97 ++ []) 0 = none := by
      rw [strchr_from_replicate]
      rfl
    have h2 : strip_trailing (List.replicate 128 97 ++ []) 128 = 128 := by
      rw [strip_trailing, if_neg]
      rw [List.append_nil, List.getD_eq_getElem?_getD, List.getElem?_replicate]
      decide
    rw [if_pos ⟨by decide, Or.inl rfl⟩, h1]
    dsimp only
    rw [h2]
    rfl

/-! ## Command line: string settings -/

/-- C23, the code against the claim. For a string setting with the bounds 4..8 that holds
`cats`, the command with the value `ab`, which is shorter than the lower bound, is not rejected:
the setting is emptied and the reply is `set to`. A value within the bounds is stored, the value
`-` empties the setting, and a value of 9 characters is rejected and leaves the setting as it
is. -/
theorem short_string_empties_setting :
    cli_cmd_set_string { min_length := 4, max_length := 8, writeonce := false } [97, 98]
        [99, 97, 116, 115, 0, 0, 0, 0, 0]
      = ([0, 0, 0, 0, 0, 0, 0, 0, 0], cli_reply.set_to) ∧
    cli_cmd_set_string { min_length := 4, max_length := 8, writeonce := false }
        [97, 98, 99, 100, 101] [99, 97, 116, 115, 0, 0, 0, 0, 0]
      = ([97, 98, 99, 100, 101, 0, 0, 0, 0], cli_reply.set_to) ∧
    cli_cmd_set_string { min_length := 4, max_length := 8, writeonce := false } [45]
        [99, 97, 116, 115, 0, 0, 0, 0, 0]
      = ([0, 0, 0, 0, 0, 0, 0, 0, 0], cli_reply.set_to) ∧
    cli_cmd_set_string { min_length := 4, max_length := 8, writeonce := false }
        [97, 98, 99, 100, 101, 102, 103, 104, 105] [99, 97, 116, 115, 0, 0, 0, 0, 0]
      = ([99, 97, 116, 115, 0, 0, 0, 0, 0], cli_reply.INVALID_VALUE) := by
  refine ⟨?_, ?_, ?_, ?_⟩ <;> decide

end Cats
